import Mathlib

/-!
Unit drawer: render bins, live set and ghost archive

A shallow embedding of `rts/Rendering/UnitModels/UnitDrawer.cpp`: the registry
(`CUnitDrawer::UnitCreated`, `UnitDestroyed`, `UnitCloaked`, `UnitDecloaked`), the ghost
archive (`DrawGhostedBuildings`), the classifier (`DoDrawUnit`, `DrawAsIcon`, `DrawUnitLOD`)
and the pruning of temporary units (`Update`), followed by theorems about them.

Conventions of the embedding:

* a pointer to a unit or to a ground decal is a natural number (its identity); the fields
  a function reads through a `CUnit*` are the fields of the `CUnit` record it is given,
  i.e. their values at the moment of the call;
* a `std::vector` indexed by model type is a function of the model type together with
  the size of the vector: the constructor resizes `ghostBuildings`, `opaqueModelRenderers`
  and `cloakedModelRenderers` to `MODELTYPE_OTHER` entries and nothing resizes them later,
  and a registry function that indexes one of them with the model type of a unit at or past
  that size returns `none`; a `std::map` keyed by texture type is a function of the texture
  type (an absent key is the empty set), a `std::set` of pointers is a `Finset`, a
  `std::list` is a `List` in iteration order;
* dereferencing a null pointer makes the function return `none`, and so does indexing
  outside a vector;
* a `float` is carried as an integer: the drawer copies such values, hands them to the
  line-of-sight and camera tests, compares them and multiplies them; rounding and
  not-a-number values are not modelled;
* OpenGL calls and the calls into the ground-decal handler (`groundDecals->AddBuilding`,
  `groundDecals->RemoveBuilding`) act on objects outside the drawer and touch none of its
  fields; the one write a drawer function itself makes into a decal (`gbOwner = 0`) is
  recorded in the result of `DrawGhostedBuildings`.
-/

namespace Spring

/-! ## Data model -/

/-- A world position (`float3`). -/
structure float3 where
  x : Int
  y : Int
  z : Int
deriving DecidableEq, Repr

/-- The fields of `S3DModel` read by the drawer. -/
structure S3DModel where
  type : Nat
  textureType : Nat
  radius : Int
deriving DecidableEq, Repr

/-- What is reached through a `decoyDef` pointer: the model `decoyDef->LoadModel()` returns. -/
structure DecoyDef where
  LoadModel : S3DModel
deriving DecidableEq, Repr

/-- What is reached through `unitDef->iconType`: the squared icon-distance multiplier
`GetDistanceSqr()` of the unit type's icon. -/
structure CIcon where
  GetDistanceSqr : Int
deriving DecidableEq, Repr

/-- The fields of `UnitDef` read by the registry functions and by the classifier. -/
structure UnitDef where
  useBuildingGroundDecal : Bool
  decoyDef : Option DecoyDef
  iconType : CIcon
deriving DecidableEq, Repr

/-- The material-type tags the drawer indexes `unit->luaMats` with. The enumeration is
declared outside the given sources; these are the five tags the drawer names. -/
inductive LuaMatType where
  | LUAMAT_ALPHA
  | LUAMAT_OPAQUE
  | LUAMAT_ALPHA_REFLECT
  | LUAMAT_OPAQUE_REFLECT
  | LUAMAT_SHADOW
deriving DecidableEq, Repr

/-- A level-of-detail material (`LuaUnitLODMaterial`), as far as the drawer uses it:
`matref` names the bin of the external material binner that `AddUnit` queues into,
`IsActive` is the answer of `IsActive()`. -/
structure LuaUnitLODMaterial where
  matref : Nat
  IsActive : Bool
deriving DecidableEq, Repr

/-- A unit material (`LuaUnitMaterial`), as far as the drawer uses it: `GetLastLOD()` and
`GetMaterial(lod)`, which may return null. -/
structure LuaUnitMaterial where
  GetLastLOD : Nat
  GetMaterial : Nat → Option LuaUnitLODMaterial

/-- The fields of `CUnit` (and of `CBuilding`, when `isBuilding`) read by the registry
functions and by the classifier. `id` is the address of the unit, `isBuilding` says whether
`dynamic_cast<CBuilding*>(unit)` is non-null, `losStatus` is indexed by ally team,
`mobility` says whether the `mobility` pointer is non-null, and `CalcLOD` is the method
`unit->CalcLOD(lastLOD)`, whose body is outside the given sources. -/
structure CUnit where
  id : Nat
  isBuilding : Bool
  unitDef : UnitDef
  model : Option S3DModel
  isCloaked : Bool
  losStatus : Nat → Nat
  pos : float3
  team : Int
  buildFacing : Int
  buildingDecal : Option Nat
  noDraw : Bool
  drawMidPos : float3
  radius : Int
  sqRadius : Int
  mobility : Bool
  isIcon : Bool
  lodCount : Nat
  currentLOD : Nat
  luaMats : LuaMatType → LuaUnitMaterial
  CalcLOD : Nat → Nat

/-- A `GhostBuilding`: the remnant of a destroyed building. -/
structure GhostBuilding where
  pos : float3
  model : S3DModel
  decal : Option Nat
  facing : Int
  team : Int
deriving DecidableEq, Repr

/-- Modelled from the spec: the bits of the line-of-sight status bitmask (`LOS_INLOS`,
`LOS_INRADAR`, `LOS_PREVLOS`, `LOS_CONTRADAR` are defined outside the given sources); the
spec lists the mask as in-view / previously-seen / in-sensor-range / counter-sensed, four
distinct flags. -/
def LOS_INLOS : Nat := 1

/-- Modelled from the spec: the in-sensor-range bit of the status bitmask. -/
def LOS_INRADAR : Nat := 2

/-- Modelled from the spec: the previously-seen bit of the status bitmask. -/
def LOS_PREVLOS : Nat := 4

/-- Modelled from the spec: the counter-sensed bit of the status bitmask. -/
def LOS_CONTRADAR : Nat := 8

/-- The fields of `gu` (global unsynced state) read here; `directControl` is the address of
the unit the local player controls in first person, if any. -/
structure CGlobalUnsynced where
  myAllyTeam : Nat
  spectatingFullView : Bool
  directControl : Option Nat
deriving DecidableEq, Repr

/-- The field of `gameSetup` read here. -/
structure CGameSetup where
  ghostedBuildings : Bool
deriving DecidableEq, Repr

/-- The globals the registry functions read: `gu` and the nullable `gameSetup`. -/
structure Globals where
  gu : CGlobalUnsynced
  gameSetup : Option CGameSetup
deriving DecidableEq, Repr

/-- Modelled from the spec: `IWorldObjectModelRenderer` is declared outside the given
sources; the spec describes a render bin as a mapping from a secondary key (skin/texture
id) to a set of renderable references, insertion order irrelevant, uniqueness by
identity. One renderer holds the sets of one model type. -/
structure IWorldObjectModelRenderer where
  units : Nat → Finset Nat

/-- Modelled from the spec: the macro `MDL_TYPE(o)` is defined outside the given sources;
it reads the model-format tag of the object's model. -/
def MDL_TYPE (m : S3DModel) : Nat := m.type

/-- Modelled from the spec: the macro `TEX_TYPE(o)` is defined outside the given sources;
it reads the secondary (skin/texture) key of the object's model. -/
def TEX_TYPE (m : S3DModel) : Nat := m.textureType

/-- Modelled from the spec: `IWorldObjectModelRenderer::AddUnit` is defined outside the
given sources; it adds the unit to the set kept under the texture type of its model `m`
(uniqueness by identity: adding a member again changes nothing). -/
def IWorldObjectModelRenderer.AddUnit (r : IWorldObjectModelRenderer) (m : S3DModel)
    (u : CUnit) : IWorldObjectModelRenderer :=
  { units := Function.update r.units (TEX_TYPE m) (insert u.id (r.units (TEX_TYPE m))) }

/-- Modelled from the spec: `IWorldObjectModelRenderer::DelUnit` is defined outside the
given sources; it removes the unit from the set kept under the texture type of its model
`m` (removing a non-member changes nothing). -/
def IWorldObjectModelRenderer.DelUnit (r : IWorldObjectModelRenderer) (m : S3DModel)
    (u : CUnit) : IWorldObjectModelRenderer :=
  { units := Function.update r.units (TEX_TYPE m) ((r.units (TEX_TYPE m)).erase u.id) }

/-- The call `bin[MDL_TYPE(u)]->AddUnit(u)` on a vector of `size` renderers, `m` being the
model of `u`: `none` when the index `MDL_TYPE(u)` is outside the vector. -/
def binAdd (size : Nat) (bin : Nat → IWorldObjectModelRenderer) (m : S3DModel) (u : CUnit) :
    Option (Nat → IWorldObjectModelRenderer) :=
  if MDL_TYPE m < size then
    some (Function.update bin (MDL_TYPE m) ((bin (MDL_TYPE m)).AddUnit m u))
  else none

/-- The call `bin[MDL_TYPE(u)]->DelUnit(u)` on a vector of `size` renderers, `m` being the
model of `u`: `none` when the index `MDL_TYPE(u)` is outside the vector. -/
def binDel (size : Nat) (bin : Nat → IWorldObjectModelRenderer) (m : S3DModel) (u : CUnit) :
    Option (Nat → IWorldObjectModelRenderer) :=
  if MDL_TYPE m < size then
    some (Function.update bin (MDL_TYPE m) ((bin (MDL_TYPE m)).DelUnit m u))
  else none

/-- The fields of `CUnitDrawer` that make up the registry and the ghost archive. The
constructor resizes `ghostBuildings`, `opaqueModelRenderers` and `cloakedModelRenderers` to
`MODELTYPE_OTHER` entries, and nothing resizes them before the destructor; the value of that
enumerator is fixed outside the given sources, so it is carried as the field
`MODELTYPE_OTHER`, the size of the three vectors. Entry `t` of a vector is the value of the
function at `t`, for `t` below that size. The constructor fills
`opaqueModelRenderers[modelType]` and `cloakedModelRenderers[modelType]` with one fresh
renderer each (the destructor deletes both), so the two vectors share no renderer. -/
structure CUnitDrawer where
  MODELTYPE_OTHER : Nat
  opaqueModelRenderers : Nat → IWorldObjectModelRenderer
  cloakedModelRenderers : Nat → IWorldObjectModelRenderer
  unsortedUnits : Finset Nat
  ghostBuildings : Nat → List GhostBuilding

/-- The drawer right after construction, for a given value of `MODELTYPE_OTHER`: empty
bins, empty live set, empty archive. -/
def CUnitDrawer.empty (MODELTYPE_OTHER : Nat) : CUnitDrawer :=
  { MODELTYPE_OTHER := MODELTYPE_OTHER
    opaqueModelRenderers := fun _ => { units := fun _ => ∅ }
    cloakedModelRenderers := fun _ => { units := fun _ => ∅ }
    unsortedUnits := ∅
    ghostBuildings := fun _ => [] }

/-! ## Registry operations -/

/-- The function `CUnitDrawer::UnitCreated`: `none` when `MDL_TYPE(u)` is outside the
vector it indexes. -/
def UnitCreated (d : CUnitDrawer) (u : CUnit) : Option CUnitDrawer :=
  let d1 : Option CUnitDrawer :=
    match u.model with
    | some m =>
      if u.isCloaked then
        (binAdd d.MODELTYPE_OTHER d.cloakedModelRenderers m u).map
          (fun bin => { d with cloakedModelRenderers := bin })
      else
        (binAdd d.MODELTYPE_OTHER d.opaqueModelRenderers m u).map
          (fun bin => { d with opaqueModelRenderers := bin })
    | none => some d
  d1.map (fun d2 => { d2 with unsortedUnits := insert u.id d2.unsortedUnits })

/-- The test `!gameSetup || gameSetup->ghostedBuildings` of `UnitDestroyed`. -/
def ghostingEnabled (g : Globals) : Bool :=
  match g.gameSetup with
  | none => true
  | some gs => gs.ghostedBuildings

/-- The inner test of `UnitDestroyed`: neither in-los nor counter-radar, prior-los set, and
the local player is not spectating with full view. -/
def ghostLosTest (g : Globals) (building : CUnit) : Bool :=
  (building.losStatus g.gu.myAllyTeam &&& (LOS_INLOS ||| LOS_CONTRADAR)) == 0 &&
  (building.losStatus g.gu.myAllyTeam &&& LOS_PREVLOS) != 0 &&
  !g.gu.spectatingFullView

/-- The model a ghost is given:
`(decoyDef == NULL) ? building->model : decoyDef->LoadModel()`. -/
def gbModelOf (building : CUnit) : Option S3DModel :=
  match building.unitDef.decoyDef with
  | none => building.model
  | some decoyDef => some decoyDef.LoadModel

/-- The ghost `UnitDestroyed` fills in for a building, given its model. -/
def newGhost (building : CUnit) (gbModel : S3DModel) : GhostBuilding :=
  { pos := building.pos
    model := gbModel
    decal := building.buildingDecal
    facing := building.buildFacing
    team := building.team }

/-- The first half of `CUnitDrawer::UnitDestroyed`: the ghost of a building.
`ghostBuildings[gbModel->type].push_back(gb)` dereferences `gbModel` and indexes the vector
of ghost lists with its type: `none` when `gbModel` is null and when `gbModel->type` is
outside the vector. -/
def archiveGhost (g : Globals) (d : CUnitDrawer) (u : CUnit) : Option CUnitDrawer :=
  if u.isBuilding then
    if ghostingEnabled g then
      if ghostLosTest g u then
        match gbModelOf u with
        | none => none
        | some gbModel =>
          if gbModel.type < d.MODELTYPE_OTHER then
            some { d with
              ghostBuildings :=
                Function.update d.ghostBuildings gbModel.type
                  (d.ghostBuildings gbModel.type ++ [newGhost u gbModel]) }
          else none
      else some d
    else some d
  else some d

/-- The second half of `CUnitDrawer::UnitDestroyed`: the bins and the live set; `none` when
`MDL_TYPE(u)` is outside the vector it indexes. -/
def unregister (d : CUnitDrawer) (u : CUnit) : Option CUnitDrawer :=
  let d1 : Option CUnitDrawer :=
    match u.model with
    | some m =>
      if u.isCloaked then
        (binDel d.MODELTYPE_OTHER d.cloakedModelRenderers m u).map
          (fun bin => { d with cloakedModelRenderers := bin })
      else
        (binDel d.MODELTYPE_OTHER d.opaqueModelRenderers m u).map
          (fun bin => { d with opaqueModelRenderers := bin })
    | none => some d
  d1.map (fun d2 => { d2 with unsortedUnits := d2.unsortedUnits.erase u.id })

/-- The function `CUnitDrawer::UnitDestroyed` (non-GML build). -/
def UnitDestroyed (g : Globals) (d : CUnitDrawer) (u : CUnit) : Option CUnitDrawer :=
  (archiveGhost g d u).bind (fun d1 => unregister d1 u)

/-- The function `CUnitDrawer::UnitCloaked`: `AddUnit` on the cloaked vector, then `DelUnit`
on the opaque vector; `none` when `MDL_TYPE(u)` is outside the vectors. -/
def UnitCloaked (d : CUnitDrawer) (u : CUnit) : Option CUnitDrawer :=
  match u.model with
  | some m =>
    match binAdd d.MODELTYPE_OTHER d.cloakedModelRenderers m u with
    | none => none
    | some added =>
      match binDel d.MODELTYPE_OTHER d.opaqueModelRenderers m u with
      | none => none
      | some removed =>
        some { d with cloakedModelRenderers := added, opaqueModelRenderers := removed }
  | none => some d

/-- The function `CUnitDrawer::UnitDecloaked`: `AddUnit` on the opaque vector, then
`DelUnit` on the cloaked vector; `none` when `MDL_TYPE(u)` is outside the vectors. -/
def UnitDecloaked (d : CUnitDrawer) (u : CUnit) : Option CUnitDrawer :=
  match u.model with
  | some m =>
    match binAdd d.MODELTYPE_OTHER d.opaqueModelRenderers m u with
    | none => none
    | some added =>
      match binDel d.MODELTYPE_OTHER d.cloakedModelRenderers m u with
      | none => none
      | some removed =>
        some { d with opaqueModelRenderers := added, cloakedModelRenderers := removed }
  | none => some d

/-- Membership of a unit in a bin (a vector of `size` renderers): the model type of the unit
is an index of the vector and the unit is found where the bin files it, in the renderer of
its model type under the texture type of its model. A unit without a model is in no bin. -/
def inBin (size : Nat) (bin : Nat → IWorldObjectModelRenderer) (u : CUnit) : Prop :=
  match u.model with
  | some m => MDL_TYPE m < size ∧ u.id ∈ (bin (MDL_TYPE m)).units (TEX_TYPE m)
  | none => False

instance (size : Nat) (bin : Nat → IWorldObjectModelRenderer) (u : CUnit) :
    Decidable (inBin size bin u) := by
  unfold inBin
  cases u.model <;> infer_instance

/-! ## Notification sequences -/

/-- The four notifications the simulation sends to the drawer. -/
inductive Notification where
  | UnitCreated (u : CUnit)
  | UnitDestroyed (u : CUnit)
  | UnitCloaked (u : CUnit)
  | UnitDecloaked (u : CUnit)

/-- Deliver one notification. -/
def notify (g : Globals) (d : CUnitDrawer) : Notification → Option CUnitDrawer
  | .UnitCreated u => UnitCreated d u
  | .UnitDestroyed u => UnitDestroyed g d u
  | .UnitCloaked u => UnitCloaked d u
  | .UnitDecloaked u => UnitDecloaked d u

/-- Deliver a sequence of notifications, oldest first. -/
def run (g : Globals) (d : CUnitDrawer) : List Notification → Option CUnitDrawer
  | [] => some d
  | n :: ns => (notify g d n).bind (fun d1 => run g d1 ns)

/-- A sequence is admissible from `d` when each `UnitCreated(u)` in it arrives while `u` is
not in the bin `UnitCreated` does not add it to: not in the opaque bin when `u.isCloaked` is
set, not in the cloaked bin when it is clear. -/
def Admissible (g : Globals) : CUnitDrawer → List Notification → Prop
  | _, [] => True
  | d, n :: ns =>
    (∀ u, n = Notification.UnitCreated u →
      (u.isCloaked = true → ¬ inBin d.MODELTYPE_OTHER d.opaqueModelRenderers u) ∧
      (u.isCloaked = false → ¬ inBin d.MODELTYPE_OTHER d.cloakedModelRenderers u)) ∧
    (∀ d1, notify g d n = some d1 → Admissible g d1 ns)

/-- No unit identity sits in the same slot of both bins. -/
def Exclusive (d : CUnitDrawer) : Prop :=
  ∀ id mt tt, ¬ (id ∈ (d.opaqueModelRenderers mt).units tt ∧
    id ∈ (d.cloakedModelRenderers mt).units tt)

/-- The three nested tests of `UnitDestroyed` under which a ghost is made: the unit is a
building, ghosting is enabled, and the line-of-sight test passes. -/
def ghostWanted (g : Globals) (u : CUnit) : Bool :=
  u.isBuilding && ghostingEnabled g && ghostLosTest g u

/-! ## Ghost archive -/

/-- The number of stored ghosts: the lengths of the ghost lists of the vector
`ghostBuildings`, which has `MODELTYPE_OTHER` entries, added up. -/
def numGhosts (d : CUnitDrawer) : Nat :=
  ∑ t in Finset.range d.MODELTYPE_OTHER, (d.ghostBuildings t).length

/-- The sensor collaborators, as oracles over a position and an ally team. `InLos` is
`loshandler->InLos(pos, allyTeam)`, the one query `DrawGhostedBuildings` makes.
`InContRadar` stands for counter-radar coverage of a position; no drawer function asks for
it. -/
structure Sensors where
  InLos : float3 → Nat → Bool
  InContRadar : float3 → Nat → Bool

/-- The camera collaborator: `camera->InView(pos, radius)` and `camera->pos`. -/
structure CCamera where
  InView : float3 → Int → Bool
  pos : float3

/-- What one walk over a ghost list leaves behind: the list itself after the erasures, the
decals whose `gbOwner` was set to 0 (one entry per write, in order), and the ghosts whose
model was drawn (in order). -/
structure GhostWalk where
  ghosts : List GhostBuilding
  cleared : List Nat
  drawn : List GhostBuilding
deriving DecidableEq, Repr

/-- The loop of `CUnitDrawer::DrawGhostedBuildings` over one ghost list. A ghost whose
position is in line of sight has the `gbOwner` of its decal (if any) cleared and is erased;
any other ghost stays and is drawn when `camera->InView(pos, model->radius * 2)`. -/
def ghostWalk (s : Sensors) (camera : CCamera) (gu : CGlobalUnsynced) :
    List GhostBuilding → GhostWalk
  | [] => { ghosts := [], cleared := [], drawn := [] }
  | gb :: rest =>
    let w := ghostWalk s camera gu rest
    if s.InLos gb.pos gu.myAllyTeam then
      match gb.decal with
      | some decal => { w with cleared := decal :: w.cleared }
      | none => w
    else
      if camera.InView gb.pos (gb.model.radius * 2) then
        { w with ghosts := gb :: w.ghosts, drawn := gb :: w.drawn }
      else
        { w with ghosts := gb :: w.ghosts }

/-- The result of `DrawGhostedBuildings`: the drawer, the decals cleared, the ghosts
drawn. -/
structure GhostPass where
  drawer : CUnitDrawer
  cleared : List Nat
  drawn : List GhostBuilding

/-- The function `CUnitDrawer::DrawGhostedBuildings(modelType)`. Its one caller, the loop
of `DrawCloakedUnitsHelper`, passes the model types from `MODELTYPE_3DO` up to, not
including, `MODELTYPE_OTHER`, so `ghostBuildings[modelType]` is an entry of the vector. -/
def DrawGhostedBuildings (s : Sensors) (camera : CCamera) (gu : CGlobalUnsynced)
    (d : CUnitDrawer) (modelType : Nat) : GhostPass :=
  let w := ghostWalk s camera gu (d.ghostBuildings modelType)
  { drawer := { d with ghostBuildings := Function.update d.ghostBuildings modelType w.ghosts }
    cleared := w.cleared
    drawn := w.drawn }

/-! ## Classification: settings, transient lists, `DoDrawUnit` -/

/-- The settings of `CUnitDrawer` the classifier reads. `iconLength` is set by
`SetUnitIconDist`, `unitDrawDistSqr` by `SetUnitDrawDist`, `showHealthBars` by the
constructor, the two distance-to-ground fields by `Update`. -/
structure UnitDrawSettings where
  iconLength : Int
  unitDrawDistSqr : Int
  showHealthBars : Bool
  useDistToGroundForIcons : Bool
  sqCamDistToGroundForIcons : Int
deriving DecidableEq, Repr

/-- The four transient lists of `CUnitDrawer` (units by address, in push order), together
with what the classifier emits besides them: `drawnNow` records the immediate draws
(`SetTeamColour` followed by `DrawUnitNow(unit)`), `lodBins` records the hand-offs to the
material binner (`lodMat->AddUnit(unit)`) as pairs of bin and unit. -/
structure DrawLists where
  drawFar : List Nat
  drawStat : List Nat
  drawIcon : List Nat
  drawRadarIcon : List Nat
  drawnNow : List Nat
  lodBins : List (Nat × Nat)
deriving DecidableEq, Repr

/-- The lists with nothing in them. -/
def DrawLists.empty : DrawLists :=
  { drawFar := [], drawStat := [], drawIcon := [], drawRadarIcon := [], drawnNow := []
    lodBins := [] }

/-- The water renderer, as far as the drawer reads it: `water->drawReflection`. -/
structure CBaseWater where
  drawReflection : Bool
deriving DecidableEq, Repr

/-- What the classifier reads outside the drawer and the unit: the globals, the camera, the
water renderer, and the ground. Of the ground only the reflection test of `DoDrawUnit` is
kept, as an oracle: `reflectionCull unit` says whether
`ground->GetApproximateHeight(zeroPos.x, zeroPos.z) > unit->radius`, where `zeroPos` is
`drawMidPos` if that is under water and otherwise the point where the line from the camera to
`drawMidPos` meets the water plane (a floating-point interpolation with a division). -/
structure World where
  g : Globals
  camera : CCamera
  water : CBaseWater
  reflectionCull : CUnit → Bool

/-- The square of the length of `a - b`: `(a - b).SqLength()`. -/
def sqDistance (a b : float3) : Int :=
  (a.x - b.x) * (a.x - b.x) + (a.y - b.y) * (a.y - b.y) + (a.z - b.z) * (a.z - b.z)

/-- The function `CUnitDrawer::DrawAsIcon`. -/
def DrawAsIcon (s : UnitDrawSettings) (unit : CUnit) (sqUnitCamDist : Int) : Bool :=
  let sqIconDistMult := unit.unitDef.iconType.GetDistanceSqr
  let realIconLength := s.iconLength * sqIconDistMult
  if s.useDistToGroundForIcons then
    decide (s.sqCamDistToGroundForIcons > realIconLength)
  else
    decide (sqUnitCamDist > realIconLength)

/-- The material type `DrawUnitLOD` picks: alpha for a cloaked unit, opaque otherwise, each
in its reflection variant when `water->drawReflection`. -/
def lodMatType (w : World) (unit : CUnit) : LuaMatType :=
  if unit.isCloaked then
    if w.water.drawReflection then LuaMatType.LUAMAT_ALPHA_REFLECT else LuaMatType.LUAMAT_ALPHA
  else
    if w.water.drawReflection then LuaMatType.LUAMAT_OPAQUE_REFLECT
    else LuaMatType.LUAMAT_OPAQUE

/-- The function `CUnitDrawer::DrawUnitLOD`. Its two branches run the same statements on the
material of `lodMatType`. The result is the returned flag, the unit (with `currentLOD`
written) and the lists (with the hand-off recorded). -/
def DrawUnitLOD (w : World) (unit : CUnit) (L : DrawLists) : Bool × CUnit × DrawLists :=
  if unit.lodCount > 0 then
    let unitMat := unit.luaMats (lodMatType w unit)
    let lod := unit.CalcLOD unitMat.GetLastLOD
    let unit1 : CUnit := { unit with currentLOD := lod }
    match unitMat.GetMaterial lod with
    | some lodMat =>
      if lodMat.IsActive then
        (true, unit1, { L with lodBins := L.lodBins ++ [(lodMat.matref, unit.id)] })
      else (false, unit1, L)
    | none => (false, unit1, L)
  else (false, unit, L)

/-- The part of `DoDrawUnit` that classifies a directly observed unit once the culling tests
are passed: icon, far texture or full model, and the stat overlay. -/
def drawObserved (w : World) (s : UnitDrawSettings) (unit : CUnit) (L : DrawLists) :
    CUnit × DrawLists :=
  let sqDist := sqDistance unit.pos w.camera.pos
  let unit1 : CUnit := { unit with isIcon := DrawAsIcon s unit sqDist }
  if unit1.isIcon then
    (unit1, { L with drawIcon := L.drawIcon ++ [unit.id] })
  else
    let farLength := unit1.sqRadius * s.unitDrawDistSqr
    let r : CUnit × DrawLists :=
      if sqDist > farLength then
        (unit1, { L with drawFar := L.drawFar ++ [unit.id] })
      else
        match DrawUnitLOD w unit1 L with
        | (true, unit2, L2) => (unit2, L2)
        | (false, unit2, L2) => (unit2, { L2 with drawnNow := L2.drawnNow ++ [unit.id] })
    if s.showHealthBars && decide (sqDist < s.unitDrawDistSqr * 500) then
      (r.1, { r.2 with drawStat := r.2.drawStat ++ [unit.id] })
    else r

/-- The part of `DoDrawUnit` for a unit seen earlier but not now (`LOS_PREVLOS`). -/
def drawPrevLos (w : World) (s : UnitDrawSettings) (unit : CUnit) (losStatus : Nat)
    (L : DrawLists) : CUnit × DrawLists :=
  let unit1 : CUnit :=
    if ghostingEnabled w.g && !unit.mobility then
      { unit with isIcon := DrawAsIcon s unit (sqDistance unit.pos w.camera.pos) }
    else unit
  if (losStatus &&& LOS_INRADAR) != 0 then
    if (losStatus &&& LOS_CONTRADAR) == 0 then
      (unit1, { L with drawRadarIcon := L.drawRadarIcon ++ [unit.id] })
    else if unit1.isIcon then
      (unit1, { L with drawIcon := L.drawIcon ++ [unit.id] })
    else (unit1, L)
  else (unit1, L)

/-- The function `CUnitDrawer::DoDrawUnit` (non-GML build). `excludeUnit` is a nullable
pointer. The result is the unit (with `isIcon` and `currentLOD` as written) and the
lists. -/
def DoDrawUnit (w : World) (s : UnitDrawSettings) (unit : CUnit) (excludeUnit : Option Nat)
    (drawReflection drawRefraction : Bool) (L : DrawLists) : CUnit × DrawLists :=
  if excludeUnit = some unit.id then (unit, L)
  else if unit.noDraw then (unit, L)
  else if !w.camera.InView unit.drawMidPos (unit.radius + 30) then (unit, L)
  else
    let losStatus := unit.losStatus w.g.gu.myAllyTeam
    if (losStatus &&& LOS_INLOS) != 0 || w.g.gu.spectatingFullView then
      if drawReflection then
        if w.reflectionCull unit then (unit, L) else drawObserved w s unit L
      else if drawRefraction then
        if decide (unit.pos.y > 0) then (unit, L) else drawObserved w s unit L
      else drawObserved w s unit L
    else if (losStatus &&& LOS_PREVLOS) != 0 then drawPrevLos w s unit losStatus L
    else if (losStatus &&& LOS_INRADAR) != 0 then
      (unit, { L with drawRadarIcon := L.drawRadarIcon ++ [unit.id] })
    else (unit, L)

/-- The unit `Draw` has the classifier leave out:
`drawReflection ? NULL : gu->directControl`. -/
def Draw.excludeUnit (gu : CGlobalUnsynced) (drawReflection : Bool) : Option Nat :=
  if drawReflection then none else gu.directControl

/-- The loop `DRAW_UNIT_SET` of `DrawOpaqueUnits`: `DoDrawUnit` on each unit of a bin, in
iteration order. The result is the units as the classifier left them, and the lists. -/
def drawUnitSet (w : World) (s : UnitDrawSettings) (excludeUnit : Option Nat)
    (drawReflection drawRefraction : Bool) : List CUnit → DrawLists → List CUnit × DrawLists
  | [], L => ([], L)
  | unit :: rest, L =>
    let r := DoDrawUnit w s unit excludeUnit drawReflection drawRefraction L
    let rs := drawUnitSet w s excludeUnit drawReflection drawRefraction rest r.2
    (r.1 :: rs.1, rs.2)

/-- The classifying part of `CUnitDrawer::Draw(drawReflection, drawRefraction)`: the four
transient lists are cleared, the excluded unit is chosen, and the units of the opaque bins
go through `DoDrawUnit`. `opaqueUnits` is the content of the opaque bins in the order
`DrawOpaqueUnits` walks it: model types ascending (those with a case of the `switch`, 3DO
and S3O), texture types ascending, units of a set in the order of the set. -/
def Draw.classify (w : World) (s : UnitDrawSettings) (drawReflection drawRefraction : Bool)
    (opaqueUnits : List CUnit) (L : DrawLists) : List CUnit × DrawLists :=
  let L0 : DrawLists :=
    { L with drawFar := [], drawStat := [], drawIcon := [], drawRadarIcon := [] }
  let excludeUnit := Draw.excludeUnit w.g.gu drawReflection
  drawUnitSet w s excludeUnit drawReflection drawRefraction opaqueUnits L0

/-- The detail classes of a directly observed unit, least aggregated first. -/
inductive DrawClass where
  | fullModel
  | farTexture
  | icon
deriving DecidableEq, Repr

/-- The position of a class in the order full-model < far-texture < icon. -/
def DrawClass.rank : DrawClass → Nat
  | DrawClass.fullModel => 0
  | DrawClass.farTexture => 1
  | DrawClass.icon => 2

/-- The class a unit was given, read off the lists one `DoDrawUnit` call filled: icon if it
is in the icon list, far texture if it is in the far list, full model if it was drawn at
once or handed to the material binner, and none if it was not drawn. -/
def classOf (L : DrawLists) (unit : Nat) : Option DrawClass :=
  if unit ∈ L.drawIcon then some DrawClass.icon
  else if unit ∈ L.drawFar then some DrawClass.farTexture
  else if unit ∈ L.drawnNow ∨ unit ∈ L.lodBins.map Prod.snd then some DrawClass.fullModel
  else none

/-- A unit (by address) occurs in the lists: in one of the four transient lists, among the
immediate draws, or among the hand-offs to the material binner. -/
def DrawLists.Mentions (L : DrawLists) (unit : Nat) : Prop :=
  unit ∈ L.drawFar ∨ unit ∈ L.drawStat ∨ unit ∈ L.drawIcon ∨ unit ∈ L.drawRadarIcon ∨
    unit ∈ L.drawnNow ∨ unit ∈ L.lodBins.map Prod.snd

/-! ## Shadow pass and level-of-detail factor -/

/-- The four level-of-detail scales of `CUnitDrawer`, read from the configuration by the
constructor. `F` is the number type (`float` in the source); only its multiplication is
used. -/
structure LODScales (F : Type) where
  LODScale : F
  LODScaleShadow : F
  LODScaleReflection : F
  LODScaleRefraction : F

/-- The value `CUnitDrawer::Draw(drawReflection, drawRefraction)` hands to
`CUnit::SetLODFactor`. -/
def Draw.lodFactor {F : Type} [Mul F] (c : LODScales F) (drawReflection drawRefraction : Bool) :
    F :=
  if drawReflection then c.LODScale * c.LODScaleReflection
  else if drawRefraction then c.LODScale * c.LODScaleRefraction
  else c.LODScale

/-- The value `CUnitDrawer::DrawShadowPass` hands to `CUnit::SetLODFactor`. -/
def DrawShadowPass.lodFactor {F : Type} [Mul F] (c : LODScales F) : F :=
  c.LODScale * c.LODScaleShadow

/-- The immediate draw of `DoDrawUnitShadow`: `PUSH_SHADOW_TEXTURE_STATE(unit->model)`,
`DrawUnitNow(unit)`, `POP_SHADOW_TEXTURE_STATE(unit->model)`. With
`UNIT_SHADOW_ALPHA_MASKING` defined, as it is in this file, the two macros read
`model->type`, which dereferences `unit->model`: `none` when that is null. -/
def shadowDrawNow (unit : CUnit) (L : DrawLists) : Option (CUnit × DrawLists) :=
  match unit.model with
  | none => none
  | some _ => some (unit, { L with drawnNow := L.drawnNow ++ [unit.id] })

/-- The function `CUnitDrawer::DoDrawUnitShadow`. The draws and hand-offs are recorded in the
same lists as those of `DoDrawUnit`. -/
def DoDrawUnitShadow (w : World) (s : UnitDrawSettings) (unit : CUnit) (L : DrawLists) :
    Option (CUnit × DrawLists) :=
  let losStatus := unit.losStatus w.g.gu.myAllyTeam
  if !(((losStatus &&& LOS_INLOS) != 0 || w.g.gu.spectatingFullView) &&
      w.camera.InView unit.drawMidPos (unit.radius + 700)) then some (unit, L)
  else
    let sqDist := sqDistance unit.pos w.camera.pos
    let farLength := unit.sqRadius * s.unitDrawDistSqr
    if sqDist ≥ farLength then some (unit, L)
    else if unit.isCloaked then some (unit, L)
    else if DrawAsIcon s unit sqDist then some (unit, L)
    else if unit.lodCount ≤ 0 then shadowDrawNow unit L
    else
      let unitMat := unit.luaMats LuaMatType.LUAMAT_SHADOW
      let lod := unit.CalcLOD unitMat.GetLastLOD
      let unit1 : CUnit := { unit with currentLOD := lod }
      match unitMat.GetMaterial lod with
      | some lodMat =>
        if lodMat.IsActive then
          some (unit1, { L with lodBins := L.lodBins ++ [(lodMat.matref, unit.id)] })
        else shadowDrawNow unit1 L
      | none => shadowDrawNow unit1 L

/-- The loop of `CUnitDrawer::DrawShadowPass` (non-GML build): `DoDrawUnitShadow` on every
unit of `unsortedUnits`, in the order of the set. `units` is the content of the live set in
that order. -/
def DrawShadowPass (w : World) (s : UnitDrawSettings) : List CUnit → DrawLists →
    Option (List CUnit × DrawLists)
  | [], L => some ([], L)
  | unit :: rest, L =>
    match DoDrawUnitShadow w s unit L with
    | none => none
    | some r =>
      match DrawShadowPass w s rest r.2 with
      | none => none
      | some rs => some (r.1 :: rs.1, rs.2)

/-! ## Queued S3O objects -/

/-- The conversion of an `int` to `size_t`, as done when a `std::vector` is indexed with an
`int`: the value modulo `2 ^ 64` (`size_t` is taken to be 64 bits wide). -/
def toSizeT (i : Int) : Nat := (i % 2 ^ 64).toNat

/-- Insertion into a `std::set<int>` given by its elements in iteration order (ascending,
each once): the new element goes to its place, and nothing happens if it is there
already. -/
def insertAsc (a : Int) : List Int → List Int
  | [] => [a]
  | b :: rest =>
    if a < b then a :: b :: rest
    else if a = b then b :: rest
    else b :: insertAsc a rest

/-- The queue of S3O objects of `CUnitDrawer` (non-GML build): `quedS3Os`, a vector indexed
by texture type of vectors of object pointers (null allowed), and `usedS3OTextures`, a
`std::set<int>`, given by its elements in iteration order. -/
structure S3OQueue where
  quedS3Os : List (List (Option Nat))
  usedS3OTextures : List Int
deriving DecidableEq, Repr

/-- The queue right after construction. -/
def S3OQueue.empty : S3OQueue := { quedS3Os := [], usedS3OTextures := [] }

/-- The resize loop of `QueS3ODraw`: with `signedTextureType` the texture type, or 0 if that
is negative, push empty vectors while `quedS3Os.size() <= signedTextureType`. -/
def resizeFor (quedS3Os : List (List (Option Nat))) (textureType : Int) :
    List (List (Option Nat)) :=
  let signedTextureType : Nat := if textureType < 0 then 0 else textureType.toNat
  quedS3Os ++ List.replicate (signedTextureType + 1 - quedS3Os.length) []

/-- The function `CUnitDrawer::QueS3ODraw` (non-GML build). After the resize loop it runs
`quedS3Os[textureType].push_back(object)`, indexing with the texture type itself; `none`
when that index is outside the vector. -/
def QueS3ODraw (q : S3OQueue) (object : Option Nat) (textureType : Int) : Option S3OQueue :=
  let quedS3Os := resizeFor q.quedS3Os textureType
  let index := toSizeT textureType
  if index < quedS3Os.length then
    some
      { quedS3Os := quedS3Os.set index (quedS3Os.getD index [] ++ [object])
        usedS3OTextures := insertAsc textureType q.usedS3OTextures }
  else none

/-- The draws of one queue in `DrawQuedS3O`: under the texture `tex`, `DrawS3O()` on every
object of the queue that is not null, in order. A draw is recorded as the pair of texture and
object. -/
def drawQueue (tex : Int) (queue : List (Option Nat)) : List (Int × Nat) :=
  queue.filterMap (fun object => object.map (fun o => (tex, o)))

/-- The loop of `DrawQuedS3O` over the used texture types, given in iteration order: set
the texture, draw the queue `quedS3Os[tex]`, clear it. `none` when an index is outside the
vector. The result is the vector and the draws made. -/
def drawQuedLoop : List Int → List (List (Option Nat)) →
    Option (List (List (Option Nat)) × List (Int × Nat))
  | [], quedS3Os => some (quedS3Os, [])
  | tex :: rest, quedS3Os =>
    if toSizeT tex < quedS3Os.length then
      match drawQuedLoop rest (quedS3Os.set (toSizeT tex) []) with
      | none => none
      | some r => some (r.1, drawQueue tex (quedS3Os.getD (toSizeT tex) []) ++ r.2)
    else none

/-- The function `CUnitDrawer::DrawQuedS3O` (non-GML build): the used texture types are
visited in the order of the set, then `usedS3OTextures` is cleared. The result is the queue
and the draws made, in order. -/
def DrawQuedS3O (q : S3OQueue) : Option (S3OQueue × List (Int × Nat)) :=
  match drawQuedLoop q.usedS3OTextures q.quedS3Os with
  | none => none
  | some r => some ({ quedS3Os := r.1, usedS3OTextures := [] }, r.2)

/-- A call on the queue: `QueS3ODraw(object, textureType)` or `DrawQuedS3O()`. -/
inductive S3OCall where
  | que (object : Option Nat) (textureType : Int)
  | draw
deriving DecidableEq, Repr

/-- Make the calls one after the other. -/
def runS3O (q : S3OQueue) : List S3OCall → Option S3OQueue
  | [] => some q
  | S3OCall.que object textureType :: rest =>
    match QueS3ODraw q object textureType with
    | none => none
    | some q1 => runS3O q1 rest
  | S3OCall.draw :: rest =>
    match DrawQuedS3O q with
    | none => none
    | some r => runS3O r.1 rest

/-- A call keeps to non-negative texture types (within the range of `int`). -/
def S3OCall.NonNegative : S3OCall → Prop
  | S3OCall.que _ textureType => 0 ≤ textureType ∧ textureType < 2 ^ 31
  | S3OCall.draw => True

/-- The invariant of the queue: every index whose queue is not empty is a member of
`usedS3OTextures`. -/
def S3OQueue.Invariant (q : S3OQueue) : Prop :=
  ∀ i, i < q.quedS3Os.length → q.quedS3Os.getD i [] ≠ [] → (i : Int) ∈ q.usedS3OTextures

/-- The queue holds exactly the pairs `queued` (object, texture type): each queue is the
list of objects queued under its index, in order, and the used texture types are those of
the pairs, ascending and each once. -/
def S3OQueue.Holds (q : S3OQueue) (queued : List (Option Nat × Int)) : Prop :=
  (∀ t : Nat, q.quedS3Os.getD t [] =
    (queued.filter (fun c => decide (c.2 = (t : Int)))).map Prod.fst) ∧
  q.usedS3OTextures.Pairwise (· < ·) ∧
  (∀ t : Int, t ∈ q.usedS3OTextures ↔ t ∈ queued.map Prod.snd)

/-! ## Temporary units -/

/-- A `TempDrawUnit`: a unit shown without being simulated. -/
structure TempDrawUnit where
  unitdef : UnitDef
  team : Int
  pos : float3
  rotation : Int
  facing : Int
  drawBorder : Bool
deriving DecidableEq, Repr

/-- A `std::multimap<int, TempDrawUnit>`: its entries in iteration order, which is
ascending in the key. -/
structure TempDrawUnits where
  entries : List (Int × TempDrawUnit)
  ordered : entries.Pairwise (fun a b => a.1 ≤ b.1)

/-- The two collections of temporary units of `CUnitDrawer`. -/
structure TempUnits where
  tempDrawUnits : TempDrawUnits
  tempTransparentDrawUnits : TempDrawUnits

/-- One erase loop of `Update`: while the collection is not empty and the key of its first
entry satisfies `old`, erase the first entry. -/
def eraseFront (old : Int → Bool) (m : TempDrawUnits) : TempDrawUnits :=
  { entries := m.entries.dropWhile (fun e => old e.1)
    ordered := m.ordered.sublist (List.dropWhile_sublist _) }

/-- The pruning step of `CUnitDrawer::Update`, `frameNum` being `gs->frameNum`: the first
block of the function, which is all it does to the temporary units. Keys and frame numbers
are `int`; frame numbers count up from 0, so `frameNum - 1` does not wrap. -/
def Update (frameNum : Int) (t : TempUnits) : TempUnits :=
  { tempDrawUnits := eraseFront (fun key => decide (key < frameNum - 1)) t.tempDrawUnits
    tempTransparentDrawUnits :=
      eraseFront (fun key => decide (key ≤ frameNum)) t.tempTransparentDrawUnits }

/-! ## The opaque pass -/

/-- The lists of `A` followed, list by list, by those of `B`. -/
def DrawLists.append (A B : DrawLists) : DrawLists :=
  DrawLists.mk (A.drawFar ++ B.drawFar) (A.drawStat ++ B.drawStat) (A.drawIcon ++ B.drawIcon)
    (A.drawRadarIcon ++ B.drawRadarIcon) (A.drawnNow ++ B.drawnNow) (A.lodBins ++ B.lodBins)

/-- What `CUnitDrawer::Draw` gives to the graphics layer, one entry per call:
`DrawUnitNow(unit)` from `DoDrawUnit`, `model->DrawStatic()` for a temporary unit,
`DrawS3O()` of a queued object under its texture, `DrawBins(matType)` (the flush of the
material binner), the one vertex array of `DrawFarTextures` with its units,
`DrawIcon(unit, false)`, `DrawIcon(unit, true)` and `DrawUnitStats(unit)`. -/
inductive DrawEvent where
  | unitNow (unit : Nat)
  | aiUnit (t : TempDrawUnit)
  | s3oObject (tex : Int) (object : Nat)
  | shaderBins (matType : LuaMatType)
  | farTextures (units : List Nat)
  | icon (unit : Nat)
  | radarBlip (unit : Nat)
  | stats (unit : Nat)
deriving DecidableEq, Repr

/-- The stage of `Draw` an entry belongs to: 0 for the immediate draws of `DrawOpaqueUnits`,
1 for the flush of the material binner, 2 for the far-texture batch, 3 for an icon, 4 for a
radar blip, 5 for a stat overlay. -/
def DrawEvent.stage : DrawEvent → Nat
  | DrawEvent.unitNow _ => 0
  | DrawEvent.aiUnit _ => 0
  | DrawEvent.s3oObject _ _ => 0
  | DrawEvent.shaderBins _ => 1
  | DrawEvent.farTextures _ => 2
  | DrawEvent.icon _ => 3
  | DrawEvent.radarBlip _ => 4
  | DrawEvent.stats _ => 5

/-- The immediate draws made between two states of the lists: the entries of `drawnNow` that
`after` has past those of `before`. -/
def newDraws (before after : DrawLists) : List DrawEvent :=
  (after.drawnNow.drop before.drawnNow.length).map DrawEvent.unitNow

/-- The function `CUnitDrawer::DrawOpaqueAIUnits`: the model of every entry of
`tempDrawUnits` with `camera->InView(pos, 100)` is drawn, in the order of the multimap. -/
def DrawOpaqueAIUnits (camera : CCamera) (t : TempUnits) : List DrawEvent :=
  (t.tempDrawUnits.entries.filter (fun e => camera.InView e.2.pos 100)).map
    (fun e => DrawEvent.aiUnit e.2)

/-- Modelled from the spec: the enumeration of model types (the model-format tag, one of a
small closed set of mesh formats) is defined outside the given sources. These are the two
with a case in the `switch` of `DrawOpaqueUnits`; the loop of `Draw` starts at
`MODELTYPE_3DO` and counts up to `MODELTYPE_OTHER`. -/
inductive ModelType where
  | MODELTYPE_3DO
  | MODELTYPE_S3O
deriving DecidableEq, Repr

/-- The function `CUnitDrawer::DrawOpaqueUnits` for one model type. `opaqueUnits` is the
content of the opaque bin of that model type in the order `DRAW_UNIT_SET` walks it. For 3DO
the temporary units follow the bin, for S3O the queued objects do (`DrawQuedS3O`). The
result is the units as the classifier left them, the queue, the lists and the draws made;
`none` when `DrawQuedS3O` indexes outside its vector. -/
def DrawOpaqueUnits (w : World) (s : UnitDrawSettings) (t : TempUnits) (modelType : ModelType)
    (excludeUnit : Option Nat) (drawReflection drawRefraction : Bool)
    (opaqueUnits : List CUnit) (q : S3OQueue) (L : DrawLists) :
    Option (List CUnit × S3OQueue × DrawLists × List DrawEvent) :=
  let r := drawUnitSet w s excludeUnit drawReflection drawRefraction opaqueUnits L
  match modelType with
  | ModelType.MODELTYPE_3DO =>
    some (r.1, q, r.2, newDraws L r.2 ++ DrawOpaqueAIUnits w.camera t)
  | ModelType.MODELTYPE_S3O =>
    match DrawQuedS3O q with
    | none => none
    | some d =>
      some (r.1, d.1, r.2, newDraws L r.2 ++ d.2.map (fun p => DrawEvent.s3oObject p.1 p.2))

/-- The function `CUnitDrawer::DrawOpaqueShaderUnits`: one `DrawBins` call, on the opaque
material type, in its reflection variant when `water->drawReflection`. -/
def DrawOpaqueShaderUnits (w : World) : List DrawEvent :=
  [DrawEvent.shaderBins
    (if w.water.drawReflection then LuaMatType.LUAMAT_OPAQUE_REFLECT
      else LuaMatType.LUAMAT_OPAQUE)]

/-- The function `CUnitDrawer::DrawFarTextures`: nothing when `drawFar` is empty, else one
vertex array holding a quad for every entry of `drawFar`. -/
def DrawFarTextures (L : DrawLists) : List DrawEvent :=
  if L.drawFar.isEmpty then [] else [DrawEvent.farTextures L.drawFar]

/-- The function `CUnitDrawer::DrawUnitIcons`: unless a reflection is drawn, the icons of
`drawIcon`, then the radar blips of `drawRadarIcon`, then the stat overlays of `drawStat`. -/
def DrawUnitIcons (drawReflection : Bool) (L : DrawLists) : List DrawEvent :=
  if !drawReflection then
    L.drawIcon.map DrawEvent.icon ++ L.drawRadarIcon.map DrawEvent.radarBlip ++
      L.drawStat.map DrawEvent.stats
  else []

/-- What one `Draw` call leaves: the units of the two opaque bins as the classifier left
them, the queue of S3O objects, the lists, and the draws made, in order. -/
structure DrawOutcome where
  units3DO : List CUnit
  unitsS3O : List CUnit
  queue : S3OQueue
  lists : DrawLists
  events : List DrawEvent

/-- The function `CUnitDrawer::Draw(drawReflection, drawRefraction)` (non-GML build): the
four transient lists are cleared, the excluded unit is chosen, `DrawOpaqueUnits` runs for the
model types in ascending order, then `DrawOpaqueShaderUnits`, `DrawFarTextures` and
`DrawUnitIcons`. `units3DO` and `unitsS3O` are the contents of the two opaque bins in walking
order. The level-of-detail factor set at the start reaches the classifier through the
`CalcLOD` of the units; the calls that only set graphics state are left out. -/
def Draw (w : World) (s : UnitDrawSettings) (t : TempUnits) (drawReflection drawRefraction : Bool)
    (units3DO unitsS3O : List CUnit) (q : S3OQueue) (L : DrawLists) : Option DrawOutcome :=
  let L0 : DrawLists :=
    { L with drawFar := [], drawStat := [], drawIcon := [], drawRadarIcon := [] }
  let excludeUnit := Draw.excludeUnit w.g.gu drawReflection
  match DrawOpaqueUnits w s t ModelType.MODELTYPE_3DO excludeUnit drawReflection drawRefraction
      units3DO q L0 with
  | none => none
  | some a =>
    match DrawOpaqueUnits w s t ModelType.MODELTYPE_S3O excludeUnit drawReflection
        drawRefraction unitsS3O a.2.1 a.2.2.1 with
    | none => none
    | some b =>
      some (DrawOutcome.mk a.1 b.1 b.2.1 b.2.2.1
        (a.2.2.2 ++ b.2.2.2 ++ DrawOpaqueShaderUnits w ++ DrawFarTextures b.2.2.1 ++
          DrawUnitIcons drawReflection b.2.2.1))

/-! ## Example data -/

/-- Globals of a game without a setup script, the local player on ally team 0. -/
def g0 : Globals :=
  { gu := { myAllyTeam := 0, spectatingFullView := false, directControl := none }
    gameSetup := none }

/-- A unit material without any level-of-detail material. -/
def noLuaMat : LuaUnitMaterial := { GetLastLOD := 0, GetMaterial := fun _ => none }

/-- A mobile unit with a model, not cloaked. -/
def unitA : CUnit :=
  { id := 1, isBuilding := false
    unitDef :=
      { useBuildingGroundDecal := false, decoyDef := none, iconType := { GetDistanceSqr := 1 } }
    model := some { type := 0, textureType := 0, radius := 10 }, isCloaked := false
    losStatus := fun _ => 0, pos := { x := 0, y := 0, z := 0 }, team := 0, buildFacing := 0
    buildingDecal := none, noDraw := false, drawMidPos := { x := 0, y := 0, z := 0 }
    radius := 10, sqRadius := 100, mobility := true, isIcon := false, lodCount := 0
    currentLOD := 0, luaMats := fun _ => noLuaMat, CalcLOD := fun lastLOD => lastLOD }

/-- A well-behaved life of `unitA`: created, cloaked, decloaked, destroyed. -/
def lifeOfA : List Notification :=
  [Notification.UnitCreated unitA, Notification.UnitCloaked unitA,
    Notification.UnitDecloaked unitA, Notification.UnitDestroyed unitA]

/-- The unit `unitA` seen with its cloak flag set. -/
def unitAFlagged : CUnit := { unitA with isCloaked := true }

/-- A second mobile unit, filed under the same model type and texture as `unitA`. -/
def unitB : CUnit := { unitA with id := 2 }

/-- A building last seen earlier and not seen now (prior-los only), with a ground decal. -/
def bldgP : CUnit :=
  { id := 3, isBuilding := true
    unitDef :=
      { useBuildingGroundDecal := true, decoyDef := none, iconType := { GetDistanceSqr := 1 } }
    model := some { type := 0, textureType := 0, radius := 10 }, isCloaked := false
    losStatus := fun _ => 4, pos := { x := 5, y := 0, z := 9 }, team := 1, buildFacing := 2
    buildingDecal := some 7, noDraw := false, drawMidPos := { x := 5, y := 0, z := 9 }
    radius := 10, sqRadius := 100, mobility := false, isIcon := false, lodCount := 0
    currentLOD := 0, luaMats := fun _ => noLuaMat, CalcLOD := fun lastLOD => lastLOD }

/-- The building `bldgP` with prior-los and counter-radar set, in-los clear. -/
def bldgCR : CUnit := { bldgP with losStatus := fun _ => 12 }

/-- The building `bldgP` in line of sight (in-los and prior-los set). -/
def bldgSeen : CUnit := { bldgP with losStatus := fun _ => 5 }

/-- The building `bldgP` posing as another unit type: its definition has a decoy. -/
def bldgDecoy : CUnit :=
  { bldgP with
    unitDef :=
      { useBuildingGroundDecal := true
        decoyDef := some { LoadModel := { type := 1, textureType := 4, radius := 20 } }
        iconType := { GetDistanceSqr := 1 } } }

/-- Sensors that report no line of sight anywhere and counter-radar coverage everywhere. -/
def radarOnly : Sensors := { InLos := fun _ _ => false, InContRadar := fun _ _ => true }

/-- Sensors that report line of sight exactly on the half-space `x > 0`. -/
def eastLos : Sensors :=
  { InLos := fun pos _ => decide (0 < pos.x), InContRadar := fun _ _ => false }

/-- A camera that sees everything. -/
def wideCamera : CCamera := { InView := fun _ _ => true, pos := { x := 0, y := 0, z := 0 } }

/-- A ghost of `bldgP`. -/
def ghostP : GhostBuilding := newGhost bldgP { type := 0, textureType := 0, radius := 10 }

/-- A ghost without a decal, west of the origin. -/
def ghostW : GhostBuilding :=
  { pos := { x := -3, y := 0, z := 0 }, model := { type := 0, textureType := 0, radius := 10 }
    decal := none, facing := 0, team := 1 }

/-- An archive holding `ghostP` and `ghostW` under model type 0. -/
def archiveP : CUnitDrawer :=
  { CUnitDrawer.empty 2 with
    ghostBuildings := Function.update (CUnitDrawer.empty 2).ghostBuildings 0 [ghostP, ghostW] }

/-- Drawer settings with `iconLength` 7500, `unitDrawDistSqr` 100 and health bars shown;
icons go by the distance to the unit. -/
def settings0 : UnitDrawSettings :=
  { iconLength := 7500, unitDrawDistSqr := 100, showHealthBars := true
    useDistToGroundForIcons := false, sqCamDistToGroundForIcons := 0 }

/-- A world with the globals `g0`, the camera at the origin seeing everything, no water
reflection being drawn and no unit hidden by the reflection test. -/
def world0 : World :=
  { g := g0, camera := wideCamera, water := { drawReflection := false }
    reflectionCull := fun _ => false }

/-- The unit `unitA` in line of sight, at squared distance 8000 from the origin. -/
def unitAt8000 : CUnit :=
  { unitA with losStatus := fun _ => 1, pos := { x := 80, y := 0, z := 40 } }

/-- The unit `unitA` in line of sight, at squared distance 5000 from the origin. -/
def unitAt5000 : CUnit :=
  { unitA with losStatus := fun _ => 1, pos := { x := 50, y := 0, z := 50 } }

/-- The unit `unitAt8000` flagged `noDraw`. -/
def hiddenAt8000 : CUnit := { unitAt8000 with noDraw := true }

/-- The unit `unitA` in radar coverage only. -/
def unitOnRadar : CUnit := { unitA with losStatus := fun _ => 2 }

/-- The unit `unitOnRadar` flagged `noDraw`. -/
def hiddenOnRadar : CUnit := { unitOnRadar with noDraw := true }

/-- The mobile unit `unitA` seen earlier, now in radar coverage and counter-sensed
(prior-los, in-radar and counter-radar set), not an icon. -/
def unitSensed : CUnit := { unitA with losStatus := fun _ => 14 }

/-- The unit `unitA` with only the counter-radar bit set. -/
def unitCounterOnly : CUnit := { unitA with losStatus := fun _ => 8 }

/-- The unit `unitA` in line of sight, above the water plane. -/
def unitAbove : CUnit :=
  { unitA with losStatus := fun _ => 1, pos := { x := 3, y := 4, z := 0 } }

/-- The unit `unitA` in line of sight at squared distance 20000: beyond its far length
10000, within the health-bar distance 50000. Its icon multiplier is 4, so it is no icon. -/
def unitAt20000 : CUnit :=
  { unitA with
    losStatus := fun _ => 1, pos := { x := 100, y := 0, z := 100 }
    unitDef :=
      { useBuildingGroundDecal := false, decoyDef := none, iconType := { GetDistanceSqr := 4 } } }

/-- The world `world0` with the player in first-person control of unit 1 (`unitA`). -/
def worldFps : World :=
  { world0 with
    g := { gu := { myAllyTeam := 0, spectatingFullView := false, directControl := some 1 }
           gameSetup := none } }

/-- A camera at the origin that sees nothing. -/
def blindCamera : CCamera := { InView := fun _ _ => false, pos := { x := 0, y := 0, z := 0 } }

/-- A temporary unit. -/
def tempUnit0 : TempDrawUnit :=
  { unitdef :=
      { useBuildingGroundDecal := false, decoyDef := none, iconType := { GetDistanceSqr := 1 } }
    team := 0, pos := { x := 0, y := 0, z := 0 }, rotation := 0, facing := 0
    drawBorder := false }

/-- Temporary units keyed 3, 4, 4 and 6. -/
def tempMap0 : TempDrawUnits :=
  { entries := [(3, tempUnit0), (4, tempUnit0), (4, tempUnit0), (6, tempUnit0)]
    ordered := by decide }

/-- Both collections of temporary units holding `tempMap0`. -/
def tempUnits0 : TempUnits := { tempDrawUnits := tempMap0, tempTransparentDrawUnits := tempMap0 }

/-- The unit `unitOnRadar` under another address. -/
def otherOnRadar : CUnit := { unitOnRadar with id := 2 }

/-- A unit without model data, in line of sight, close to the camera. -/
def unitNoModel : CUnit :=
  { unitAt5000 with id := 9, model := none }

/-- A level-of-detail material in bin 4 that is active. -/
def activeMat : LuaUnitLODMaterial := { matref := 4, IsActive := true }

/-- The unit `unitAt5000` with two level-of-detail tiers: `CalcLOD` answers 1, and every
tier has the material `activeMat`. -/
def unitWithLOD : CUnit :=
  { unitAt5000 with
    lodCount := 2
    luaMats := fun _ => { GetLastLOD := 0, GetMaterial := fun _ => some activeMat }
    CalcLOD := fun _ => 1 }

/-- Level-of-detail scales: `LODScale` 2, shadow 3, reflection 5, refraction 7. -/
def scalesA : LODScales Int :=
  { LODScale := 2, LODScaleShadow := 3, LODScaleReflection := 5, LODScaleRefraction := 7 }

/-- The scales `scalesA` with the shadow, reflection and refraction scales changed. -/
def scalesB : LODScales Int :=
  { LODScale := 2, LODScaleShadow := 30, LODScaleReflection := 50, LODScaleRefraction := 70 }

/-- Calls on the queue: object 11 under texture 2, a null object under texture 0, object 12
under texture 0, object 13 under texture 2, object 11 under texture 0. -/
def queuedC : List (Option Nat × Int) :=
  [(some 11, 2), (none, 0), (some 12, 0), (some 13, 2), (some 11, 0)]

/-- Lists left over from an earlier pass: unit 7 in the far list, unit 8 in the icon list,
unit 7 in the stat list. -/
def staleLists : DrawLists :=
  DrawLists.mk [7] [7] [8] [] [] []

/-- A queue holding objects under the texture types 0 and 2. -/
def queueC : S3OQueue :=
  S3OQueue.mk [[none, some 12, some 11], [], [some 11, some 13]] [0, 2]

/-! ## Membership lemmas for the bins -/



theorem binAdd_eq_some (size : Nat) (bin b1 : Nat → IWorldObjectModelRenderer) (m : S3DModel)
    (u : CUnit) :
    binAdd size bin m u = some b1 ↔
      MDL_TYPE m < size ∧
        b1 = Function.update bin (MDL_TYPE m) ((bin (MDL_TYPE m)).AddUnit m u) := by
  unfold binAdd
  by_cases h : MDL_TYPE m < size
  · simp only [h, if_true, Option.some.injEq, true_and]
    exact eq_comm
  · simp [h]

theorem binDel_eq_some (size : Nat) (bin b1 : Nat → IWorldObjectModelRenderer) (m : S3DModel)
    (u : CUnit) :
    binDel size bin m u = some b1 ↔
      MDL_TYPE m < size ∧
        b1 = Function.update bin (MDL_TYPE m) ((bin (MDL_TYPE m)).DelUnit m u) := by
  unfold binDel
  by_cases h : MDL_TYPE m < size
  · simp only [h, if_true, Option.some.injEq, true_and]
    exact eq_comm
  · simp [h]

theorem mem_binAdd (size : Nat) (bin b1 : Nat → IWorldObjectModelRenderer) (m : S3DModel)
    (u : CUnit) (h : binAdd size bin m u = some b1) (mt tt id : Nat) :
    id ∈ (b1 mt).units tt ↔
      (mt = m.type ∧ tt = m.textureType ∧ id = u.id) ∨ id ∈ (bin mt).units tt := by
  obtain ⟨-, rfl⟩ := (binAdd_eq_some size bin b1 m u).mp h
  unfold IWorldObjectModelRenderer.AddUnit MDL_TYPE TEX_TYPE
  by_cases hmt : mt = m.type
  · subst hmt
    by_cases htt : tt = m.textureType
    · subst htt
      simp
    · simp [Function.update_noteq htt, htt]
  · simp [Function.update_noteq hmt, hmt]

theorem mem_binDel (size : Nat) (bin b1 : Nat → IWorldObjectModelRenderer) (m : S3DModel)
    (u : CUnit) (h : binDel size bin m u = some b1) (mt tt id : Nat) :
    id ∈ (b1 mt).units tt ↔
      id ∈ (bin mt).units tt ∧ ¬ (mt = m.type ∧ tt = m.textureType ∧ id = u.id) := by
  obtain ⟨-, rfl⟩ := (binDel_eq_some size bin b1 m u).mp h
  unfold IWorldObjectModelRenderer.DelUnit MDL_TYPE TEX_TYPE
  by_cases hmt : mt = m.type
  · subst hmt
    by_cases htt : tt = m.textureType
    · subst htt
      simp [Finset.mem_erase, and_comm]
    · simp [Function.update_noteq htt, htt]
  · simp [Function.update_noteq hmt, hmt]

/-! ## What each registry function does when it returns -/

theorem UnitCreated_returns (d : CUnitDrawer) (u : CUnit)
    (h : ∀ m, u.model = some m → MDL_TYPE m < d.MODELTYPE_OTHER) :
    ∃ d1, UnitCreated d u = some d1 := by
  unfold UnitCreated binAdd
  cases hm : u.model with
  | none => exact ⟨_, rfl⟩
  | some m =>
    have hlt := h m hm
    cases hcl : u.isCloaked <;> simp [hlt]

theorem UnitCreated_spec (d d1 : CUnitDrawer) (u : CUnit) (h : UnitCreated d u = some d1) :
    d1.MODELTYPE_OTHER = d.MODELTYPE_OTHER ∧
    d1.ghostBuildings = d.ghostBuildings ∧
    d1.unsortedUnits = insert u.id d.unsortedUnits ∧
    (∀ m, u.model = some m →
      MDL_TYPE m < d.MODELTYPE_OTHER ∧
      (u.isCloaked = true →
        binAdd d.MODELTYPE_OTHER d.cloakedModelRenderers m u = some d1.cloakedModelRenderers ∧
        d1.opaqueModelRenderers = d.opaqueModelRenderers) ∧
      (u.isCloaked = false →
        binAdd d.MODELTYPE_OTHER d.opaqueModelRenderers m u = some d1.opaqueModelRenderers ∧
        d1.cloakedModelRenderers = d.cloakedModelRenderers)) ∧
    (u.model = none →
      d1.opaqueModelRenderers = d.opaqueModelRenderers ∧
      d1.cloakedModelRenderers = d.cloakedModelRenderers) := by
  unfold UnitCreated at h
  cases hm : u.model with
  | none =>
    simp only [hm, Option.map_some', Option.some.injEq] at h
    subst h
    simp
  | some m =>
    simp only [hm] at h
    cases hcl : u.isCloaked with
    | true =>
      simp only [hcl, if_true, Option.map_map] at h
      cases hb : binAdd d.MODELTYPE_OTHER d.cloakedModelRenderers m u with
      | none => simp [hb] at h
      | some b =>
        simp only [hb, Option.map_some', Option.some.injEq, Function.comp] at h
        subst h
        have hlt := ((binAdd_eq_some _ _ _ _ _).mp hb).1
        simp [hlt, hb]
    | false =>
      simp only [hcl, Bool.false_eq_true, if_false, Option.map_map] at h
      cases hb : binAdd d.MODELTYPE_OTHER d.opaqueModelRenderers m u with
      | none => simp [hb] at h
      | some b =>
        simp only [hb, Option.map_some', Option.some.injEq, Function.comp] at h
        subst h
        have hlt := ((binAdd_eq_some _ _ _ _ _).mp hb).1
        simp [hlt, hb]

theorem unregister_returns (d : CUnitDrawer) (u : CUnit)
    (h : ∀ m, u.model = some m → MDL_TYPE m < d.MODELTYPE_OTHER) :
    ∃ d1, unregister d u = some d1 := by
  unfold unregister binDel
  cases hm : u.model with
  | none => exact ⟨_, rfl⟩
  | some m =>
    have hlt := h m hm
    cases hcl : u.isCloaked <;> simp [hlt]

theorem unregister_spec (d d1 : CUnitDrawer) (u : CUnit) (h : unregister d u = some d1) :
    d1.MODELTYPE_OTHER = d.MODELTYPE_OTHER ∧
    d1.ghostBuildings = d.ghostBuildings ∧
    d1.unsortedUnits = d.unsortedUnits.erase u.id ∧
    (∀ m, u.model = some m →
      MDL_TYPE m < d.MODELTYPE_OTHER ∧
      (u.isCloaked = true →
        binDel d.MODELTYPE_OTHER d.cloakedModelRenderers m u = some d1.cloakedModelRenderers ∧
        d1.opaqueModelRenderers = d.opaqueModelRenderers) ∧
      (u.isCloaked = false →
        binDel d.MODELTYPE_OTHER d.opaqueModelRenderers m u = some d1.opaqueModelRenderers ∧
        d1.cloakedModelRenderers = d.cloakedModelRenderers)) ∧
    (u.model = none →
      d1.opaqueModelRenderers = d.opaqueModelRenderers ∧
      d1.cloakedModelRenderers = d.cloakedModelRenderers) := by
  unfold unregister at h
  cases hm : u.model with
  | none =>
    simp only [hm, Option.map_some', Option.some.injEq] at h
    subst h
    simp
  | some m =>
    simp only [hm] at h
    cases hcl : u.isCloaked with
    | true =>
      simp only [hcl, if_true, Option.map_map] at h
      cases hb : binDel d.MODELTYPE_OTHER d.cloakedModelRenderers m u with
      | none => simp [hb] at h
      | some b =>
        simp only [hb, Option.map_some', Option.some.injEq, Function.comp] at h
        subst h
        have hlt := ((binDel_eq_some _ _ _ _ _).mp hb).1
        simp [hlt, hb]
    | false =>
      simp only [hcl, Bool.false_eq_true, if_false, Option.map_map] at h
      cases hb : binDel d.MODELTYPE_OTHER d.opaqueModelRenderers m u with
      | none => simp [hb] at h
      | some b =>
        simp only [hb, Option.map_some', Option.some.injEq, Function.comp] at h
        subst h
        have hlt := ((binDel_eq_some _ _ _ _ _).mp hb).1
        simp [hlt, hb]

theorem UnitCloaked_returns (d : CUnitDrawer) (u : CUnit)
    (h : ∀ m, u.model = some m → MDL_TYPE m < d.MODELTYPE_OTHER) :
    ∃ d1, UnitCloaked d u = some d1 := by
  unfold UnitCloaked binAdd binDel
  cases hm : u.model with
  | none => exact ⟨_, rfl⟩
  | some m =>
    have hlt := h m hm
    simp [hlt]

theorem UnitCloaked_spec (d d1 : CUnitDrawer) (u : CUnit) (h : UnitCloaked d u = some d1) :
    d1.MODELTYPE_OTHER = d.MODELTYPE_OTHER ∧
    d1.ghostBuildings = d.ghostBuildings ∧
    d1.unsortedUnits = d.unsortedUnits ∧
    (∀ m, u.model = some m →
      MDL_TYPE m < d.MODELTYPE_OTHER ∧
      binAdd d.MODELTYPE_OTHER d.cloakedModelRenderers m u = some d1.cloakedModelRenderers ∧
      binDel d.MODELTYPE_OTHER d.opaqueModelRenderers m u = some d1.opaqueModelRenderers) ∧
    (u.model = none → d1 = d) := by
  unfold UnitCloaked at h
  cases hm : u.model with
  | none =>
    simp only [hm, Option.some.injEq] at h
    subst h
    simp
  | some m =>
    simp only [hm] at h
    cases ha : binAdd d.MODELTYPE_OTHER d.cloakedModelRenderers m u with
    | none => simp [ha] at h
    | some a =>
      cases hb : binDel d.MODELTYPE_OTHER d.opaqueModelRenderers m u with
      | none => simp [ha, hb] at h
      | some b =>
        simp only [ha, hb, Option.some.injEq] at h
        subst h
        have hlt := ((binAdd_eq_some _ _ _ _ _).mp ha).1
        simp [hlt, ha, hb]

theorem UnitDecloaked_returns (d : CUnitDrawer) (u : CUnit)
    (h : ∀ m, u.model = some m → MDL_TYPE m < d.MODELTYPE_OTHER) :
    ∃ d1, UnitDecloaked d u = some d1 := by
  unfold UnitDecloaked binAdd binDel
  cases hm : u.model with
  | none => exact ⟨_, rfl⟩
  | some m =>
    have hlt := h m hm
    simp [hlt]

theorem UnitDecloaked_spec (d d1 : CUnitDrawer) (u : CUnit) (h : UnitDecloaked d u = some d1) :
    d1.MODELTYPE_OTHER = d.MODELTYPE_OTHER ∧
    d1.ghostBuildings = d.ghostBuildings ∧
    d1.unsortedUnits = d.unsortedUnits ∧
    (∀ m, u.model = some m →
      MDL_TYPE m < d.MODELTYPE_OTHER ∧
      binAdd d.MODELTYPE_OTHER d.opaqueModelRenderers m u = some d1.opaqueModelRenderers ∧
      binDel d.MODELTYPE_OTHER d.cloakedModelRenderers m u = some d1.cloakedModelRenderers) ∧
    (u.model = none → d1 = d) := by
  unfold UnitDecloaked at h
  cases hm : u.model with
  | none =>
    simp only [hm, Option.some.injEq] at h
    subst h
    simp
  | some m =>
    simp only [hm] at h
    cases ha : binAdd d.MODELTYPE_OTHER d.opaqueModelRenderers m u with
    | none => simp [ha] at h
    | some a =>
      cases hb : binDel d.MODELTYPE_OTHER d.cloakedModelRenderers m u with
      | none => simp [ha, hb] at h
      | some b =>
        simp only [ha, hb, Option.some.injEq] at h
        subst h
        have hlt := ((binAdd_eq_some _ _ _ _ _).mp ha).1
        simp [hlt, ha, hb]

/-! ## Frame lemmas -/

theorem archiveGhost_bins (g : Globals) (d d1 : CUnitDrawer) (u : CUnit)
    (h : archiveGhost g d u = some d1) :
    d1.MODELTYPE_OTHER = d.MODELTYPE_OTHER ∧
    d1.opaqueModelRenderers = d.opaqueModelRenderers ∧
    d1.cloakedModelRenderers = d.cloakedModelRenderers ∧
    d1.unsortedUnits = d.unsortedUnits := by
  unfold archiveGhost at h
  split_ifs at h
  · cases hm : gbModelOf u with
    | none => simp [hm] at h
    | some m =>
      simp only [hm] at h
      split_ifs at h
      simp only [Option.some.injEq] at h
      subst h
      exact ⟨rfl, rfl, rfl, rfl⟩
  all_goals
    simp only [Option.some.injEq] at h
    subst h
    exact ⟨rfl, rfl, rfl, rfl⟩

theorem exclusive_empty (MODELTYPE_OTHER : Nat) : Exclusive (CUnitDrawer.empty MODELTYPE_OTHER) := by
  intro id mt tt h
  simp [CUnitDrawer.empty] at h

theorem exclusive_UnitCreated (d d1 : CUnitDrawer) (u : CUnit) (hd : Exclusive d)
    (h : UnitCreated d u = some d1)
    (ho : u.isCloaked = true → ¬ inBin d.MODELTYPE_OTHER d.opaqueModelRenderers u)
    (hc : u.isCloaked = false → ¬ inBin d.MODELTYPE_OTHER d.cloakedModelRenderers u) :
    Exclusive d1 := by
  obtain ⟨-, -, -, hsome, hnone⟩ := UnitCreated_spec d d1 u h
  intro id mt tt
  unfold inBin at ho hc
  cases hm : u.model with
  | none =>
    obtain ⟨e1, e2⟩ := hnone hm
    rw [e1, e2]
    exact hd id mt tt
  | some m =>
    obtain ⟨hlt, htrue, hfalse⟩ := hsome m hm
    simp only [hm, MDL_TYPE, TEX_TYPE] at ho hc hlt
    cases hcl : u.isCloaked with
    | true =>
      obtain ⟨hb, e1⟩ := htrue hcl
      rw [e1, mem_binAdd _ _ _ _ _ hb]
      rintro ⟨h1, ⟨rfl, rfl, rfl⟩ | h2⟩
      · exact ho hcl ⟨hlt, h1⟩
      · exact hd id mt tt ⟨h1, h2⟩
    | false =>
      obtain ⟨hb, e2⟩ := hfalse hcl
      rw [e2, mem_binAdd _ _ _ _ _ hb]
      rintro ⟨⟨rfl, rfl, rfl⟩ | h1, h2⟩
      · exact hc hcl ⟨hlt, h2⟩
      · exact hd id mt tt ⟨h1, h2⟩

theorem exclusive_unregister (d d1 : CUnitDrawer) (u : CUnit) (hd : Exclusive d)
    (h : unregister d u = some d1) : Exclusive d1 := by
  obtain ⟨-, -, -, hsome, hnone⟩ := unregister_spec d d1 u h
  intro id mt tt
  cases hm : u.model with
  | none =>
    obtain ⟨e1, e2⟩ := hnone hm
    rw [e1, e2]
    exact hd id mt tt
  | some m =>
    obtain ⟨-, htrue, hfalse⟩ := hsome m hm
    cases hcl : u.isCloaked with
    | true =>
      obtain ⟨hb, e1⟩ := htrue hcl
      rw [e1, mem_binDel _ _ _ _ _ hb]
      rintro ⟨h1, h2, -⟩
      exact hd id mt tt ⟨h1, h2⟩
    | false =>
      obtain ⟨hb, e2⟩ := hfalse hcl
      rw [e2, mem_binDel _ _ _ _ _ hb]
      rintro ⟨⟨h1, -⟩, h2⟩
      exact hd id mt tt ⟨h1, h2⟩

theorem UnitDestroyed_eq_some (g : Globals) (d d1 : CUnitDrawer) (u : CUnit) :
    UnitDestroyed g d u = some d1 ↔
      ∃ d2, archiveGhost g d u = some d2 ∧ unregister d2 u = some d1 := by
  unfold UnitDestroyed
  cases archiveGhost g d u with
  | none => simp
  | some d2 => simp

theorem exclusive_UnitDestroyed (g : Globals) (d d1 : CUnitDrawer) (u : CUnit)
    (hd : Exclusive d) (h : UnitDestroyed g d u = some d1) : Exclusive d1 := by
  obtain ⟨d2, ha, hu⟩ := (UnitDestroyed_eq_some g d d1 u).mp h
  apply exclusive_unregister d2 d1 u _ hu
  obtain ⟨-, h1, h2, -⟩ := archiveGhost_bins g d d2 u ha
  intro id mt tt
  rw [h1, h2]
  exact hd id mt tt

theorem exclusive_UnitCloaked (d d1 : CUnitDrawer) (u : CUnit) (hd : Exclusive d)
    (h : UnitCloaked d u = some d1) : Exclusive d1 := by
  obtain ⟨-, -, -, hsome, hnone⟩ := UnitCloaked_spec d d1 u h
  intro id mt tt
  cases hm : u.model with
  | none =>
    rw [hnone hm]
    exact hd id mt tt
  | some m =>
    obtain ⟨-, ha, hb⟩ := hsome m hm
    rw [mem_binAdd _ _ _ _ _ ha, mem_binDel _ _ _ _ _ hb]
    rintro ⟨⟨h1, hne⟩, hs | h2⟩
    · exact hne hs
    · exact hd id mt tt ⟨h1, h2⟩

theorem exclusive_UnitDecloaked (d d1 : CUnitDrawer) (u : CUnit) (hd : Exclusive d)
    (h : UnitDecloaked d u = some d1) : Exclusive d1 := by
  obtain ⟨-, -, -, hsome, hnone⟩ := UnitDecloaked_spec d d1 u h
  intro id mt tt
  cases hm : u.model with
  | none =>
    rw [hnone hm]
    exact hd id mt tt
  | some m =>
    obtain ⟨-, ha, hb⟩ := hsome m hm
    rw [mem_binAdd _ _ _ _ _ ha, mem_binDel _ _ _ _ _ hb]
    rintro ⟨hs | h1, h2, hne⟩
    · exact hne hs
    · exact hd id mt tt ⟨h1, h2⟩

theorem exclusive_run (g : Globals) (ns : List Notification) :
    ∀ (d : CUnitDrawer), Exclusive d → Admissible g d ns →
      ∀ (k : Nat) (d1 : CUnitDrawer), run g d (ns.take k) = some d1 → Exclusive d1 := by
  induction ns with
  | nil =>
    intro d hd _ k d1 h
    simp [run] at h
    subst h
    exact hd
  | cons n ns ih =>
    intro d hd hadm k d1 h
    cases k with
    | zero =>
      simp [run] at h
      subst h
      exact hd
    | succ k =>
      simp only [List.take_succ_cons, run] at h
      cases hn : notify g d n with
      | none => simp [hn] at h
      | some d2 =>
        simp only [hn, Option.some_bind] at h
        have hadm2 := hadm.2 d2 hn
        refine ih d2 ?_ hadm2 k d1 h
        cases n with
        | UnitCreated u =>
          have hu := hadm.1 u rfl
          exact exclusive_UnitCreated d d2 u hd hn hu.1 hu.2
        | UnitDestroyed u => exact exclusive_UnitDestroyed g d d2 u hd hn
        | UnitCloaked u => exact exclusive_UnitCloaked d d2 u hd hn
        | UnitDecloaked u => exact exclusive_UnitDecloaked d d2 u hd hn

theorem not_both_of_exclusive (d : CUnitDrawer) (hd : Exclusive d) (r : CUnit) :
    ¬ (inBin d.MODELTYPE_OTHER d.opaqueModelRenderers r ∧
      inBin d.MODELTYPE_OTHER d.cloakedModelRenderers r) := by
  unfold inBin
  cases r.model with
  | none => simp
  | some m =>
    rintro ⟨⟨-, h1⟩, -, h2⟩
    exact hd r.id (MDL_TYPE m) (TEX_TYPE m) ⟨h1, h2⟩

/-- A sequence along which no unit is ever in both bins is admissible: a `UnitCreated(u)`
that arrives while `u` is in the bin it is not added to returns and leaves `u` in both. -/
theorem admissible_of_exclusive (g : Globals) (ns : List Notification) :
    ∀ (d : CUnitDrawer),
      (∀ (k : Nat) (d1 : CUnitDrawer), run g d (ns.take k) = some d1 →
        ∀ r : CUnit, ¬ (inBin d1.MODELTYPE_OTHER d1.opaqueModelRenderers r ∧
          inBin d1.MODELTYPE_OTHER d1.cloakedModelRenderers r)) →
      Admissible g d ns := by
  induction ns with
  | nil => intro d _; trivial
  | cons n ns ih =>
    intro d hex
    have hcreated : ∀ u, n = Notification.UnitCreated u →
        ∀ d1, UnitCreated d u = some d1 →
          ¬ (inBin d1.MODELTYPE_OTHER d1.opaqueModelRenderers u ∧
            inBin d1.MODELTYPE_OTHER d1.cloakedModelRenderers u) := by
      intro u hu d1 h1
      apply hex 1 d1
      subst hu
      simp [run, notify, h1]
    refine ⟨fun u hu => ⟨fun hcl hin => ?_, fun hcl hin => ?_⟩, fun d1 h1 => ?_⟩
    · unfold inBin at hin
      cases hm : u.model with
      | none => simp [hm] at hin
      | some m =>
        simp only [hm] at hin
        obtain ⟨d1, h1⟩ := UnitCreated_returns d u (fun m1 hm1 => by
          rw [hm] at hm1
          cases hm1
          exact hin.1)
        obtain ⟨e0, -, -, hsome, -⟩ := UnitCreated_spec d d1 u h1
        obtain ⟨-, htrue, -⟩ := hsome m hm
        obtain ⟨hb, e1⟩ := htrue hcl
        apply hcreated u hu d1 h1
        unfold inBin
        simp only [hm, e0, e1]
        refine ⟨hin, hin.1, ?_⟩
        rw [mem_binAdd _ _ _ _ _ hb]
        exact Or.inl ⟨rfl, rfl, rfl⟩
    · unfold inBin at hin
      cases hm : u.model with
      | none => simp [hm] at hin
      | some m =>
        simp only [hm] at hin
        obtain ⟨d1, h1⟩ := UnitCreated_returns d u (fun m1 hm1 => by
          rw [hm] at hm1
          cases hm1
          exact hin.1)
        obtain ⟨e0, -, -, hsome, -⟩ := UnitCreated_spec d d1 u h1
        obtain ⟨-, -, hfalse⟩ := hsome m hm
        obtain ⟨hb, e2⟩ := hfalse hcl
        apply hcreated u hu d1 h1
        unfold inBin
        simp only [hm, e0, e2]
        refine ⟨⟨hin.1, ?_⟩, hin⟩
        rw [mem_binAdd _ _ _ _ _ hb]
        exact Or.inl ⟨rfl, rfl, rfl⟩
    · apply ih d1
      intro k d2 h2
      apply hex (k + 1) d2
      simp only [List.take_succ_cons, run, h1, Option.some_bind]
      exact h2

/-! ## Bin exclusivity (C1) -/

/-- C1, as stated, fails: after `UnitCreated(r)`, `UnitCloaked(r)`, `UnitCreated(r)` on an
empty registry the unit `r` is in the opaque bin and in the cloaked bin at the same time. -/
theorem bin_exclusivity_counterexample :
    ∃ d, run g0 (CUnitDrawer.empty 2)
        [Notification.UnitCreated unitA, Notification.UnitCloaked unitA,
          Notification.UnitCreated unitA] = some d ∧
      inBin d.MODELTYPE_OTHER d.opaqueModelRenderers unitA ∧
      inBin d.MODELTYPE_OTHER d.cloakedModelRenderers unitA := by
  refine ⟨_, rfl, ?_, ?_⟩ <;> decide

/-- C1, amended: for every sequence of notifications applied to the empty registry in which
each `UnitCreated(u)` arrives while `u` is not in the bin opposite to its `isCloaked` flag
(not in the opaque bin when the flag is set, not in the cloaked bin when it is clear), at
every point of the sequence (after every prefix) no renderable `r` is in both the opaque bin
and the cloaked bin. The condition is the weakest one: a sequence along which no renderable
is ever in both bins satisfies it. -/
theorem bin_exclusivity (g : Globals) (MODELTYPE_OTHER : Nat) (ns : List Notification) :
    (Admissible g (CUnitDrawer.empty MODELTYPE_OTHER) ns →
      ∀ (k : Nat) (d : CUnitDrawer),
        run g (CUnitDrawer.empty MODELTYPE_OTHER) (ns.take k) = some d →
        ∀ r : CUnit, ¬ (inBin d.MODELTYPE_OTHER d.opaqueModelRenderers r ∧
          inBin d.MODELTYPE_OTHER d.cloakedModelRenderers r)) ∧
    ((∀ (k : Nat) (d : CUnitDrawer),
        run g (CUnitDrawer.empty MODELTYPE_OTHER) (ns.take k) = some d →
        ∀ r : CUnit, ¬ (inBin d.MODELTYPE_OTHER d.opaqueModelRenderers r ∧
          inBin d.MODELTYPE_OTHER d.cloakedModelRenderers r)) →
      Admissible g (CUnitDrawer.empty MODELTYPE_OTHER) ns) :=
  ⟨fun hadm k d hrun r =>
      not_both_of_exclusive d
        (exclusive_run g ns _ (exclusive_empty MODELTYPE_OTHER) hadm k d hrun) r,
    admissible_of_exclusive g ns _⟩

/-- C1, witness: the life of `unitA` is admissible and runs, and after its first three
notifications `unitA` is not in both bins. -/
theorem bin_exclusivity_witness :
    Admissible g0 (CUnitDrawer.empty 2) lifeOfA ∧
    ∃ d, run g0 (CUnitDrawer.empty 2) (lifeOfA.take 3) = some d ∧
      ¬ (inBin d.MODELTYPE_OTHER d.opaqueModelRenderers unitA ∧
        inBin d.MODELTYPE_OTHER d.cloakedModelRenderers unitA) := by
  have hadm : Admissible g0 (CUnitDrawer.empty 2) lifeOfA := by
    refine ⟨fun u hu => ?_, fun d1 h1 => ?_⟩
    · injection hu with hu
      subst hu
      exact ⟨fun _ => by decide, fun _ => by decide⟩
    · refine ⟨fun u hu => (by cases hu), fun d2 h2 => ?_⟩
      refine ⟨fun u hu => (by cases hu), fun d3 h3 => ?_⟩
      exact ⟨fun u hu => (by cases hu), fun d4 _ => trivial⟩
  exact ⟨hadm, _, rfl, (bin_exclusivity g0 2 lifeOfA).1 hadm 3 _ rfl unitA⟩

/-- A sequence the condition admits although it registers a unit twice: `UnitCreated(unitA)`
twice in a row adds `unitA` to the opaque bin both times. -/
theorem created_twice_admissible :
    Admissible g0 (CUnitDrawer.empty 2)
      [Notification.UnitCreated unitA, Notification.UnitCreated unitA] := by
  refine ⟨fun u hu => ?_, fun d1 h1 => ⟨fun u hu => ?_, fun _ _ => trivial⟩⟩
  · injection hu with hu
    subst hu
    exact ⟨fun _ => by decide, fun _ => by decide⟩
  · injection hu with hu
    subst hu
    have h2 : some d1 = some _ := h1.symm.trans rfl
    cases h2
    exact ⟨fun h => absurd h (by decide), fun _ => by decide⟩

/-! ## Registration (C2) -/

/-- C2: for every registry state and every renderable `r` with a model whose type is one of
the model types (an index of the vectors, below `MODELTYPE_OTHER`), `UnitCreated(r)` returns,
and afterwards `r` is in the cloaked bin of its model type if `r.isCloaked` is set and in
the opaque bin of its model type otherwise, and `r` is in the live set `unsortedUnits`. -/
theorem UnitCreated_registers (d : CUnitDrawer) (r : CUnit) (m : S3DModel)
    (hm : r.model = some m) (ht : MDL_TYPE m < d.MODELTYPE_OTHER) :
    ∃ d1, UnitCreated d r = some d1 ∧
      (r.isCloaked = true → inBin d1.MODELTYPE_OTHER d1.cloakedModelRenderers r) ∧
      (r.isCloaked = false → inBin d1.MODELTYPE_OTHER d1.opaqueModelRenderers r) ∧
      r.id ∈ d1.unsortedUnits := by
  obtain ⟨d1, h1⟩ := UnitCreated_returns d r (fun m1 hm1 => by
    rw [hm] at hm1
    cases hm1
    exact ht)
  obtain ⟨e0, -, elive, hsome, -⟩ := UnitCreated_spec d d1 r h1
  obtain ⟨-, htrue, hfalse⟩ := hsome m hm
  refine ⟨d1, h1, fun hcl => ?_, fun hcl => ?_, ?_⟩
  · unfold inBin
    simp only [hm, e0]
    refine ⟨ht, ?_⟩
    rw [mem_binAdd _ _ _ _ _ (htrue hcl).1]
    exact Or.inl ⟨rfl, rfl, rfl⟩
  · unfold inBin
    simp only [hm, e0]
    refine ⟨ht, ?_⟩
    rw [mem_binAdd _ _ _ _ _ (hfalse hcl).1]
    exact Or.inl ⟨rfl, rfl, rfl⟩
  · rw [elive]
    exact Finset.mem_insert_self _ _

/-- C2, witness: `unitA` has a model of type 0 and is not cloaked; once created on the empty
registry of two model types it is in the opaque bin and in the live set. -/
theorem UnitCreated_registers_witness :
    ∃ d1, UnitCreated (CUnitDrawer.empty 2) unitA = some d1 ∧
      (unitA.isCloaked = true → inBin d1.MODELTYPE_OTHER d1.cloakedModelRenderers unitA) ∧
      (unitA.isCloaked = false → inBin d1.MODELTYPE_OTHER d1.opaqueModelRenderers unitA) ∧
      unitA.id ∈ d1.unsortedUnits :=
  UnitCreated_registers (CUnitDrawer.empty 2) unitA { type := 0, textureType := 0, radius := 10 }
    rfl (by decide)

/-- The call `UnitCreated(r)` does not return when the model type of `r` is outside the
vectors. -/
theorem UnitCreated_out_of_range (d : CUnitDrawer) (r : CUnit) (m : S3DModel)
    (hm : r.model = some m) (ht : ¬ MDL_TYPE m < d.MODELTYPE_OTHER) :
    UnitCreated d r = none := by
  cases h : UnitCreated d r with
  | none => rfl
  | some d1 => exact absurd ((UnitCreated_spec d d1 r h).2.2.2.1 m hm).1 ht

/-! ## Destruction (C3) -/

theorem archiveGhost_of_not_wanted (g : Globals) (d : CUnitDrawer) (u : CUnit)
    (h : ghostWanted g u = false) : archiveGhost g d u = some d := by
  unfold ghostWanted at h
  unfold archiveGhost
  cases hb : u.isBuilding <;> cases he : ghostingEnabled g <;> cases ht : ghostLosTest g u <;>
    simp_all

theorem archiveGhost_of_wanted (g : Globals) (d : CUnitDrawer) (u : CUnit) (m : S3DModel)
    (h : ghostWanted g u = true) (hm : gbModelOf u = some m)
    (ht : m.type < d.MODELTYPE_OTHER) :
    archiveGhost g d u =
      some { d with
        ghostBuildings :=
          Function.update d.ghostBuildings m.type (d.ghostBuildings m.type ++ [newGhost u m]) } := by
  unfold ghostWanted at h
  unfold archiveGhost
  cases hb : u.isBuilding <;> cases he : ghostingEnabled g <;> cases hl : ghostLosTest g u <;>
    simp_all

/-- The ghost half of `UnitDestroyed` returns exactly when, if a ghost is wanted, the ghost
has a model and the type of that model is an index of the vector of ghost lists. -/
theorem archiveGhost_returns_iff (g : Globals) (d : CUnitDrawer) (u : CUnit) :
    (∃ d1, archiveGhost g d u = some d1) ↔
      (ghostWanted g u = true →
        ∃ m, gbModelOf u = some m ∧ m.type < d.MODELTYPE_OTHER) := by
  cases hw : ghostWanted g u with
  | false =>
    simp only [Bool.false_eq_true, false_implies, iff_true]
    exact ⟨d, archiveGhost_of_not_wanted g d u hw⟩
  | true =>
    simp only [true_implies]
    constructor
    · rintro ⟨d1, h1⟩
      unfold ghostWanted at hw
      unfold archiveGhost at h1
      cases hb : u.isBuilding <;> cases he : ghostingEnabled g <;>
        cases hl : ghostLosTest g u <;> simp_all
      cases hm : gbModelOf u with
      | none => simp [hm] at h1
      | some m =>
        simp only [hm] at h1
        refine ⟨m, rfl, ?_⟩
        by_contra hlt
        simp [hlt] at h1
    · rintro ⟨m, hm, ht⟩
      exact ⟨_, archiveGhost_of_wanted g d u m hw hm ht⟩

theorem unregister_not_inBin (d d1 : CUnitDrawer) (u : CUnit) (h : unregister d u = some d1)
    (ho : u.isCloaked = true → ¬ inBin d.MODELTYPE_OTHER d.opaqueModelRenderers u)
    (hc : u.isCloaked = false → ¬ inBin d.MODELTYPE_OTHER d.cloakedModelRenderers u) :
    ¬ inBin d1.MODELTYPE_OTHER d1.opaqueModelRenderers u ∧
    ¬ inBin d1.MODELTYPE_OTHER d1.cloakedModelRenderers u := by
  obtain ⟨e0, -, -, hsome, -⟩ := unregister_spec d d1 u h
  unfold inBin
  unfold inBin at ho hc
  cases hm : u.model with
  | none => simp
  | some m =>
    simp only [hm] at ho hc
    obtain ⟨-, htrue, hfalse⟩ := hsome m hm
    simp only [e0]
    cases hcl : u.isCloaked with
    | true =>
      obtain ⟨hb, e1⟩ := htrue hcl
      rw [e1, mem_binDel _ _ _ _ _ hb]
      exact ⟨ho hcl, fun hx => hx.2.2 ⟨rfl, rfl, rfl⟩⟩
    | false =>
      obtain ⟨hb, e2⟩ := hfalse hcl
      rw [e2, mem_binDel _ _ _ _ _ hb]
      exact ⟨fun hx => hx.2.2 ⟨rfl, rfl, rfl⟩, hc hcl⟩

/-- The function `UnitDestroyed` returns exactly when the ghost half does and the model type
of the unit, if it has a model, is an index of the vectors. -/
theorem UnitDestroyed_returns_iff (g : Globals) (d : CUnitDrawer) (u : CUnit) :
    (∃ d1, UnitDestroyed g d u = some d1) ↔
      (ghostWanted g u = true →
        ∃ m, gbModelOf u = some m ∧ m.type < d.MODELTYPE_OTHER) ∧
      (∀ m, u.model = some m → MDL_TYPE m < d.MODELTYPE_OTHER) := by
  constructor
  · rintro ⟨d1, h1⟩
    obtain ⟨d2, ha, hu⟩ := (UnitDestroyed_eq_some g d d1 u).mp h1
    refine ⟨(archiveGhost_returns_iff g d u).mp ⟨d2, ha⟩, fun m hm => ?_⟩
    rw [← (archiveGhost_bins g d d2 u ha).1]
    exact ((unregister_spec d2 d1 u hu).2.2.2.1 m hm).1
  · rintro ⟨hg, hr⟩
    obtain ⟨d2, ha⟩ := (archiveGhost_returns_iff g d u).mpr hg
    obtain ⟨d1, hu⟩ := unregister_returns d2 u (fun m hm => by
      rw [(archiveGhost_bins g d d2 u ha).1]
      exact hr m hm)
    exact ⟨d1, (UnitDestroyed_eq_some g d d1 u).mpr ⟨d2, ha, hu⟩⟩

/-- C3, as stated, fails: `unitA` was created uncloaked, so the opaque bin holds it; when
it is destroyed with its `isCloaked` flag set, `DelUnit` is sent to the cloaked bin and the
unit stays in the opaque bin. -/
theorem UnitDestroyed_flag_counterexample :
    ∃ d0 d, UnitCreated (CUnitDrawer.empty 2) unitA = some d0 ∧
      UnitDestroyed g0 d0 unitAFlagged = some d ∧
      inBin d.MODELTYPE_OTHER d.opaqueModelRenderers unitAFlagged := by
  refine ⟨_, _, rfl, rfl, ?_⟩
  decide

/-- C3, amended: for every registry state and every renderable `r` whose `isCloaked` flag
agrees with the bin that holds it (not in the opaque bin when the flag is set, not in the
cloaked bin when it is clear), whose model type, if it has a model, is an index of the
vectors (below `MODELTYPE_OTHER`), and which, when a ghost is to be made of it, has a model
for the ghost with a type below `MODELTYPE_OTHER`: `UnitDestroyed(r)` returns and afterwards
`r` is in neither the opaque bin nor the cloaked bin and is not in the live set
`unsortedUnits`. -/
theorem UnitDestroyed_unregisters (g : Globals) (d : CUnitDrawer) (r : CUnit)
    (ho : r.isCloaked = true → ¬ inBin d.MODELTYPE_OTHER d.opaqueModelRenderers r)
    (hc : r.isCloaked = false → ¬ inBin d.MODELTYPE_OTHER d.cloakedModelRenderers r)
    (hrange : ∀ m, r.model = some m → MDL_TYPE m < d.MODELTYPE_OTHER)
    (hmodel : ghostWanted g r = true →
      ∃ m, gbModelOf r = some m ∧ m.type < d.MODELTYPE_OTHER) :
    ∃ d1, UnitDestroyed g d r = some d1 ∧
      ¬ inBin d1.MODELTYPE_OTHER d1.opaqueModelRenderers r ∧
      ¬ inBin d1.MODELTYPE_OTHER d1.cloakedModelRenderers r ∧
      r.id ∉ d1.unsortedUnits := by
  obtain ⟨d1, h1⟩ := (UnitDestroyed_returns_iff g d r).mpr ⟨hmodel, hrange⟩
  obtain ⟨d2, ha, hu⟩ := (UnitDestroyed_eq_some g d d1 r).mp h1
  obtain ⟨e0, e1, e2, -⟩ := archiveGhost_bins g d d2 r ha
  have hbins := unregister_not_inBin d2 d1 r hu (by rw [e0, e1]; exact ho)
    (by rw [e0, e2]; exact hc)
  refine ⟨d1, h1, hbins.1, hbins.2, ?_⟩
  rw [(unregister_spec d2 d1 r hu).2.2.1]
  exact Finset.not_mem_erase _ _

/-- C3, witness: `unitA`, created uncloaked and destroyed uncloaked, ends in neither bin and
outside the live set. -/
theorem UnitDestroyed_unregisters_witness :
    ∃ d0, UnitCreated (CUnitDrawer.empty 2) unitA = some d0 ∧
      ∃ d1, UnitDestroyed g0 d0 unitA = some d1 ∧
        ¬ inBin d1.MODELTYPE_OTHER d1.opaqueModelRenderers unitA ∧
        ¬ inBin d1.MODELTYPE_OTHER d1.cloakedModelRenderers unitA ∧
        unitA.id ∉ d1.unsortedUnits := by
  refine ⟨_, rfl, ?_⟩
  exact UnitDestroyed_unregisters g0 _ unitA
    (fun h => absurd h (by decide)) (fun _ => by decide)
    (fun m hm => by
      cases hm
      decide)
    (fun h => absurd h (by decide))

/-! ## Cloak transitions (C4, C5) -/

theorem bin_ext (b1 b2 : Nat → IWorldObjectModelRenderer)
    (h : ∀ mt tt id, id ∈ (b1 mt).units tt ↔ id ∈ (b2 mt).units tt) : b1 = b2 := by
  funext mt
  have hu : (b1 mt).units = (b2 mt).units := by
    funext tt
    exact Finset.ext (h mt tt)
  cases hb1 : b1 mt with
  | mk u1 =>
    cases hb2 : b2 mt with
    | mk u2 =>
      rw [hb1, hb2] at hu
      simpa using hu

theorem drawer_ext (d1 d2 : CUnitDrawer) (hn : d1.MODELTYPE_OTHER = d2.MODELTYPE_OTHER)
    (ho : ∀ mt tt id, id ∈ (d1.opaqueModelRenderers mt).units tt ↔
      id ∈ (d2.opaqueModelRenderers mt).units tt)
    (hc : ∀ mt tt id, id ∈ (d1.cloakedModelRenderers mt).units tt ↔
      id ∈ (d2.cloakedModelRenderers mt).units tt)
    (hl : d1.unsortedUnits = d2.unsortedUnits) (hg : d1.ghostBuildings = d2.ghostBuildings) :
    d1 = d2 := by
  have h1 := bin_ext _ _ ho
  have h2 := bin_ext _ _ hc
  cases d1
  cases d2
  simp_all

/-- After `UnitCloaked(r)` has returned, a unit `r` with a model is in the cloaked bin and
not in the opaque bin. -/
theorem UnitCloaked_moves (d d1 : CUnitDrawer) (r : CUnit) (m : S3DModel)
    (hm : r.model = some m) (h : UnitCloaked d r = some d1) :
    inBin d1.MODELTYPE_OTHER d1.cloakedModelRenderers r ∧
    ¬ inBin d1.MODELTYPE_OTHER d1.opaqueModelRenderers r := by
  obtain ⟨e0, -, -, hsome, -⟩ := UnitCloaked_spec d d1 r h
  obtain ⟨hlt, ha, hb⟩ := hsome m hm
  unfold inBin
  simp only [hm, e0]
  rw [mem_binAdd _ _ _ _ _ ha, mem_binDel _ _ _ _ _ hb]
  exact ⟨⟨hlt, Or.inl ⟨rfl, rfl, rfl⟩⟩, fun hx => hx.2.2 ⟨rfl, rfl, rfl⟩⟩

/-- After `UnitDecloaked(r)` has returned, a unit `r` with a model is in the opaque bin and
not in the cloaked bin. -/
theorem UnitDecloaked_moves (d d1 : CUnitDrawer) (r : CUnit) (m : S3DModel)
    (hm : r.model = some m) (h : UnitDecloaked d r = some d1) :
    inBin d1.MODELTYPE_OTHER d1.opaqueModelRenderers r ∧
    ¬ inBin d1.MODELTYPE_OTHER d1.cloakedModelRenderers r := by
  obtain ⟨e0, -, -, hsome, -⟩ := UnitDecloaked_spec d d1 r h
  obtain ⟨hlt, ha, hb⟩ := hsome m hm
  unfold inBin
  simp only [hm, e0]
  rw [mem_binAdd _ _ _ _ _ ha, mem_binDel _ _ _ _ _ hb]
  exact ⟨⟨hlt, Or.inl ⟨rfl, rfl, rfl⟩⟩, fun hx => hx.2.2 ⟨rfl, rfl, rfl⟩⟩

/-- C4: for every registry state and every renderable `r` with a model `m` whose type is one
of the model types (an index of the vectors, below `MODELTYPE_OTHER`), `UnitCloaked(r)`
returns with `r` in the cloaked bin and not in the opaque bin, and `UnitDecloaked(r)`
returns with `r` in the opaque bin and not in the cloaked bin; in both cases membership in
either bin is unchanged for every other unit identity in every set (and for every set other
than the one `r` is filed under), and the live set is unchanged. -/
theorem cloak_transition_moves (d : CUnitDrawer) (r : CUnit) (m : S3DModel)
    (hm : r.model = some m) (ht : MDL_TYPE m < d.MODELTYPE_OTHER) :
    (∃ d1, UnitCloaked d r = some d1 ∧
      inBin d1.MODELTYPE_OTHER d1.cloakedModelRenderers r ∧
      ¬ inBin d1.MODELTYPE_OTHER d1.opaqueModelRenderers r ∧
      (∀ mt tt id, ¬ (mt = m.type ∧ tt = m.textureType ∧ id = r.id) →
        (id ∈ (d1.opaqueModelRenderers mt).units tt ↔
          id ∈ (d.opaqueModelRenderers mt).units tt) ∧
        (id ∈ (d1.cloakedModelRenderers mt).units tt ↔
          id ∈ (d.cloakedModelRenderers mt).units tt)) ∧
      d1.unsortedUnits = d.unsortedUnits) ∧
    (∃ d1, UnitDecloaked d r = some d1 ∧
      inBin d1.MODELTYPE_OTHER d1.opaqueModelRenderers r ∧
      ¬ inBin d1.MODELTYPE_OTHER d1.cloakedModelRenderers r ∧
      (∀ mt tt id, ¬ (mt = m.type ∧ tt = m.textureType ∧ id = r.id) →
        (id ∈ (d1.opaqueModelRenderers mt).units tt ↔
          id ∈ (d.opaqueModelRenderers mt).units tt) ∧
        (id ∈ (d1.cloakedModelRenderers mt).units tt ↔
          id ∈ (d.cloakedModelRenderers mt).units tt)) ∧
      d1.unsortedUnits = d.unsortedUnits) := by
  have hrange : ∀ m1, r.model = some m1 → MDL_TYPE m1 < d.MODELTYPE_OTHER := by
    intro m1 hm1
    rw [hm] at hm1
    cases hm1
    exact ht
  constructor
  · obtain ⟨d1, h1⟩ := UnitCloaked_returns d r hrange
    obtain ⟨-, -, elive, hsome, -⟩ := UnitCloaked_spec d d1 r h1
    obtain ⟨-, ha, hb⟩ := hsome m hm
    refine ⟨d1, h1, (UnitCloaked_moves d d1 r m hm h1).1, (UnitCloaked_moves d d1 r m hm h1).2,
      fun mt tt id hne => ?_, elive⟩
    rw [mem_binAdd _ _ _ _ _ ha, mem_binDel _ _ _ _ _ hb]
    tauto
  · obtain ⟨d1, h1⟩ := UnitDecloaked_returns d r hrange
    obtain ⟨-, -, elive, hsome, -⟩ := UnitDecloaked_spec d d1 r h1
    obtain ⟨-, ha, hb⟩ := hsome m hm
    refine ⟨d1, h1, (UnitDecloaked_moves d d1 r m hm h1).1,
      (UnitDecloaked_moves d d1 r m hm h1).2, fun mt tt id hne => ?_, elive⟩
    rw [mem_binAdd _ _ _ _ _ ha, mem_binDel _ _ _ _ _ hb]
    tauto

/-- C4, witness: with `unitA` and `unitB` both created uncloaked, `UnitCloaked(unitA)` puts
`unitA` in the cloaked bin and takes it out of the opaque bin, and leaves every other
membership and the live set as they were. -/
theorem cloak_transition_moves_witness :
    ∃ d0, run g0 (CUnitDrawer.empty 2)
        [Notification.UnitCreated unitA, Notification.UnitCreated unitB] = some d0 ∧
      ∃ d1, UnitCloaked d0 unitA = some d1 ∧
        inBin d1.MODELTYPE_OTHER d1.cloakedModelRenderers unitA ∧
        ¬ inBin d1.MODELTYPE_OTHER d1.opaqueModelRenderers unitA ∧
        (∀ mt tt id, ¬ (mt = 0 ∧ tt = 0 ∧ id = unitA.id) →
          (id ∈ (d1.opaqueModelRenderers mt).units tt ↔
            id ∈ (d0.opaqueModelRenderers mt).units tt) ∧
          (id ∈ (d1.cloakedModelRenderers mt).units tt ↔
            id ∈ (d0.cloakedModelRenderers mt).units tt)) ∧
        d1.unsortedUnits = d0.unsortedUnits := by
  refine ⟨_, rfl, ?_⟩
  exact (cloak_transition_moves _ unitA { type := 0, textureType := 0, radius := 10 } rfl
    (by decide)).1

/-- The call `UnitCloaked(r)` changes nothing when `r` is in the cloaked bin and not in the
opaque bin. -/
theorem UnitCloaked_noop (d : CUnitDrawer) (r : CUnit)
    (h1 : inBin d.MODELTYPE_OTHER d.cloakedModelRenderers r)
    (h2 : ¬ inBin d.MODELTYPE_OTHER d.opaqueModelRenderers r) : UnitCloaked d r = some d := by
  unfold inBin at h1 h2
  cases hm : r.model with
  | none => simp [hm] at h1
  | some m =>
    simp only [hm, MDL_TYPE, TEX_TYPE] at h1 h2
    obtain ⟨d1, hd1⟩ := UnitCloaked_returns d r (fun m1 hm1 => by
      rw [hm] at hm1
      cases hm1
      exact h1.1)
    obtain ⟨e0, eg, el, hsome, -⟩ := UnitCloaked_spec d d1 r hd1
    obtain ⟨-, ha, hb⟩ := hsome m hm
    rw [hd1]
    congr 1
    apply drawer_ext _ _ e0 _ _ el eg
    · intro mt tt id
      rw [mem_binDel _ _ _ _ _ hb]
      constructor
      · exact fun h => h.1
      · exact fun h => ⟨h, fun ⟨e1, e2, e3⟩ => h2 ⟨h1.1, by subst e1 e2 e3; exact h⟩⟩
    · intro mt tt id
      rw [mem_binAdd _ _ _ _ _ ha]
      constructor
      · rintro (⟨e1, e2, e3⟩ | h)
        · subst e1 e2 e3
          exact h1.2
        · exact h
      · exact fun h => Or.inr h

/-- The call `UnitDecloaked(r)` changes nothing when `r` is in the opaque bin and not in the
cloaked bin. -/
theorem UnitDecloaked_noop (d : CUnitDrawer) (r : CUnit)
    (h1 : inBin d.MODELTYPE_OTHER d.opaqueModelRenderers r)
    (h2 : ¬ inBin d.MODELTYPE_OTHER d.cloakedModelRenderers r) :
    UnitDecloaked d r = some d := by
  unfold inBin at h1 h2
  cases hm : r.model with
  | none => simp [hm] at h1
  | some m =>
    simp only [hm, MDL_TYPE, TEX_TYPE] at h1 h2
    obtain ⟨d1, hd1⟩ := UnitDecloaked_returns d r (fun m1 hm1 => by
      rw [hm] at hm1
      cases hm1
      exact h1.1)
    obtain ⟨e0, eg, el, hsome, -⟩ := UnitDecloaked_spec d d1 r hd1
    obtain ⟨-, ha, hb⟩ := hsome m hm
    rw [hd1]
    congr 1
    apply drawer_ext _ _ e0 _ _ el eg
    · intro mt tt id
      rw [mem_binAdd _ _ _ _ _ ha]
      constructor
      · rintro (⟨e1, e2, e3⟩ | h)
        · subst e1 e2 e3
          exact h1.2
        · exact h
      · exact fun h => Or.inr h
    · intro mt tt id
      rw [mem_binDel _ _ _ _ _ hb]
      constructor
      · exact fun h => h.1
      · exact fun h => ⟨h, fun ⟨e1, e2, e3⟩ => h2 ⟨h1.1, by subst e1 e2 e3; exact h⟩⟩

/-- C5: applying `UnitCloaked(r)` twice in a row leaves the same drawer state (hence the
same opaque and cloaked bins) as applying it once, and likewise for `UnitDecloaked(r)`; the
call changes nothing when `r` is already in the target bin and absent from the other. Both
calls return whenever the model type of `r`, if it has a model, is an index of the
vectors. -/
theorem cloak_transition_idempotent (d : CUnitDrawer) (r : CUnit) :
    (UnitCloaked d r).bind (fun d1 => UnitCloaked d1 r) = UnitCloaked d r ∧
    (UnitDecloaked d r).bind (fun d1 => UnitDecloaked d1 r) = UnitDecloaked d r ∧
    (inBin d.MODELTYPE_OTHER d.cloakedModelRenderers r →
      ¬ inBin d.MODELTYPE_OTHER d.opaqueModelRenderers r → UnitCloaked d r = some d) ∧
    (inBin d.MODELTYPE_OTHER d.opaqueModelRenderers r →
      ¬ inBin d.MODELTYPE_OTHER d.cloakedModelRenderers r → UnitDecloaked d r = some d) ∧
    ((∀ m, r.model = some m → MDL_TYPE m < d.MODELTYPE_OTHER) →
      (∃ d1, UnitCloaked d r = some d1 ∧ UnitCloaked d1 r = some d1) ∧
      (∃ d1, UnitDecloaked d r = some d1 ∧ UnitDecloaked d1 r = some d1)) := by
  have hc : ∀ d1, UnitCloaked d r = some d1 → UnitCloaked d1 r = some d1 := by
    intro d1 h1
    cases hm : r.model with
    | none => simp [UnitCloaked, hm]
    | some m =>
      exact UnitCloaked_noop d1 r (UnitCloaked_moves d d1 r m hm h1).1
        (UnitCloaked_moves d d1 r m hm h1).2
  have hd : ∀ d1, UnitDecloaked d r = some d1 → UnitDecloaked d1 r = some d1 := by
    intro d1 h1
    cases hm : r.model with
    | none => simp [UnitDecloaked, hm]
    | some m =>
      exact UnitDecloaked_noop d1 r (UnitDecloaked_moves d d1 r m hm h1).1
        (UnitDecloaked_moves d d1 r m hm h1).2
  refine ⟨?_, ?_, UnitCloaked_noop d r, UnitDecloaked_noop d r, fun hrange => ⟨?_, ?_⟩⟩
  · cases h1 : UnitCloaked d r with
    | none => rfl
    | some d1 => simpa using hc d1 h1
  · cases h1 : UnitDecloaked d r with
    | none => rfl
    | some d1 => simpa using hd d1 h1
  · obtain ⟨d1, h1⟩ := UnitCloaked_returns d r hrange
    exact ⟨d1, h1, hc d1 h1⟩
  · obtain ⟨d1, h1⟩ := UnitDecloaked_returns d r hrange
    exact ⟨d1, h1, hd d1 h1⟩

/-- C5, witness: `unitA` is in the cloaked bin and not in the opaque bin after it is created
and cloaked, and a second `UnitCloaked` leaves that state as it is. -/
theorem cloak_transition_idempotent_witness :
    ∃ d, run g0 (CUnitDrawer.empty 2)
        [Notification.UnitCreated unitA, Notification.UnitCloaked unitA] = some d ∧
      UnitCloaked d unitA = some d := by
  refine ⟨_, rfl, ?_⟩
  exact (cloak_transition_idempotent _ unitA).2.2.1 (by decide) (by decide)

/-! ## Line-of-sight bits -/

theorem lor_eq_zero_iff (a b : Nat) : a ||| b = 0 ↔ a = 0 ∧ b = 0 := by
  constructor
  · intro h
    constructor
    · apply Nat.eq_of_testBit_eq
      intro i
      have hi := congrArg (fun n => n.testBit i) h
      simp only [Nat.testBit_or, Nat.zero_testBit, Bool.or_eq_false_iff] at hi
      simp [hi.1]
    · apply Nat.eq_of_testBit_eq
      intro i
      have hi := congrArg (fun n => n.testBit i) h
      simp only [Nat.testBit_or, Nat.zero_testBit, Bool.or_eq_false_iff] at hi
      simp [hi.2]
  · rintro ⟨rfl, rfl⟩
    rfl

theorem ghostLosTest_iff (g : Globals) (u : CUnit) :
    ghostLosTest g u = true ↔
      (u.losStatus g.gu.myAllyTeam &&& LOS_INLOS = 0 ∧
        u.losStatus g.gu.myAllyTeam &&& LOS_CONTRADAR = 0 ∧
        u.losStatus g.gu.myAllyTeam &&& LOS_PREVLOS ≠ 0 ∧
        g.gu.spectatingFullView = false) := by
  unfold ghostLosTest
  rw [Nat.and_or_distrib_left]
  simp only [Bool.and_eq_true, beq_iff_eq, bne_iff_ne, ne_eq, Bool.not_eq_true',
    lor_eq_zero_iff]
  tauto

/-! ## Destruction of an unregistered unit (C6) -/

/-- The bin half of `UnitDestroyed`, when it returns for a unit that is in neither bin and not
in the live set, returns the state it was given. -/
theorem unregister_noop (d d1 : CUnitDrawer) (u : CUnit) (h : unregister d u = some d1)
    (ho : ¬ inBin d.MODELTYPE_OTHER d.opaqueModelRenderers u)
    (hc : ¬ inBin d.MODELTYPE_OTHER d.cloakedModelRenderers u)
    (hl : u.id ∉ d.unsortedUnits) : d1 = d := by
  obtain ⟨e0, eg, el, hsome, hnone⟩ := unregister_spec d d1 u h
  unfold inBin at ho hc
  have hlive : d1.unsortedUnits = d.unsortedUnits := by
    rw [el]
    exact Finset.erase_eq_of_not_mem hl
  cases hm : u.model with
  | none =>
    obtain ⟨e1, e2⟩ := hnone hm
    exact drawer_ext d1 d e0 (by rw [e1]; simp) (by rw [e2]; simp) hlive eg
  | some m =>
    simp only [hm, MDL_TYPE, TEX_TYPE] at ho hc
    obtain ⟨hlt, htrue, hfalse⟩ := hsome m hm
    cases hcl : u.isCloaked with
    | true =>
      obtain ⟨hb, e1⟩ := htrue hcl
      refine drawer_ext d1 d e0 (by rw [e1]; simp) ?_ hlive eg
      intro mt tt id
      rw [mem_binDel _ _ _ _ _ hb]
      constructor
      · exact fun hx => hx.1
      · exact fun hx => ⟨hx, fun ⟨e3, e4, e5⟩ => hc ⟨hlt, by subst e3 e4 e5; exact hx⟩⟩
    | false =>
      obtain ⟨hb, e2⟩ := hfalse hcl
      refine drawer_ext d1 d e0 ?_ (by rw [e2]; simp) hlive eg
      intro mt tt id
      rw [mem_binDel _ _ _ _ _ hb]
      constructor
      · exact fun hx => hx.1
      · exact fun hx => ⟨hx, fun ⟨e3, e4, e5⟩ => ho ⟨hlt, by subst e3 e4 e5; exact hx⟩⟩

/-- C6, as stated, fails: the building `bldgP` (prior-los only) is created and destroyed;
it is then unregistered, yet a second `UnitDestroyed` in a row archives a second ghost of
it. -/
theorem UnitDestroyed_twice_counterexample :
    ∃ d0 d1 d2, UnitCreated (CUnitDrawer.empty 2) bldgP = some d0 ∧
      UnitDestroyed g0 d0 bldgP = some d1 ∧
      ¬ inBin d1.MODELTYPE_OTHER d1.opaqueModelRenderers bldgP ∧
      ¬ inBin d1.MODELTYPE_OTHER d1.cloakedModelRenderers bldgP ∧
      bldgP.id ∉ d1.unsortedUnits ∧
      UnitDestroyed g0 d1 bldgP = some d2 ∧
      d1.ghostBuildings 0 = [ghostP] ∧ d2.ghostBuildings 0 = [ghostP, ghostP] := by
  refine ⟨_, _, _, rfl, rfl, ?_, ?_, ?_, rfl, ?_, ?_⟩ <;> decide

/-- C6, amended: for every registry state and every renderable `r` (building or not), a
`UnitDestroyed(r)` call made when `r` is not registered, whenever it returns, leaves the
opaque and cloaked bins and the live set unchanged, and is a complete no-op, the ghost
archive included, when no ghost is wanted of `r` (it is not a building, ghosting is
disabled, or its LOS status fails the ghost test). The call returns exactly when the model
type of `r`, if it has a model, is below `MODELTYPE_OTHER` and, if a ghost is wanted of `r`,
the ghost has a model (the decoy's, else its own) with a type below `MODELTYPE_OTHER`. -/
theorem UnitDestroyed_unregistered (g : Globals) (d : CUnitDrawer) (r : CUnit)
    (ho : ¬ inBin d.MODELTYPE_OTHER d.opaqueModelRenderers r)
    (hc : ¬ inBin d.MODELTYPE_OTHER d.cloakedModelRenderers r)
    (hl : r.id ∉ d.unsortedUnits) :
    (∀ d1, UnitDestroyed g d r = some d1 →
      d1.opaqueModelRenderers = d.opaqueModelRenderers ∧
      d1.cloakedModelRenderers = d.cloakedModelRenderers ∧
      d1.unsortedUnits = d.unsortedUnits ∧
      (ghostWanted g r = false → d1 = d)) ∧
    ((∃ d1, UnitDestroyed g d r = some d1) ↔
      (ghostWanted g r = true →
        ∃ m, gbModelOf r = some m ∧ m.type < d.MODELTYPE_OTHER) ∧
      (∀ m, r.model = some m → MDL_TYPE m < d.MODELTYPE_OTHER)) := by
  refine ⟨fun d1 h1 => ?_, UnitDestroyed_returns_iff g d r⟩
  obtain ⟨d2, ha, hu⟩ := (UnitDestroyed_eq_some g d d1 r).mp h1
  obtain ⟨e0, e1, e2, e3⟩ := archiveGhost_bins g d d2 r ha
  have hd : d1 = d2 := unregister_noop d2 d1 r hu (by rw [e0, e1]; exact ho)
    (by rw [e0, e2]; exact hc) (by rw [e3]; exact hl)
  subst hd
  refine ⟨e1, e2, e3, fun hw => ?_⟩
  rw [archiveGhost_of_not_wanted g d r hw] at ha
  exact (Option.some.inj ha).symm

/-- C6, witness: `unitA` was never created; destroying it on the empty registry returns and
changes nothing. -/
theorem UnitDestroyed_unregistered_witness :
    (∃ d1, UnitDestroyed g0 (CUnitDrawer.empty 2) unitA = some d1) ∧
    ∀ d1, UnitDestroyed g0 (CUnitDrawer.empty 2) unitA = some d1 → d1 = CUnitDrawer.empty 2 :=
  ⟨((UnitDestroyed_unregistered g0 (CUnitDrawer.empty 2) unitA (by decide) (by decide)
      (by decide)).2).mpr
      ⟨fun h => absurd h (by decide), fun m hm => by
        cases hm
        decide⟩,
    fun d1 h1 =>
      ((UnitDestroyed_unregistered g0 (CUnitDrawer.empty 2) unitA (by decide) (by decide)
        (by decide)).1 d1 h1).2.2.2 (by decide)⟩

/-! ## Ghost conservation (C7, C8, C9) -/

theorem UnitDestroyed_of_wanted (g : Globals) (d d1 : CUnitDrawer) (u : CUnit) (m : S3DModel)
    (h : ghostWanted g u = true) (hm : gbModelOf u = some m)
    (h1 : UnitDestroyed g d u = some d1) :
    m.type < d.MODELTYPE_OTHER ∧
    d1.MODELTYPE_OTHER = d.MODELTYPE_OTHER ∧
    d1.ghostBuildings =
      Function.update d.ghostBuildings m.type (d.ghostBuildings m.type ++ [newGhost u m]) := by
  obtain ⟨d2, ha, hu⟩ := (UnitDestroyed_eq_some g d d1 u).mp h1
  obtain ⟨m1, hm1, ht⟩ := (archiveGhost_returns_iff g d u).mp ⟨d2, ha⟩ h
  rw [hm] at hm1
  cases hm1
  rw [archiveGhost_of_wanted g d u m h hm ht] at ha
  cases ha
  obtain ⟨e0, eg, -⟩ := unregister_spec _ d1 u hu
  exact ⟨ht, e0, eg⟩

theorem UnitDestroyed_of_not_wanted (g : Globals) (d d1 : CUnitDrawer) (u : CUnit)
    (h : ghostWanted g u = false) (h1 : UnitDestroyed g d u = some d1) :
    d1.ghostBuildings = d.ghostBuildings := by
  obtain ⟨d2, ha, hu⟩ := (UnitDestroyed_eq_some g d d1 u).mp h1
  rw [archiveGhost_of_not_wanted g d u h] at ha
  cases ha
  exact (unregister_spec _ d1 u hu).2.1

theorem numGhosts_update (d d1 : CUnitDrawer) (t : Nat) (gb : GhostBuilding)
    (hn : d1.MODELTYPE_OTHER = d.MODELTYPE_OTHER) (ht : t < d.MODELTYPE_OTHER)
    (h : d1.ghostBuildings = Function.update d.ghostBuildings t (d.ghostBuildings t ++ [gb])) :
    numGhosts d1 = numGhosts d + 1 := by
  unfold numGhosts
  rw [hn]
  have hmem : t ∈ Finset.range d.MODELTYPE_OTHER := Finset.mem_range.mpr ht
  rw [← Finset.add_sum_erase _ _ hmem, ← Finset.add_sum_erase _ _ hmem, h]
  have hrest : ∀ x ∈ (Finset.range d.MODELTYPE_OTHER).erase t,
      (Function.update d.ghostBuildings t (d.ghostBuildings t ++ [gb]) x).length =
        (d.ghostBuildings x).length := by
    intro x hx
    rw [Function.update_noteq (Finset.ne_of_mem_erase hx)]
  rw [Finset.sum_congr rfl hrest]
  simp
  omega

/-- C7, as stated, fails: the building `bldgCR` has prior-los set and in-los clear, but
counter-radar set as well; `UnitDestroyed` archives no ghost of it. -/
theorem ghost_on_prevlos_counterexample :
    bldgCR.isBuilding = true ∧
    bldgCR.losStatus g0.gu.myAllyTeam &&& LOS_PREVLOS ≠ 0 ∧
    bldgCR.losStatus g0.gu.myAllyTeam &&& LOS_INLOS = 0 ∧
    ∃ d0 d1, UnitCreated (CUnitDrawer.empty 2) bldgCR = some d0 ∧
      UnitDestroyed g0 d0 bldgCR = some d1 ∧
      d1.ghostBuildings = d0.ghostBuildings := by
  refine ⟨rfl, by decide, by decide, _, _, rfl, rfl, rfl⟩

/-- C7, amended: for every building whose LOS status for the local ally team has prior-los
set and both in-los and counter-radar clear at the moment of destruction, with ghosting
enabled (no `gameSetup`, or `gameSetup->ghostedBuildings`), the local player not spectating
with full view, a model `m` for the ghost (the decoy's, else the building's own), and the
types of `m` and of the building's own model below `MODELTYPE_OTHER`, `UnitDestroyed`
returns and adds exactly one ghost: the ghost list of `m.type` gains one entry at its end,
every other ghost list is unchanged, and the total number of stored ghosts grows by exactly
one. -/
theorem ghost_on_prevlos (g : Globals) (d : CUnitDrawer) (r : CUnit) (m : S3DModel)
    (hb : r.isBuilding = true) (he : ghostingEnabled g = true)
    (hs : g.gu.spectatingFullView = false)
    (hprev : r.losStatus g.gu.myAllyTeam &&& LOS_PREVLOS ≠ 0)
    (hlos : r.losStatus g.gu.myAllyTeam &&& LOS_INLOS = 0)
    (hcr : r.losStatus g.gu.myAllyTeam &&& LOS_CONTRADAR = 0)
    (hm : gbModelOf r = some m) (ht : m.type < d.MODELTYPE_OTHER)
    (hrange : ∀ m0, r.model = some m0 → MDL_TYPE m0 < d.MODELTYPE_OTHER) :
    ∃ d1, UnitDestroyed g d r = some d1 ∧
      (∃ gb, d1.ghostBuildings m.type = d.ghostBuildings m.type ++ [gb]) ∧
      (∀ t, t ≠ m.type → d1.ghostBuildings t = d.ghostBuildings t) ∧
      numGhosts d1 = numGhosts d + 1 := by
  have hw : ghostWanted g r = true := by
    unfold ghostWanted
    rw [hb, he, (ghostLosTest_iff g r).mpr ⟨hlos, hcr, hprev, hs⟩]
    rfl
  obtain ⟨d1, h1⟩ := (UnitDestroyed_returns_iff g d r).mpr ⟨fun _ => ⟨m, hm, ht⟩, hrange⟩
  obtain ⟨-, e0, h2⟩ := UnitDestroyed_of_wanted g d d1 r m hw hm h1
  refine ⟨d1, h1, ⟨newGhost r m, ?_⟩, ?_, numGhosts_update d d1 m.type _ e0 ht h2⟩
  · rw [h2, Function.update_same]
  · intro t hne
    rw [h2, Function.update_noteq hne]

/-- C7, witness: `bldgP` is a prior-los-only building; destroying it in a game without
setup script adds one ghost to the archive. -/
theorem ghost_on_prevlos_witness :
    ∃ d0, UnitCreated (CUnitDrawer.empty 2) bldgP = some d0 ∧
      ∃ d1, UnitDestroyed g0 d0 bldgP = some d1 ∧
        (∃ gb, d1.ghostBuildings 0 = d0.ghostBuildings 0 ++ [gb]) ∧
        (∀ t, t ≠ 0 → d1.ghostBuildings t = d0.ghostBuildings t) ∧
        numGhosts d1 = numGhosts d0 + 1 := by
  refine ⟨_, rfl, ?_⟩
  exact ghost_on_prevlos g0 _ bldgP { type := 0, textureType := 0, radius := 10 } rfl rfl rfl
    (by decide) (by decide) (by decide) rfl (by decide)
    (fun m0 hm0 => by
      cases hm0
      decide)

/-- C8: for every building (indeed every unit) whose LOS status for the local ally team
has in-los set at the moment of destruction, `UnitDestroyed` adds no ghost: whenever it
returns, every ghost list of the archive is unchanged; and it returns whenever the model
type of the unit, if it has a model, is an index of the vectors. -/
theorem no_ghost_in_los (g : Globals) (d : CUnitDrawer) (r : CUnit)
    (hlos : r.losStatus g.gu.myAllyTeam &&& LOS_INLOS ≠ 0) :
    (∀ d1, UnitDestroyed g d r = some d1 → d1.ghostBuildings = d.ghostBuildings) ∧
    ((∀ m, r.model = some m → MDL_TYPE m < d.MODELTYPE_OTHER) →
      ∃ d1, UnitDestroyed g d r = some d1 ∧ d1.ghostBuildings = d.ghostBuildings) := by
  have ht : ghostLosTest g r = false := by
    cases h : ghostLosTest g r with
    | false => rfl
    | true => exact absurd ((ghostLosTest_iff g r).mp h).1 hlos
  have hw : ghostWanted g r = false := by simp [ghostWanted, ht]
  refine ⟨fun d1 h1 => UnitDestroyed_of_not_wanted g d d1 r hw h1, fun hrange => ?_⟩
  obtain ⟨d1, h1⟩ := (UnitDestroyed_returns_iff g d r).mpr
    ⟨fun h => absurd h (by simp [hw]), hrange⟩
  exact ⟨d1, h1, UnitDestroyed_of_not_wanted g d d1 r hw h1⟩

/-- C8, witness: `bldgSeen` is in line of sight; destroying it leaves the archive, which
holds two ghosts, as it is. -/
theorem no_ghost_in_los_witness :
    bldgSeen.isBuilding = true ∧
    ∃ d1, UnitDestroyed g0 archiveP bldgSeen = some d1 ∧
      d1.ghostBuildings = archiveP.ghostBuildings :=
  ⟨rfl, (no_ghost_in_los g0 archiveP bldgSeen (by decide)).2 (fun m hm => by
    cases hm
    decide)⟩

/-- C9: whenever `UnitDestroyed` creates a ghost for a building (it returns and the
archive differs from before), there is a model `m`, the decoy definition's model if the
building's `unitDef` has a `decoyDef` and the building's own model otherwise, such that the
new archive is the old one with one ghost appended at the end of the ghost list of
`m.type`, and that ghost's position, model, decal, facing and team are the building's `pos`,
`m`, `buildingDecal`, `buildFacing` and `team`. -/
theorem ghost_snapshot (g : Globals) (d d1 : CUnitDrawer) (u : CUnit)
    (hret : UnitDestroyed g d u = some d1) (hnew : d1.ghostBuildings ≠ d.ghostBuildings) :
    ∃ m : S3DModel,
      (∀ decoy, u.unitDef.decoyDef = some decoy → m = decoy.LoadModel) ∧
      (u.unitDef.decoyDef = none → u.model = some m) ∧
      u.isBuilding = true ∧
      m.type < d.MODELTYPE_OTHER ∧
      d1.ghostBuildings =
        Function.update d.ghostBuildings m.type
          (d.ghostBuildings m.type ++
            [{ pos := u.pos, model := m, decal := u.buildingDecal, facing := u.buildFacing,
               team := u.team }]) := by
  cases hw : ghostWanted g u with
  | false => exact absurd (UnitDestroyed_of_not_wanted g d d1 u hw hret) hnew
  | true =>
    obtain ⟨m, hm, -⟩ := ((UnitDestroyed_returns_iff g d u).mp ⟨d1, hret⟩).1 hw
    obtain ⟨ht, -, h3⟩ := UnitDestroyed_of_wanted g d d1 u m hw hm hret
    refine ⟨m, ?_, ?_, ?_, ht, h3⟩
    · intro decoy hd
      simp only [gbModelOf, hd, Option.some.injEq] at hm
      exact hm.symm
    · intro hd
      simpa [gbModelOf, hd] using hm
    · unfold ghostWanted at hw
      cases hb : u.isBuilding
      · simp [hb] at hw
      · rfl

/-- C9, witness: `bldgDecoy` has a decoy definition; its ghost carries the decoy's model and
is appended to the ghost list of the decoy model's type, behind what the list held. -/
theorem ghost_snapshot_witness :
    ∃ d1, UnitDestroyed g0 archiveP bldgDecoy = some d1 ∧
      d1.ghostBuildings ≠ archiveP.ghostBuildings ∧
      ∃ m : S3DModel,
        (∀ decoy, bldgDecoy.unitDef.decoyDef = some decoy → m = decoy.LoadModel) ∧
        (bldgDecoy.unitDef.decoyDef = none → bldgDecoy.model = some m) ∧
        bldgDecoy.isBuilding = true ∧
        m.type < archiveP.MODELTYPE_OTHER ∧
        d1.ghostBuildings =
          Function.update archiveP.ghostBuildings m.type
            (archiveP.ghostBuildings m.type ++
              [{ pos := bldgDecoy.pos, model := m, decal := bldgDecoy.buildingDecal,
                 facing := bldgDecoy.buildFacing, team := bldgDecoy.team }]) := by
  refine ⟨_, rfl, ?_, ?_⟩
  · exact fun h => absurd (congrFun h 1) (by decide)
  · exact ghost_snapshot g0 archiveP _ bldgDecoy rfl
      (fun h => absurd (congrFun h 1) (by decide))

/-! ## Ghost pruning (C10) -/

theorem ghostWalk_ghosts (s : Sensors) (camera : CCamera) (gu : CGlobalUnsynced)
    (l : List GhostBuilding) :
    (ghostWalk s camera gu l).ghosts = l.filter (fun gb => !s.InLos gb.pos gu.myAllyTeam) := by
  induction l with
  | nil => rfl
  | cons gb rest ih =>
    unfold ghostWalk
    cases hlos : s.InLos gb.pos gu.myAllyTeam with
    | true =>
      cases hdec : gb.decal <;> simp [hlos, ih]
    | false =>
      cases hview : camera.InView gb.pos (gb.model.radius * 2) <;> simp [hlos, ih]

theorem ghostWalk_cleared (s : Sensors) (camera : CCamera) (gu : CGlobalUnsynced)
    (l : List GhostBuilding) :
    (ghostWalk s camera gu l).cleared =
      (l.filter (fun gb => s.InLos gb.pos gu.myAllyTeam)).filterMap (fun gb => gb.decal) := by
  induction l with
  | nil => rfl
  | cons gb rest ih =>
    unfold ghostWalk
    cases hlos : s.InLos gb.pos gu.myAllyTeam with
    | true =>
      cases hdec : gb.decal <;> simp [hlos, hdec, ih]
    | false =>
      cases hview : camera.InView gb.pos (gb.model.radius * 2) <;> simp [hlos, ih]

/-- C10, as stated, fails: with no line of sight anywhere but counter-radar coverage
everywhere, `DrawGhostedBuildings(0)` leaves the ghost `ghostP` in the archive although its
position has counter-radar coverage. -/
theorem prune_counter_radar_counterexample :
    ∃ gb ∈ (DrawGhostedBuildings radarOnly wideCamera g0.gu archiveP 0).drawer.ghostBuildings 0,
      (radarOnly.InLos gb.pos g0.gu.myAllyTeam ||
        radarOnly.InContRadar gb.pos g0.gu.myAllyTeam) = true :=
  ⟨ghostP, by decide, rfl⟩

/-- C10, amended: for every ghost archive state, after `DrawGhostedBuildings(modelType)` no
ghost of that model type remains whose position the local ally team has in line of sight
(counter-radar coverage plays no part): the list keeps exactly the ghosts not in line of
sight. Each ghost removed this way that owned a decal has had that decal's `gbOwner`
cleared exactly once: the writes made are, in order, one per removed ghost with a decal;
so a decal is cleared as many times as removed ghosts own it. -/
theorem prune_removes_in_los (s : Sensors) (camera : CCamera) (gu : CGlobalUnsynced)
    (d : CUnitDrawer) (modelType : Nat) :
    (∀ gb ∈ (DrawGhostedBuildings s camera gu d modelType).drawer.ghostBuildings modelType,
      s.InLos gb.pos gu.myAllyTeam = false) ∧
    (DrawGhostedBuildings s camera gu d modelType).drawer.ghostBuildings modelType =
      (d.ghostBuildings modelType).filter (fun gb => !s.InLos gb.pos gu.myAllyTeam) ∧
    (DrawGhostedBuildings s camera gu d modelType).cleared =
      ((d.ghostBuildings modelType).filter
        (fun gb => s.InLos gb.pos gu.myAllyTeam)).filterMap (fun gb => gb.decal) ∧
    (∀ decal, (DrawGhostedBuildings s camera gu d modelType).cleared.count decal =
      ((d.ghostBuildings modelType).filter
        (fun gb => s.InLos gb.pos gu.myAllyTeam && decide (gb.decal = some decal))).length) := by
  have hg : (DrawGhostedBuildings s camera gu d modelType).drawer.ghostBuildings modelType =
      (d.ghostBuildings modelType).filter (fun gb => !s.InLos gb.pos gu.myAllyTeam) := by
    simp [DrawGhostedBuildings, ghostWalk_ghosts]
  have hc : (DrawGhostedBuildings s camera gu d modelType).cleared =
      ((d.ghostBuildings modelType).filter
        (fun gb => s.InLos gb.pos gu.myAllyTeam)).filterMap (fun gb => gb.decal) := by
    simp [DrawGhostedBuildings, ghostWalk_cleared]
  refine ⟨?_, hg, hc, ?_⟩
  · intro gb hgb
    rw [hg] at hgb
    simpa using (List.mem_filter.mp hgb).2
  · intro decal
    rw [hc]
    generalize d.ghostBuildings modelType = l
    induction l with
    | nil => rfl
    | cons gb rest ih =>
      cases hlos : s.InLos gb.pos gu.myAllyTeam with
      | false => simpa [List.filter_cons, hlos] using ih
      | true =>
        cases hdec : gb.decal with
        | none => simpa [List.filter_cons, hlos, hdec] using ih
        | some dc =>
          by_cases hEq : dc = decal
          · subst hEq
            simp [List.filter_cons, hlos, hdec, ih]
          · simp [List.filter_cons, hlos, hdec, hEq, List.count_cons, ih]

/-- C10, witness: with line of sight on the east only, the pass over `archiveP` removes
`ghostP` (east, decal 7), clears decal 7 once, and keeps `ghostW` (west, no decal). -/
theorem prune_removes_in_los_witness :
    (DrawGhostedBuildings eastLos wideCamera g0.gu archiveP 0).drawer.ghostBuildings 0 =
      [ghostW] ∧
    (DrawGhostedBuildings eastLos wideCamera g0.gu archiveP 0).cleared = [7] ∧
    (DrawGhostedBuildings eastLos wideCamera g0.gu archiveP 0).cleared.count 7 = 1 :=
  ⟨(prune_removes_in_los eastLos wideCamera g0.gu archiveP 0).2.1.trans (by decide),
    (prune_removes_in_los eastLos wideCamera g0.gu archiveP 0).2.2.1.trans (by decide),
    ((prune_removes_in_los eastLos wideCamera g0.gu archiveP 0).2.2.2 7).trans (by decide)⟩

/-! ## Classifier lemmas -/

theorem DoDrawUnit_excluded (w : World) (s : UnitDrawSettings) (unit : CUnit)
    (excludeUnit : Option Nat) (drawReflection drawRefraction : Bool) (L : DrawLists)
    (h : excludeUnit = some unit.id) :
    DoDrawUnit w s unit excludeUnit drawReflection drawRefraction L = (unit, L) := by
  simp [DoDrawUnit, h]

theorem DoDrawUnit_noDraw (w : World) (s : UnitDrawSettings) (unit : CUnit)
    (excludeUnit : Option Nat) (drawReflection drawRefraction : Bool) (L : DrawLists)
    (h : unit.noDraw = true) :
    DoDrawUnit w s unit excludeUnit drawReflection drawRefraction L = (unit, L) := by
  simp [DoDrawUnit, h]

theorem DoDrawUnit_not_in_view (w : World) (s : UnitDrawSettings) (unit : CUnit)
    (excludeUnit : Option Nat) (drawReflection drawRefraction : Bool) (L : DrawLists)
    (h : w.camera.InView unit.drawMidPos (unit.radius + 30) = false) :
    DoDrawUnit w s unit excludeUnit drawReflection drawRefraction L = (unit, L) := by
  simp [DoDrawUnit, h]

/-- A unit that passes the three entry tests of `DoDrawUnit` goes by its LOS status. -/
theorem DoDrawUnit_entered (w : World) (s : UnitDrawSettings) (unit : CUnit)
    (excludeUnit : Option Nat) (drawReflection drawRefraction : Bool) (L : DrawLists)
    (hex : excludeUnit ≠ some unit.id) (hnd : unit.noDraw = false)
    (hview : w.camera.InView unit.drawMidPos (unit.radius + 30) = true) :
    DoDrawUnit w s unit excludeUnit drawReflection drawRefraction L =
      if (unit.losStatus w.g.gu.myAllyTeam &&& LOS_INLOS) != 0 || w.g.gu.spectatingFullView then
        if drawReflection then
          if w.reflectionCull unit then (unit, L) else drawObserved w s unit L
        else if drawRefraction then
          if decide (unit.pos.y > 0) then (unit, L) else drawObserved w s unit L
        else drawObserved w s unit L
      else if (unit.losStatus w.g.gu.myAllyTeam &&& LOS_PREVLOS) != 0 then
        drawPrevLos w s unit (unit.losStatus w.g.gu.myAllyTeam) L
      else if (unit.losStatus w.g.gu.myAllyTeam &&& LOS_INRADAR) != 0 then
        (unit, { L with drawRadarIcon := L.drawRadarIcon ++ [unit.id] })
      else (unit, L) := by
  simp [DoDrawUnit, hex, hnd, hview]

/-- A directly observed unit is either left alone or classified by `drawObserved`. -/
theorem DoDrawUnit_observed_cases (w : World) (s : UnitDrawSettings) (unit : CUnit)
    (excludeUnit : Option Nat) (drawReflection drawRefraction : Bool) (L : DrawLists)
    (hobs : unit.losStatus w.g.gu.myAllyTeam &&& LOS_INLOS ≠ 0 ∨
      w.g.gu.spectatingFullView = true) :
    DoDrawUnit w s unit excludeUnit drawReflection drawRefraction L = (unit, L) ∨
    DoDrawUnit w s unit excludeUnit drawReflection drawRefraction L = drawObserved w s unit L := by
  by_cases hex : excludeUnit = some unit.id
  · exact Or.inl (DoDrawUnit_excluded w s unit _ _ _ L hex)
  cases hnd : unit.noDraw with
  | true => exact Or.inl (DoDrawUnit_noDraw w s unit _ _ _ L hnd)
  | false =>
    cases hview : w.camera.InView unit.drawMidPos (unit.radius + 30) with
    | false => exact Or.inl (DoDrawUnit_not_in_view w s unit _ _ _ L hview)
    | true =>
      rw [DoDrawUnit_entered w s unit _ _ _ L hex hnd hview]
      have hcond : ((unit.losStatus w.g.gu.myAllyTeam &&& LOS_INLOS) != 0 ||
          w.g.gu.spectatingFullView) = true := by
        rcases hobs with h | h
        · simp [h]
        · simp [h]
      rw [if_pos hcond]
      cases drawReflection <;> cases drawRefraction <;> cases w.reflectionCull unit <;>
        by_cases hy : unit.pos.y > 0 <;> simp [hy]

theorem classOf_empty (unit : Nat) : classOf DrawLists.empty unit = none := by
  simp [classOf, DrawLists.empty]

theorem DrawUnitLOD_lists (w : World) (unit : CUnit) (L : DrawLists) :
    (DrawUnitLOD w unit L).2.2.drawFar = L.drawFar ∧
    (DrawUnitLOD w unit L).2.2.drawStat = L.drawStat ∧
    (DrawUnitLOD w unit L).2.2.drawIcon = L.drawIcon ∧
    (DrawUnitLOD w unit L).2.2.drawRadarIcon = L.drawRadarIcon ∧
    (DrawUnitLOD w unit L).2.2.drawnNow = L.drawnNow ∧
    (((DrawUnitLOD w unit L).1 = true ∧
        ∃ bin, (DrawUnitLOD w unit L).2.2.lodBins = L.lodBins ++ [(bin, unit.id)]) ∨
      ((DrawUnitLOD w unit L).1 = false ∧ (DrawUnitLOD w unit L).2.2.lodBins = L.lodBins)) := by
  unfold DrawUnitLOD
  by_cases hlod : unit.lodCount > 0
  · simp only [hlod, if_true]
    cases hmat : (unit.luaMats (lodMatType w unit)).GetMaterial
        (unit.CalcLOD (unit.luaMats (lodMatType w unit)).GetLastLOD) with
    | none => simp
    | some lodMat =>
      cases hact : lodMat.IsActive with
      | false => simp [hact]
      | true =>
        simp only [hact, if_true, true_and]
        exact Or.inl ⟨lodMat.matref, rfl⟩
  · simp [hlod]

/-- What `drawObserved` does to the lists, `d` being the squared camera distance: the radar
list is left alone; the icon list gets the unit when `DrawAsIcon`; the far list gets it when
it is no icon and `d` exceeds the far length; the stat list gets it when it is no icon and
the health-bar test passes; and exactly when it is neither icon nor far it is drawn at once
or handed to the binner. -/
theorem drawObserved_lists (w : World) (s : UnitDrawSettings) (unit : CUnit) (L : DrawLists) :
    (drawObserved w s unit L).2.drawRadarIcon = L.drawRadarIcon ∧
    (drawObserved w s unit L).2.drawIcon =
      (if DrawAsIcon s unit (sqDistance unit.pos w.camera.pos) = true then
        L.drawIcon ++ [unit.id] else L.drawIcon) ∧
    (drawObserved w s unit L).2.drawFar =
      (if DrawAsIcon s unit (sqDistance unit.pos w.camera.pos) = false ∧
          sqDistance unit.pos w.camera.pos > unit.sqRadius * s.unitDrawDistSqr then
        L.drawFar ++ [unit.id] else L.drawFar) ∧
    (drawObserved w s unit L).2.drawStat =
      (if DrawAsIcon s unit (sqDistance unit.pos w.camera.pos) = false ∧
          s.showHealthBars = true ∧
          sqDistance unit.pos w.camera.pos < s.unitDrawDistSqr * 500 then
        L.drawStat ++ [unit.id] else L.drawStat) ∧
    (if DrawAsIcon s unit (sqDistance unit.pos w.camera.pos) = false ∧
          ¬ sqDistance unit.pos w.camera.pos > unit.sqRadius * s.unitDrawDistSqr then
        ((drawObserved w s unit L).2.drawnNow = L.drawnNow ++ [unit.id] ∧
            (drawObserved w s unit L).2.lodBins = L.lodBins) ∨
          ((drawObserved w s unit L).2.drawnNow = L.drawnNow ∧
            ∃ bin, (drawObserved w s unit L).2.lodBins = L.lodBins ++ [(bin, unit.id)])
      else
        (drawObserved w s unit L).2.drawnNow = L.drawnNow ∧
          (drawObserved w s unit L).2.lodBins = L.lodBins) := by
  simp only [drawObserved]
  cases hicon : DrawAsIcon s unit (sqDistance unit.pos w.camera.pos) with
  | true => simp
  | false =>
    by_cases hfar : sqDistance unit.pos w.camera.pos > unit.sqRadius * s.unitDrawDistSqr
    · by_cases hstat : (s.showHealthBars &&
          decide (sqDistance unit.pos w.camera.pos < s.unitDrawDistSqr * 500)) = true
      · have hstat2 := hstat
        simp only [Bool.and_eq_true, decide_eq_true_eq] at hstat2
        simp [hfar, hstat, hstat2]
      · have hstat2 := hstat
        simp only [Bool.and_eq_true, decide_eq_true_eq] at hstat2
        simp [hfar, hstat, hstat2]
    · obtain ⟨h1, h2, h3, h4, h5, h6⟩ :=
        DrawUnitLOD_lists w { unit with isIcon := false } L
      rcases hr : DrawUnitLOD w { unit with isIcon := false } L with ⟨b, unit2, L2⟩
      rw [hr] at h1 h2 h3 h4 h5 h6
      simp only at h1 h2 h3 h4 h5 h6
      by_cases hstat : (s.showHealthBars &&
          decide (sqDistance unit.pos w.camera.pos < s.unitDrawDistSqr * 500)) = true
      · have hstat2 := hstat
        simp only [Bool.and_eq_true, decide_eq_true_eq] at hstat2
        cases b with
        | true =>
          rcases h6 with ⟨-, bin, hb⟩ | ⟨hc, -⟩
          · simp [hfar, hstat, hstat2, hr, h1, h2, h3, h4, h5, hb]
          · cases hc
        | false =>
          rcases h6 with ⟨hc, -⟩ | ⟨-, hb⟩
          · cases hc
          · simp [hfar, hstat, hstat2, hr, h1, h2, h3, h4, h5, hb]
      · have hstat2 := hstat
        simp only [Bool.and_eq_true, decide_eq_true_eq] at hstat2
        cases b with
        | true =>
          rcases h6 with ⟨-, bin, hb⟩ | ⟨hc, -⟩
          · simp [hfar, hstat, hstat2, hr, h1, h2, h3, h4, h5, hb]
          · cases hc
        | false =>
          rcases h6 with ⟨hc, -⟩ | ⟨-, hb⟩
          · cases hc
          · simp [hfar, hstat, hstat2, hr, h1, h2, h3, h4, h5, hb]

/-- The class `drawObserved` gives a unit, read off lists that were empty before. -/
theorem classOf_drawObserved (w : World) (s : UnitDrawSettings) (unit : CUnit) :
    classOf (drawObserved w s unit DrawLists.empty).2 unit.id =
      some (if DrawAsIcon s unit (sqDistance unit.pos w.camera.pos) = true then DrawClass.icon
        else if sqDistance unit.pos w.camera.pos > unit.sqRadius * s.unitDrawDistSqr then
          DrawClass.farTexture
        else DrawClass.fullModel) := by
  obtain ⟨-, h2, h3, -, h5⟩ := drawObserved_lists w s unit DrawLists.empty
  unfold classOf
  cases hicon : DrawAsIcon s unit (sqDistance unit.pos w.camera.pos) with
  | true =>
    rw [hicon] at h2
    rw [h2]
    simp [DrawLists.empty]
  | false =>
    rw [hicon] at h2 h3 h5
    by_cases hfar : sqDistance unit.pos w.camera.pos > unit.sqRadius * s.unitDrawDistSqr
    · simp only [hfar, and_self, if_true] at h3
      rw [h2, h3]
      simp [hfar, DrawLists.empty]
    · simp only [hfar, and_false, if_false] at h3
      simp only [hfar, not_false_eq_true, and_self, if_true] at h5
      rcases h5 with ⟨h5, h6⟩ | ⟨h5, bin, h6⟩
      · rw [h2, h3, h5, h6]
        simp [hfar, DrawLists.empty]
      · rw [h2, h3, h5, h6]
        simp [hfar, DrawLists.empty]

/-! ## Classification monotonicity (C11) -/

/-- C11: take two calls of `DoDrawUnit` on directly observed units, with the same icon
threshold (`iconLength` times the squared icon-distance multiplier, and the same
distance-to-ground mode) and the same far threshold (`sqRadius` times `unitDrawDistSqr`). If
the squared camera distance of the first is at most that of the second and `DoDrawUnit`
gives the classes `c1` and `c2`, then `c1 ≤ c2` in the order full-model < far-texture <
icon: a larger distance never yields a more detailed class. -/
theorem class_monotone_in_distance (w1 w2 : World) (s1 s2 : UnitDrawSettings)
    (unit1 unit2 : CUnit) (excl1 excl2 : Option Nat) (refl1 refr1 refl2 refr2 : Bool)
    (hobs1 : unit1.losStatus w1.g.gu.myAllyTeam &&& LOS_INLOS ≠ 0 ∨
      w1.g.gu.spectatingFullView = true)
    (hobs2 : unit2.losStatus w2.g.gu.myAllyTeam &&& LOS_INLOS ≠ 0 ∨
      w2.g.gu.spectatingFullView = true)
    (hicon : s1.iconLength * unit1.unitDef.iconType.GetDistanceSqr =
      s2.iconLength * unit2.unitDef.iconType.GetDistanceSqr)
    (hmode : s1.useDistToGroundForIcons = s2.useDistToGroundForIcons)
    (hground : s1.sqCamDistToGroundForIcons = s2.sqCamDistToGroundForIcons)
    (hfar : unit1.sqRadius * s1.unitDrawDistSqr = unit2.sqRadius * s2.unitDrawDistSqr)
    (hdist : sqDistance unit1.pos w1.camera.pos ≤ sqDistance unit2.pos w2.camera.pos)
    (c1 c2 : DrawClass)
    (h1 : classOf (DoDrawUnit w1 s1 unit1 excl1 refl1 refr1 DrawLists.empty).2 unit1.id =
      some c1)
    (h2 : classOf (DoDrawUnit w2 s2 unit2 excl2 refl2 refr2 DrawLists.empty).2 unit2.id =
      some c2) :
    c1.rank ≤ c2.rank := by
  rcases DoDrawUnit_observed_cases w1 s1 unit1 excl1 refl1 refr1 DrawLists.empty hobs1 with
    e1 | e1
  · rw [e1, classOf_empty] at h1
    cases h1
  rcases DoDrawUnit_observed_cases w2 s2 unit2 excl2 refl2 refr2 DrawLists.empty hobs2 with
    e2 | e2
  · rw [e2, classOf_empty] at h2
    cases h2
  rw [e1, classOf_drawObserved] at h1
  rw [e2, classOf_drawObserved] at h2
  simp only [Option.some.injEq] at h1 h2
  subst h1 h2
  unfold DrawAsIcon
  simp only [hicon, hmode, hground, hfar]
  cases s2.useDistToGroundForIcons with
  | true =>
    by_cases hg : s2.sqCamDistToGroundForIcons >
        s2.iconLength * unit2.unitDef.iconType.GetDistanceSqr
    · simp [hg]
    · by_cases hf1 : sqDistance unit1.pos w1.camera.pos > unit2.sqRadius * s2.unitDrawDistSqr
      · have hf2 : sqDistance unit2.pos w2.camera.pos >
            unit2.sqRadius * s2.unitDrawDistSqr := lt_of_lt_of_le hf1 hdist
        simp [hg, hf1, hf2]
      · by_cases hf2 : sqDistance unit2.pos w2.camera.pos >
            unit2.sqRadius * s2.unitDrawDistSqr <;>
          simp [hg, hf1, hf2, DrawClass.rank]
  | false =>
    by_cases hi1 : sqDistance unit1.pos w1.camera.pos >
        s2.iconLength * unit2.unitDef.iconType.GetDistanceSqr
    · have hi2 : sqDistance unit2.pos w2.camera.pos >
          s2.iconLength * unit2.unitDef.iconType.GetDistanceSqr := lt_of_lt_of_le hi1 hdist
      simp [hi1, hi2]
    · by_cases hi2 : sqDistance unit2.pos w2.camera.pos >
          s2.iconLength * unit2.unitDef.iconType.GetDistanceSqr
      · by_cases hf1 : sqDistance unit1.pos w1.camera.pos >
            unit2.sqRadius * s2.unitDrawDistSqr <;>
          simp [hi1, hi2, hf1, DrawClass.rank]
      · by_cases hf1 : sqDistance unit1.pos w1.camera.pos >
            unit2.sqRadius * s2.unitDrawDistSqr
        · have hf2 : sqDistance unit2.pos w2.camera.pos >
              unit2.sqRadius * s2.unitDrawDistSqr := lt_of_lt_of_le hf1 hdist
          simp [hi1, hi2, hf1, hf2]
        · by_cases hf2 : sqDistance unit2.pos w2.camera.pos >
              unit2.sqRadius * s2.unitDrawDistSqr <;>
            simp [hi1, hi2, hf1, hf2, DrawClass.rank]

/-- C11, witness: `unitAt5000` is drawn as a full model and `unitAt8000`, farther away with
the same thresholds, as an icon; full-model comes before icon in the order. -/
theorem class_monotone_in_distance_witness :
    classOf (DoDrawUnit world0 settings0 unitAt5000 none false false DrawLists.empty).2
      unitAt5000.id = some DrawClass.fullModel ∧
    classOf (DoDrawUnit world0 settings0 unitAt8000 none false false DrawLists.empty).2
      unitAt8000.id = some DrawClass.icon ∧
    DrawClass.fullModel.rank ≤ DrawClass.icon.rank :=
  ⟨by decide, by decide,
    class_monotone_in_distance world0 world0 settings0 settings0 unitAt5000 unitAt8000 none
      none false false false false (Or.inl (by decide)) (Or.inl (by decide)) rfl rfl rfl rfl
      (by decide) DrawClass.fullModel DrawClass.icon (by decide) (by decide)⟩

/-! ## Icon threshold (C12) -/

/-- With distance-to-ground icon mode off, `DrawAsIcon` compares the squared camera distance
with `iconLength` times the squared icon-distance multiplier. -/
theorem DrawAsIcon_iff (s : UnitDrawSettings) (unit : CUnit) (sqDist : Int)
    (hmode : s.useDistToGroundForIcons = false) :
    DrawAsIcon s unit sqDist = true ↔
      sqDist > s.iconLength * unit.unitDef.iconType.GetDistanceSqr := by
  simp [DrawAsIcon, hmode]

/-- C12, as stated, fails: `hiddenAt8000` is directly observed, in view and at squared camera
distance 8000 with `realIconLength` 7500, so `DrawAsIcon` holds for it, but it is flagged
`noDraw` and `DoDrawUnit` puts it in no list. -/
theorem icon_scenario_counterexample :
    settings0.useDistToGroundForIcons = false ∧
    settings0.iconLength * hiddenAt8000.unitDef.iconType.GetDistanceSqr = 7500 ∧
    sqDistance hiddenAt8000.pos world0.camera.pos = 8000 ∧
    hiddenAt8000.losStatus world0.g.gu.myAllyTeam &&& LOS_INLOS ≠ 0 ∧
    world0.camera.InView hiddenAt8000.drawMidPos (hiddenAt8000.radius + 30) = true ∧
    DrawAsIcon settings0 hiddenAt8000 8000 = true ∧
    (DoDrawUnit world0 settings0 hiddenAt8000 none false false DrawLists.empty).2 =
      DrawLists.empty := by
  refine ⟨rfl, by decide, by decide, by decide, rfl, by decide, by decide⟩

/-- C12, amended: with distance-to-ground icon mode off, `DrawAsIcon(unit, sqDist)` is true
exactly when `sqDist > iconLength` times the unit type's squared icon-distance multiplier.
So with `realIconLength = 7500`, a directly observed in-view unit that is not the excluded
unit, not flagged `noDraw` and not culled by the reflection or refraction test is put in the
icon list at squared camera distance 8000, and at squared distance 5000, when that is not
beyond the far length, it is drawn as a full model (at once or through the material
binner) and put in neither the icon list nor the far-texture list. -/
theorem icon_scenario (w : World) (s : UnitDrawSettings) (unit : CUnit)
    (excludeUnit : Option Nat) (drawReflection drawRefraction : Bool) (L : DrawLists)
    (hmode : s.useDistToGroundForIcons = false)
    (hex : excludeUnit ≠ some unit.id) (hnd : unit.noDraw = false)
    (hview : w.camera.InView unit.drawMidPos (unit.radius + 30) = true)
    (hobs : unit.losStatus w.g.gu.myAllyTeam &&& LOS_INLOS ≠ 0 ∨
      w.g.gu.spectatingFullView = true)
    (hrefl : drawReflection = true → w.reflectionCull unit = false)
    (hrefr : drawReflection = false → drawRefraction = true → ¬ unit.pos.y > 0)
    (hlen : s.iconLength * unit.unitDef.iconType.GetDistanceSqr = 7500) :
    (∀ sqDist, DrawAsIcon s unit sqDist = true ↔
      sqDist > s.iconLength * unit.unitDef.iconType.GetDistanceSqr) ∧
    (sqDistance unit.pos w.camera.pos = 8000 →
      (DoDrawUnit w s unit excludeUnit drawReflection drawRefraction L).2.drawIcon =
        L.drawIcon ++ [unit.id]) ∧
    (sqDistance unit.pos w.camera.pos = 5000 → 5000 ≤ unit.sqRadius * s.unitDrawDistSqr →
      (DoDrawUnit w s unit excludeUnit drawReflection drawRefraction L).2.drawIcon =
        L.drawIcon ∧
      (DoDrawUnit w s unit excludeUnit drawReflection drawRefraction L).2.drawFar =
        L.drawFar ∧
      (((DoDrawUnit w s unit excludeUnit drawReflection drawRefraction L).2.drawnNow =
            L.drawnNow ++ [unit.id] ∧
          (DoDrawUnit w s unit excludeUnit drawReflection drawRefraction L).2.lodBins =
            L.lodBins) ∨
        ((DoDrawUnit w s unit excludeUnit drawReflection drawRefraction L).2.drawnNow =
            L.drawnNow ∧
          ∃ bin, (DoDrawUnit w s unit excludeUnit drawReflection drawRefraction L).2.lodBins =
            L.lodBins ++ [(bin, unit.id)]))) := by
  have hreach : DoDrawUnit w s unit excludeUnit drawReflection drawRefraction L =
      drawObserved w s unit L := by
    rw [DoDrawUnit_entered w s unit _ _ _ L hex hnd hview]
    have hcond : ((unit.losStatus w.g.gu.myAllyTeam &&& LOS_INLOS) != 0 ||
        w.g.gu.spectatingFullView) = true := by
      rcases hobs with h | h
      · simp [h]
      · simp [h]
    rw [if_pos hcond]
    cases hr : drawReflection with
    | true => simp [hrefl hr]
    | false =>
      cases hf : drawRefraction with
      | true => simp [hrefr hr hf]
      | false => simp
  obtain ⟨-, h2, h3, -, h5⟩ := drawObserved_lists w s unit L
  refine ⟨fun sqDist => DrawAsIcon_iff s unit sqDist hmode, fun hd => ?_, fun hd hfar => ?_⟩
  · have hi : DrawAsIcon s unit (sqDistance unit.pos w.camera.pos) = true := by
      rw [DrawAsIcon_iff s unit _ hmode, hd, hlen]
      decide
    rw [hreach, h2, if_pos hi]
  · have hi : DrawAsIcon s unit (sqDistance unit.pos w.camera.pos) = false := by
      cases h : DrawAsIcon s unit (sqDistance unit.pos w.camera.pos) with
      | false => rfl
      | true =>
        rw [DrawAsIcon_iff s unit _ hmode, hd, hlen] at h
        exact absurd h (by decide)
    have hnf : ¬ sqDistance unit.pos w.camera.pos > unit.sqRadius * s.unitDrawDistSqr := by
      rw [hd]
      exact not_lt.mpr hfar
    rw [hi] at h2 h3 h5
    simp only [hnf, and_false, if_false] at h3
    simp only [hnf, not_false_eq_true, and_self, if_true] at h5
    rw [hreach]
    exact ⟨by simpa using h2, h3, h5⟩

/-- C12, witness: in the world `world0` with `settings0` (`realIconLength` 7500),
`unitAt8000` goes to the icon list and `unitAt5000` is drawn at once, in neither list. -/
theorem icon_scenario_witness :
    (DoDrawUnit world0 settings0 unitAt8000 none false false DrawLists.empty).2.drawIcon =
      [unitAt8000.id] ∧
    (DoDrawUnit world0 settings0 unitAt5000 none false false DrawLists.empty).2.drawIcon =
      [] ∧
    (DoDrawUnit world0 settings0 unitAt5000 none false false DrawLists.empty).2.drawFar =
      [] :=
  ⟨(icon_scenario world0 settings0 unitAt8000 none false false DrawLists.empty rfl
      (by decide) rfl rfl (Or.inl (by decide)) (fun h => absurd h (by decide))
      (fun _ h => absurd h (by decide)) (by decide)).2.1 (by decide),
    ((icon_scenario world0 settings0 unitAt5000 none false false DrawLists.empty rfl
      (by decide) rfl rfl (Or.inl (by decide)) (fun h => absurd h (by decide))
      (fun _ h => absurd h (by decide)) (by decide)).2.2 (by decide) (by decide)).1,
    ((icon_scenario world0 settings0 unitAt5000 none false false DrawLists.empty rfl
      (by decide) rfl rfl (Or.inl (by decide)) (fun h => absurd h (by decide))
      (fun _ h => absurd h (by decide)) (by decide)).2.2 (by decide) (by decide)).2.1⟩

/-! ## Expiry of temporary units (C13) -/

/-- On a list ascending in the key, erasing from the front while the key is below a bound
leaves exactly the entries whose key is not below it. -/
theorem dropWhile_lt_eq_filter (c : Int) (l : List (Int × TempDrawUnit))
    (h : l.Pairwise (fun a b => a.1 ≤ b.1)) :
    l.dropWhile (fun e => decide (e.1 < c)) = l.filter (fun e => decide (c ≤ e.1)) := by
  induction l with
  | nil => rfl
  | cons e es ih =>
    rw [List.pairwise_cons] at h
    by_cases hlt : e.1 < c
    · rw [List.dropWhile_cons_of_pos (by simpa using hlt),
        List.filter_cons_of_neg (by simpa using hlt)]
      exact ih h.2
    · rw [List.dropWhile_cons_of_neg (by simpa using hlt)]
      symm
      rw [List.filter_eq_self]
      intro a ha
      rcases List.mem_cons.mp ha with rfl | ha
      · simpa using hlt
      · have := h.1 a ha
        simp only [decide_eq_true_eq]
        omega

/-- C13: after the pruning step of `Update` at frame `N`, `tempDrawUnits` holds exactly its
former entries with key `>= N - 1` and `tempTransparentDrawUnits` exactly its former entries
with key `> N` (same entries, same order). Hence an opaque entry keyed `F` is still present
after `Update` at frame `F` and absent after `Update` at any frame `>= F + 2`, and a
transparent entry keyed `F` is absent after `Update` at any frame `>= F + 1`. -/
theorem Update_prunes (t : TempUnits) (N : Int) :
    (Update N t).tempDrawUnits.entries =
      t.tempDrawUnits.entries.filter (fun e => decide (e.1 ≥ N - 1)) ∧
    (Update N t).tempTransparentDrawUnits.entries =
      t.tempTransparentDrawUnits.entries.filter (fun e => decide (e.1 > N)) ∧
    (∀ e ∈ t.tempDrawUnits.entries, e ∈ (Update e.1 t).tempDrawUnits.entries) ∧
    (∀ e ∈ t.tempDrawUnits.entries, N ≥ e.1 + 2 → e ∉ (Update N t).tempDrawUnits.entries) ∧
    (∀ e ∈ t.tempTransparentDrawUnits.entries, N ≥ e.1 + 1 →
      e ∉ (Update N t).tempTransparentDrawUnits.entries) := by
  have hkeepOld : ∀ M : Int, (Update M t).tempDrawUnits.entries =
      t.tempDrawUnits.entries.filter (fun e => decide (e.1 ≥ M - 1)) := by
    intro M
    simp only [Update, eraseFront]
    exact dropWhile_lt_eq_filter (M - 1) _ t.tempDrawUnits.ordered
  have htransp : (Update N t).tempTransparentDrawUnits.entries =
      t.tempTransparentDrawUnits.entries.filter (fun e => decide (e.1 > N)) := by
    simp only [Update, eraseFront]
    have h := dropWhile_lt_eq_filter (N + 1) _ t.tempTransparentDrawUnits.ordered
    have e1 : (fun e : Int × TempDrawUnit => decide (e.1 ≤ N)) =
        (fun e => decide (e.1 < N + 1)) := by
      funext e
      simp [Int.lt_add_one_iff]
    have e2 : (fun e : Int × TempDrawUnit => decide (e.1 > N)) =
        (fun e => decide (N + 1 ≤ e.1)) := by
      funext e
      simp [Int.add_one_le_iff]
    rw [e1, e2]
    exact h
  refine ⟨hkeepOld N, htransp, ?_, ?_, ?_⟩
  · intro e he
    rw [hkeepOld, List.mem_filter]
    exact ⟨he, by simp⟩
  · intro e _ hN
    rw [hkeepOld, List.mem_filter]
    rintro ⟨-, h⟩
    simp only [ge_iff_le, decide_eq_true_eq] at h
    omega
  · intro e _ hN
    rw [htransp, List.mem_filter]
    rintro ⟨-, h⟩
    simp only [gt_iff_lt, decide_eq_true_eq] at h
    omega

/-- C13, witness: with entries keyed 3, 4, 4 and 6 in both collections, `Update` at frame 5
keeps the opaque entries keyed 4, 4 and 6 and the transparent entry keyed 6. -/
theorem Update_prunes_witness :
    (Update 5 tempUnits0).tempDrawUnits.entries =
      [(4, tempUnit0), (4, tempUnit0), (6, tempUnit0)] ∧
    (Update 5 tempUnits0).tempTransparentDrawUnits.entries = [(6, tempUnit0)] :=
  ⟨(Update_prunes tempUnits0 5).1.trans (by decide),
    (Update_prunes tempUnits0 5).2.1.trans (by decide)⟩

/-! ## Units that are not drawn (C14, C17, C19) -/

/-- C14: for every renderable for which the camera view test on `(drawMidPos, radius + 30)`
fails, `DoDrawUnit` does nothing, whatever the LOS status, the excluded unit and the pass
flags: the far-texture, icon, radar-blip and stat-overlay lists, the immediate draws and the
hand-offs to the material binner are as before, and so is the unit. -/
theorem not_in_view_not_drawn (w : World) (s : UnitDrawSettings) (unit : CUnit)
    (excludeUnit : Option Nat) (drawReflection drawRefraction : Bool) (L : DrawLists)
    (hview : w.camera.InView unit.drawMidPos (unit.radius + 30) = false) :
    DoDrawUnit w s unit excludeUnit drawReflection drawRefraction L = (unit, L) := by
  by_cases hex : excludeUnit = some unit.id
  · exact DoDrawUnit_excluded w s unit _ _ _ L hex
  cases hnd : unit.noDraw with
  | true => exact DoDrawUnit_noDraw w s unit _ _ _ L hnd
  | false => exact DoDrawUnit_not_in_view w s unit _ _ _ L hview

/-- C14, witness: under a camera that sees nothing, `unitAt8000` (in line of sight) is put
in no list. -/
theorem not_in_view_not_drawn_witness :
    DoDrawUnit { world0 with camera := blindCamera } settings0 unitAt8000 none false false
      DrawLists.empty = (unitAt8000, DrawLists.empty) :=
  not_in_view_not_drawn { world0 with camera := blindCamera } settings0 unitAt8000 none false
    false DrawLists.empty rfl

/-- C17: for every renderable whose LOS status has none of in-los, prior-los and in-radar
set, with full-map view off, `DoDrawUnit` does nothing: no transient list receives the unit,
no draw is issued and nothing is handed to the binner. -/
theorem unhandled_los_not_drawn (w : World) (s : UnitDrawSettings) (unit : CUnit)
    (excludeUnit : Option Nat) (drawReflection drawRefraction : Bool) (L : DrawLists)
    (hlos : unit.losStatus w.g.gu.myAllyTeam &&& LOS_INLOS = 0)
    (hprev : unit.losStatus w.g.gu.myAllyTeam &&& LOS_PREVLOS = 0)
    (hradar : unit.losStatus w.g.gu.myAllyTeam &&& LOS_INRADAR = 0)
    (hfull : w.g.gu.spectatingFullView = false) :
    DoDrawUnit w s unit excludeUnit drawReflection drawRefraction L = (unit, L) := by
  by_cases hex : excludeUnit = some unit.id
  · exact DoDrawUnit_excluded w s unit _ _ _ L hex
  cases hnd : unit.noDraw with
  | true => exact DoDrawUnit_noDraw w s unit _ _ _ L hnd
  | false =>
    cases hview : w.camera.InView unit.drawMidPos (unit.radius + 30) with
    | false => exact DoDrawUnit_not_in_view w s unit _ _ _ L hview
    | true =>
      rw [DoDrawUnit_entered w s unit _ _ _ L hex hnd hview]
      simp [hlos, hprev, hradar, hfull]

/-- C17, witness: `unitCounterOnly` has only the counter-radar bit; it is put in no list. -/
theorem unhandled_los_not_drawn_witness :
    DoDrawUnit world0 settings0 unitCounterOnly none false false DrawLists.empty =
      (unitCounterOnly, DrawLists.empty) :=
  unhandled_los_not_drawn world0 settings0 unitCounterOnly none false false DrawLists.empty
    (by decide) (by decide) (by decide) rfl

/-- C19: in a refraction pass (`drawRefraction` set, `drawReflection` clear), every directly
observed renderable whose origin is above the water plane (`pos.y > 0`) is culled by
`DoDrawUnit`: no transient list receives it and no draw is issued for it. -/
theorem refraction_culls_above_water (w : World) (s : UnitDrawSettings) (unit : CUnit)
    (excludeUnit : Option Nat) (L : DrawLists)
    (hobs : unit.losStatus w.g.gu.myAllyTeam &&& LOS_INLOS ≠ 0 ∨
      w.g.gu.spectatingFullView = true)
    (hy : unit.pos.y > 0) :
    DoDrawUnit w s unit excludeUnit false true L = (unit, L) := by
  by_cases hex : excludeUnit = some unit.id
  · exact DoDrawUnit_excluded w s unit _ _ _ L hex
  cases hnd : unit.noDraw with
  | true => exact DoDrawUnit_noDraw w s unit _ _ _ L hnd
  | false =>
    cases hview : w.camera.InView unit.drawMidPos (unit.radius + 30) with
    | false => exact DoDrawUnit_not_in_view w s unit _ _ _ L hview
    | true =>
      rw [DoDrawUnit_entered w s unit _ _ _ L hex hnd hview]
      rcases hobs with h | h
      · simp [h, hy]
      · simp [h, hy]

/-- C19, witness: `unitAbove` is in line of sight with its origin above the water; the
refraction pass puts it in no list. -/
theorem refraction_culls_above_water_witness :
    DoDrawUnit world0 settings0 unitAbove none false true DrawLists.empty =
      (unitAbove, DrawLists.empty) :=
  refraction_culls_above_water world0 settings0 unitAbove none DrawLists.empty
    (Or.inl (by decide)) (by decide)

/-! ## Radar blips (C15, C16) -/

/-- C15, as stated, fails: `unitSensed` is in view, seen earlier and not now, within radar
range and counter-sensed, and it is no icon; the claim sends it to the radar-blip list, but
`DoDrawUnit` puts it in no list. -/
theorem prevlos_radar_counterexample :
    world0.camera.InView unitSensed.drawMidPos (unitSensed.radius + 30) = true ∧
    unitSensed.losStatus world0.g.gu.myAllyTeam &&& LOS_PREVLOS ≠ 0 ∧
    unitSensed.losStatus world0.g.gu.myAllyTeam &&& LOS_INLOS = 0 ∧
    unitSensed.losStatus world0.g.gu.myAllyTeam &&& LOS_INRADAR ≠ 0 ∧
    world0.g.gu.spectatingFullView = false ∧
    unitSensed.isIcon = false ∧
    (DoDrawUnit world0 settings0 unitSensed none false false DrawLists.empty).1.isIcon =
      false ∧
    (DoDrawUnit world0 settings0 unitSensed none false false DrawLists.empty).2 =
      DrawLists.empty := by
  refine ⟨rfl, by decide, by decide, by decide, rfl, rfl, by decide, by decide⟩

/-- C15, amended: take an in-view renderable that is not the excluded unit and not flagged
`noDraw`, whose LOS status has prior-los set and in-los clear (full-map view off) and which
is within radar range. If it is not counter-sensed, `DoDrawUnit` adds it to the radar-blip
list. If it is counter-sensed, `DoDrawUnit` adds it to the icon list when `isIcon` is set and
to no list when `isIcon` is clear, `isIcon` being the value `DrawAsIcon` has just given it if
the unit is immobile and ghosting is enabled, and the value it had otherwise. -/
theorem prevlos_radar (w : World) (s : UnitDrawSettings) (unit : CUnit)
    (excludeUnit : Option Nat) (drawReflection drawRefraction : Bool) (L : DrawLists)
    (hex : excludeUnit ≠ some unit.id) (hnd : unit.noDraw = false)
    (hview : w.camera.InView unit.drawMidPos (unit.radius + 30) = true)
    (hprev : unit.losStatus w.g.gu.myAllyTeam &&& LOS_PREVLOS ≠ 0)
    (hlos : unit.losStatus w.g.gu.myAllyTeam &&& LOS_INLOS = 0)
    (hfull : w.g.gu.spectatingFullView = false)
    (hradar : unit.losStatus w.g.gu.myAllyTeam &&& LOS_INRADAR ≠ 0) :
    (DoDrawUnit w s unit excludeUnit drawReflection drawRefraction L).1.isIcon =
      (if (ghostingEnabled w.g && !unit.mobility) = true then
        DrawAsIcon s unit (sqDistance unit.pos w.camera.pos) else unit.isIcon) ∧
    (unit.losStatus w.g.gu.myAllyTeam &&& LOS_CONTRADAR = 0 →
      (DoDrawUnit w s unit excludeUnit drawReflection drawRefraction L).2 =
        { L with drawRadarIcon := L.drawRadarIcon ++ [unit.id] }) ∧
    (unit.losStatus w.g.gu.myAllyTeam &&& LOS_CONTRADAR ≠ 0 →
      (DoDrawUnit w s unit excludeUnit drawReflection drawRefraction L).1.isIcon = true →
      (DoDrawUnit w s unit excludeUnit drawReflection drawRefraction L).2 =
        { L with drawIcon := L.drawIcon ++ [unit.id] }) ∧
    (unit.losStatus w.g.gu.myAllyTeam &&& LOS_CONTRADAR ≠ 0 →
      (DoDrawUnit w s unit excludeUnit drawReflection drawRefraction L).1.isIcon = false →
      (DoDrawUnit w s unit excludeUnit drawReflection drawRefraction L).2 = L) := by
  rw [DoDrawUnit_entered w s unit _ _ _ L hex hnd hview]
  simp only [hlos, hfull, hprev, hradar, bne_self_eq_false, Bool.or_self, Bool.false_eq_true,
    if_false, bne_iff_ne, ne_eq, not_false_eq_true, if_true, drawPrevLos, beq_iff_eq]
  by_cases hc : unit.losStatus w.g.gu.myAllyTeam &&& LOS_CONTRADAR = 0
  · cases hg : (ghostingEnabled w.g && !unit.mobility) <;> simp [hc]
  · cases hg : (ghostingEnabled w.g && !unit.mobility)
    · cases hi : unit.isIcon <;> simp [hc, hi]
    · cases hi : DrawAsIcon s unit (sqDistance unit.pos w.camera.pos) <;> simp [hc, hi]

/-- C15, witness: `unitOnRadar` given prior-los as well (status 6) is within radar range and
not counter-sensed; it goes to the radar-blip list. -/
theorem prevlos_radar_witness :
    (DoDrawUnit world0 settings0 { unitA with losStatus := fun _ => 6 } none false false
      DrawLists.empty).2 = { DrawLists.empty with drawRadarIcon := [1] } :=
  (prevlos_radar world0 settings0 { unitA with losStatus := fun _ => 6 } none false false
    DrawLists.empty (by decide) rfl rfl (by decide) (by decide) rfl (by decide)).2.1
    (by decide)

/-- C16, as stated, fails: `hiddenOnRadar` is in view and its LOS status has in-radar set
and neither in-los nor prior-los, but it is flagged `noDraw` and `DoDrawUnit` does not add
it to the radar-blip list. -/
theorem radar_only_counterexample :
    world0.camera.InView hiddenOnRadar.drawMidPos (hiddenOnRadar.radius + 30) = true ∧
    hiddenOnRadar.losStatus world0.g.gu.myAllyTeam &&& LOS_INRADAR ≠ 0 ∧
    hiddenOnRadar.losStatus world0.g.gu.myAllyTeam &&& LOS_INLOS = 0 ∧
    hiddenOnRadar.losStatus world0.g.gu.myAllyTeam &&& LOS_PREVLOS = 0 ∧
    world0.g.gu.spectatingFullView = false ∧
    (DoDrawUnit world0 settings0 hiddenOnRadar none false false
      DrawLists.empty).2.drawRadarIcon = [] := by
  refine ⟨rfl, by decide, by decide, by decide, rfl, by decide⟩

/-- C16, amended: for every in-view renderable that is not the excluded unit and not
flagged `noDraw`, whose LOS status has in-radar set and neither in-los nor prior-los
(full-map view off), `DoDrawUnit` adds it to the radar-blip list and to no other list, and
issues no model draw for it (nothing is drawn at once or handed to the binner, and the unit
itself is left as it was). -/
theorem radar_only (w : World) (s : UnitDrawSettings) (unit : CUnit)
    (excludeUnit : Option Nat) (drawReflection drawRefraction : Bool) (L : DrawLists)
    (hex : excludeUnit ≠ some unit.id) (hnd : unit.noDraw = false)
    (hview : w.camera.InView unit.drawMidPos (unit.radius + 30) = true)
    (hradar : unit.losStatus w.g.gu.myAllyTeam &&& LOS_INRADAR ≠ 0)
    (hlos : unit.losStatus w.g.gu.myAllyTeam &&& LOS_INLOS = 0)
    (hprev : unit.losStatus w.g.gu.myAllyTeam &&& LOS_PREVLOS = 0)
    (hfull : w.g.gu.spectatingFullView = false) :
    DoDrawUnit w s unit excludeUnit drawReflection drawRefraction L =
      (unit, { L with drawRadarIcon := L.drawRadarIcon ++ [unit.id] }) := by
  rw [DoDrawUnit_entered w s unit _ _ _ L hex hnd hview]
  simp [hlos, hprev, hradar, hfull]

/-- C16, witness: `unitOnRadar` is in radar coverage only; it goes to the radar-blip list
and nowhere else. -/
theorem radar_only_witness :
    DoDrawUnit world0 settings0 unitOnRadar none false false DrawLists.empty =
      (unitOnRadar, { DrawLists.empty with drawRadarIcon := [unitOnRadar.id] }) :=
  radar_only world0 settings0 unitOnRadar none false false DrawLists.empty (by decide) rfl rfl
    (by decide) (by decide) (by decide) rfl

/-! ## The excluded unit (C18) -/

/-- What `drawPrevLos` does to the lists: nothing, or the unit joins the radar-blip list, or
it joins the icon list. -/
theorem drawPrevLos_lists (w : World) (s : UnitDrawSettings) (unit : CUnit) (losStatus : Nat)
    (L : DrawLists) :
    (drawPrevLos w s unit losStatus L).2 = L ∨
    (drawPrevLos w s unit losStatus L).2 =
      { L with drawRadarIcon := L.drawRadarIcon ++ [unit.id] } ∨
    (drawPrevLos w s unit losStatus L).2 = { L with drawIcon := L.drawIcon ++ [unit.id] } := by
  simp only [drawPrevLos]
  by_cases hr : (losStatus &&& LOS_INRADAR) != 0
  · by_cases hc : (losStatus &&& LOS_CONTRADAR) == 0
    · simp [hr, hc]
    · cases hg : (ghostingEnabled w.g && !unit.mobility)
      · cases hi : unit.isIcon <;> simp [hr, hc, hi]
      · cases hi : DrawAsIcon s unit (sqDistance unit.pos w.camera.pos) <;> simp [hr, hc, hi]
  · simp [hr]

/-- Whatever `DoDrawUnit` adds to the lists is the unit it was called on, and it adds
nothing for the excluded unit. -/
theorem DoDrawUnit_mentions (w : World) (s : UnitDrawSettings) (unit : CUnit)
    (excludeUnit : Option Nat) (drawReflection drawRefraction : Bool) (L : DrawLists)
    (id : Nat)
    (h : (DoDrawUnit w s unit excludeUnit drawReflection drawRefraction L).2.Mentions id) :
    L.Mentions id ∨ (id = unit.id ∧ excludeUnit ≠ some unit.id) := by
  by_cases hex : excludeUnit = some unit.id
  · rw [DoDrawUnit_excluded w s unit _ _ _ L hex] at h
    exact Or.inl h
  cases hnd : unit.noDraw with
  | true =>
    rw [DoDrawUnit_noDraw w s unit _ _ _ L hnd] at h
    exact Or.inl h
  | false =>
    cases hview : w.camera.InView unit.drawMidPos (unit.radius + 30) with
    | false =>
      rw [DoDrawUnit_not_in_view w s unit _ _ _ L hview] at h
      exact Or.inl h
    | true =>
      by_cases hid : id = unit.id
      · exact Or.inr ⟨hid, hex⟩
      · left
        rw [DoDrawUnit_entered w s unit _ _ _ L hex hnd hview] at h
        have hobs : (drawObserved w s unit L).2.Mentions id → L.Mentions id := by
          obtain ⟨h1, h2, h3, h4, h5⟩ := drawObserved_lists w s unit L
          intro hm
          unfold DrawLists.Mentions at hm ⊢
          rw [h1, h2, h3, h4] at hm
          have hnow : id ∈ (drawObserved w s unit L).2.drawnNow → id ∈ L.drawnNow := by
            intro hmem
            split at h5
            · rcases h5 with ⟨e, -⟩ | ⟨e, -⟩
              · rw [e] at hmem
                simpa [hid] using hmem
              · rw [e] at hmem
                exact hmem
            · rw [h5.1] at hmem
              exact hmem
          have hbin : id ∈ (drawObserved w s unit L).2.lodBins.map Prod.snd →
              id ∈ L.lodBins.map Prod.snd := by
            intro hmem
            split at h5
            · rcases h5 with ⟨-, e⟩ | ⟨-, bin, e⟩
              · rw [e] at hmem
                exact hmem
              · rw [e] at hmem
                simpa [hid] using hmem
            · rw [h5.2] at hmem
              exact hmem
          rcases hm with hm | hm | hm | hm | hm | hm
          · left
            split at hm
            · simpa [hid] using hm
            · exact hm
          · right; left
            split at hm
            · simpa [hid] using hm
            · exact hm
          · right; right; left
            split at hm
            · simpa [hid] using hm
            · exact hm
          · exact Or.inr (Or.inr (Or.inr (Or.inl hm)))
          · exact Or.inr (Or.inr (Or.inr (Or.inr (Or.inl (hnow hm)))))
          · exact Or.inr (Or.inr (Or.inr (Or.inr (Or.inr (hbin hm)))))
        have hprev : (drawPrevLos w s unit (unit.losStatus w.g.gu.myAllyTeam) L).2.Mentions id →
            L.Mentions id := by
          intro hm
          rcases drawPrevLos_lists w s unit (unit.losStatus w.g.gu.myAllyTeam) L with e | e | e
          · rw [e] at hm
            exact hm
          · rw [e] at hm
            simpa [DrawLists.Mentions, hid] using hm
          · rw [e] at hm
            simpa [DrawLists.Mentions, hid] using hm
        split at h
        · split at h
          · split at h
            · exact h
            · exact hobs h
          · split at h
            · split at h
              · exact h
              · exact hobs h
            · exact hobs h
        · split at h
          · exact hprev h
          · split at h
            · simpa [DrawLists.Mentions, hid] using h
            · exact h

/-- The same for the loop over a bin. -/
theorem drawUnitSet_mentions (w : World) (s : UnitDrawSettings) (excludeUnit : Option Nat)
    (drawReflection drawRefraction : Bool) (id : Nat) (units : List CUnit) :
    ∀ L : DrawLists,
      (drawUnitSet w s excludeUnit drawReflection drawRefraction units L).2.Mentions id →
      L.Mentions id ∨ excludeUnit ≠ some id := by
  induction units with
  | nil =>
    intro L h
    exact Or.inl h
  | cons unit rest ih =>
    intro L h
    simp only [drawUnitSet] at h
    rcases ih _ h with h1 | h1
    · rcases DoDrawUnit_mentions w s unit excludeUnit drawReflection drawRefraction L id h1
        with h2 | ⟨h2, h3⟩
      · exact Or.inl h2
      · right
        rw [h2]
        exact h3
    · exact Or.inr h1

/-- In a reflection pass the loop over a bin does not depend on which unit the player
controls. -/
theorem drawUnitSet_directControl (w : World) (s : UnitDrawSettings) (dc : Option Nat)
    (excludeUnit : Option Nat) (drawReflection drawRefraction : Bool) (units : List CUnit) :
    ∀ L : DrawLists,
      drawUnitSet { w with g := { w.g with gu := { w.g.gu with directControl := dc } } } s
        excludeUnit drawReflection drawRefraction units L =
      drawUnitSet w s excludeUnit drawReflection drawRefraction units L := by
  induction units with
  | nil => intro L; rfl
  | cons unit rest ih =>
    intro L
    simp only [drawUnitSet]
    have hstep : DoDrawUnit
        { w with g := { w.g with gu := { w.g.gu with directControl := dc } } } s unit
          excludeUnit drawReflection drawRefraction L =
        DoDrawUnit w s unit excludeUnit drawReflection drawRefraction L := rfl
    rw [hstep, ih]

/-- C18, as stated, fails both ways. The player controls unit 1 (`unitOnRadar`). In the
reflection pass `Draw` does not skip it: it goes to the radar-blip list. In a pass that is
not a reflection pass `Draw` skips it, while `otherOnRadar`, which differs from it in the
address only, goes to the radar-blip list. -/
theorem excluded_unit_counterexample :
    worldFps.g.gu.directControl = some unitOnRadar.id ∧
    (Draw.classify worldFps settings0 true false [unitOnRadar]
      DrawLists.empty).2.drawRadarIcon = [unitOnRadar.id] ∧
    (Draw.classify worldFps settings0 false false [unitOnRadar] DrawLists.empty).2 =
      DrawLists.empty ∧
    (Draw.classify worldFps settings0 false false [otherOnRadar]
      DrawLists.empty).2.drawRadarIcon = [otherOnRadar.id] := by
  refine ⟨rfl, by decide, by decide, by decide⟩

/-- C18, amended: the excluded observer unit (the locally controlled unit
`gu->directControl`) is skipped by the classifier regardless of its other attributes in
every `Draw` call that is not a reflection pass: after the call it is in none of the
transient lists and no draw or hand-off was made for it. In the reflection pass no unit is
excluded and it is classified like any other unit: the outcome of the call does not depend
on which unit, if any, the player controls. -/
theorem excluded_unit (w : World) (s : UnitDrawSettings) (drawRefraction : Bool)
    (opaqueUnits : List CUnit) (L : DrawLists) :
    (∀ dc, w.g.gu.directControl = some dc → dc ∉ L.drawnNow → dc ∉ L.lodBins.map Prod.snd →
      ¬ (Draw.classify w s false drawRefraction opaqueUnits L).2.Mentions dc) ∧
    (∀ dc, Draw.classify { w with g := { w.g with gu := { w.g.gu with directControl := dc } } }
        s true drawRefraction opaqueUnits L =
      Draw.classify w s true drawRefraction opaqueUnits L) := by
  constructor
  · intro dc hdc hnow hbin hm
    unfold Draw.classify at hm
    simp only [Draw.excludeUnit, hdc, Bool.false_eq_true, if_false] at hm
    rcases drawUnitSet_mentions w s (some dc) false drawRefraction dc opaqueUnits _ hm
      with h | h
    · simp only [DrawLists.Mentions, List.not_mem_nil, false_or] at h
      rcases h with h | h
      · exact hnow h
      · exact hbin h
    · exact h rfl
  · intro dc
    unfold Draw.classify
    simp only [Draw.excludeUnit, if_true]
    exact drawUnitSet_directControl w s dc none true drawRefraction opaqueUnits _

/-- C18, witness: with the player in control of unit 1, a pass that is not a reflection
pass leaves unit 1 out of every list, although it is among the units of the bins. -/
theorem excluded_unit_witness :
    ¬ (Draw.classify worldFps settings0 false false [unitOnRadar, otherOnRadar]
      DrawLists.empty).2.Mentions 1 :=
  (excluded_unit worldFps settings0 false [unitOnRadar, otherOnRadar] DrawLists.empty).1 1 rfl
    (by decide) (by decide)

/-! ## Stat overlay (C20) -/

/-- C20, as stated, fails: `unitAt20000` is directly observed and classified far-texture
(squared distance 20000 beyond its far length 10000), yet it is within the health-bar
distance 50000 and `DoDrawUnit` adds it to `drawStat` as well. -/
theorem stat_overlay_counterexample :
    unitAt20000.losStatus world0.g.gu.myAllyTeam &&& LOS_INLOS ≠ 0 ∧
    (DoDrawUnit world0 settings0 unitAt20000 none false false DrawLists.empty).2.drawFar =
      [unitAt20000.id] ∧
    classOf (DoDrawUnit world0 settings0 unitAt20000 none false false DrawLists.empty).2
      unitAt20000.id = some DrawClass.farTexture ∧
    (DoDrawUnit world0 settings0 unitAt20000 none false false DrawLists.empty).2.drawStat =
      [unitAt20000.id] := by
  refine ⟨by decide, by decide, by decide, by decide⟩

/-- C20, amended: a directly observed renderable is added to the stat-overlay list
`drawStat` by `DoDrawUnit` only if it was not classified icon (it was classified full-model
or far-texture) and is within the health-bar display threshold (health bars enabled and
`sqDist < unitDrawDistSqr` times 500). -/
theorem stat_overlay (w : World) (s : UnitDrawSettings) (unit : CUnit)
    (excludeUnit : Option Nat) (drawReflection drawRefraction : Bool) (L : DrawLists)
    (hobs : unit.losStatus w.g.gu.myAllyTeam &&& LOS_INLOS ≠ 0 ∨
      w.g.gu.spectatingFullView = true)
    (hadded : (DoDrawUnit w s unit excludeUnit drawReflection drawRefraction L).2.drawStat ≠
      L.drawStat) :
    (DoDrawUnit w s unit excludeUnit drawReflection drawRefraction L).2.drawStat =
      L.drawStat ++ [unit.id] ∧
    (DoDrawUnit w s unit excludeUnit drawReflection drawRefraction L).2.drawIcon =
      L.drawIcon ∧
    DrawAsIcon s unit (sqDistance unit.pos w.camera.pos) = false ∧
    ((DoDrawUnit w s unit excludeUnit drawReflection drawRefraction L).2.drawFar =
        L.drawFar ++ [unit.id] ∨
      (DoDrawUnit w s unit excludeUnit drawReflection drawRefraction L).2.drawnNow =
        L.drawnNow ++ [unit.id] ∨
      ∃ bin, (DoDrawUnit w s unit excludeUnit drawReflection drawRefraction L).2.lodBins =
        L.lodBins ++ [(bin, unit.id)]) ∧
    s.showHealthBars = true ∧
    sqDistance unit.pos w.camera.pos < s.unitDrawDistSqr * 500 := by
  rcases DoDrawUnit_observed_cases w s unit excludeUnit drawReflection drawRefraction L hobs
    with e | e
  · rw [e] at hadded
    exact absurd rfl hadded
  rw [e] at hadded ⊢
  obtain ⟨-, h2, h3, h4, h5⟩ := drawObserved_lists w s unit L
  by_cases hst : DrawAsIcon s unit (sqDistance unit.pos w.camera.pos) = false ∧
      s.showHealthBars = true ∧ sqDistance unit.pos w.camera.pos < s.unitDrawDistSqr * 500
  · rw [if_pos hst] at h4
    obtain ⟨hi, hbars, hnear⟩ := hst
    rw [hi] at h2 h3 h5
    refine ⟨h4, by simpa using h2, hi, ?_, hbars, hnear⟩
    by_cases hfar : sqDistance unit.pos w.camera.pos > unit.sqRadius * s.unitDrawDistSqr
    · simp only [hfar, and_self, if_true] at h3
      exact Or.inl h3
    · simp only [hfar, not_false_eq_true, and_self, if_true] at h5
      rcases h5 with ⟨h5, -⟩ | ⟨-, h5⟩
      · exact Or.inr (Or.inl h5)
      · exact Or.inr (Or.inr h5)
  · rw [if_neg hst] at h4
    exact absurd h4 hadded

/-- C20, witness: `unitAt5000` is directly observed, drawn as a full model and within the
health-bar distance; it is added to `drawStat` and not to the icon list. -/
theorem stat_overlay_witness :
    (DoDrawUnit world0 settings0 unitAt5000 none false false DrawLists.empty).2.drawStat =
      DrawLists.empty.drawStat ++ [unitAt5000.id] ∧
    (DoDrawUnit world0 settings0 unitAt5000 none false false DrawLists.empty).2.drawIcon =
      DrawLists.empty.drawIcon :=
  ⟨(stat_overlay world0 settings0 unitAt5000 none false false DrawLists.empty
      (Or.inl (by decide)) (by decide)).1,
    (stat_overlay world0 settings0 unitAt5000 none false false DrawLists.empty
      (Or.inl (by decide)) (by decide)).2.1⟩

/-! ## Level-of-detail selection (C21, C22) -/

/-- C21: `DrawUnitLOD(unit)` returns true (deferred) exactly when the unit has at least one
LOD tier (`lodCount > 0`) and the LOD material of the tier `CalcLOD` computes exists and is
active. In that case the unit has been queued exactly once, in the bin of that material, and
`currentLOD` holds the computed tier. In every other case, in particular with zero LOD
tiers, it returns false (render now) and queues nothing. -/
theorem DrawUnitLOD_deferred (w : World) (unit : CUnit) (L : DrawLists) :
    ((DrawUnitLOD w unit L).1 = true ↔
      unit.lodCount > 0 ∧
      ∃ lodMat, (unit.luaMats (lodMatType w unit)).GetMaterial
          (unit.CalcLOD (unit.luaMats (lodMatType w unit)).GetLastLOD) = some lodMat ∧
        lodMat.IsActive = true) ∧
    ((DrawUnitLOD w unit L).1 = true →
      ∃ lodMat, (unit.luaMats (lodMatType w unit)).GetMaterial
          (unit.CalcLOD (unit.luaMats (lodMatType w unit)).GetLastLOD) = some lodMat ∧
        (DrawUnitLOD w unit L).2.2 =
          { L with lodBins := L.lodBins ++ [(lodMat.matref, unit.id)] } ∧
        (DrawUnitLOD w unit L).2.1.currentLOD =
          unit.CalcLOD (unit.luaMats (lodMatType w unit)).GetLastLOD) ∧
    ((DrawUnitLOD w unit L).1 = false → (DrawUnitLOD w unit L).2.2 = L) ∧
    (unit.lodCount = 0 → DrawUnitLOD w unit L = (false, unit, L)) := by
  unfold DrawUnitLOD
  by_cases hlod : unit.lodCount > 0
  · simp only [hlod, if_true, true_and]
    cases hmat : (unit.luaMats (lodMatType w unit)).GetMaterial
        (unit.CalcLOD (unit.luaMats (lodMatType w unit)).GetLastLOD) with
    | none => simp; omega
    | some lodMat =>
      cases hact : lodMat.IsActive with
      | false => simp [hact]; omega
      | true => simp [hact]; omega
  · have h0 : unit.lodCount = 0 := by omega
    simp [h0]

/-- C21, witness: `unitWithLOD` has two tiers and an active material in bin 4 for the tier
`CalcLOD` computes; it is deferred, queued once in bin 4, with `currentLOD` 1. -/
theorem DrawUnitLOD_deferred_witness :
    (DrawUnitLOD world0 unitWithLOD DrawLists.empty).1 = true ∧
    (DrawUnitLOD world0 unitWithLOD DrawLists.empty).2.2.lodBins = [(4, unitWithLOD.id)] ∧
    (DrawUnitLOD world0 unitWithLOD DrawLists.empty).2.1.currentLOD = 1 := by
  have h := (DrawUnitLOD_deferred world0 unitWithLOD DrawLists.empty).1.mpr
    ⟨by decide, activeMat, rfl, rfl⟩
  exact ⟨h, by decide, by decide⟩

/-- C22: the LOD factor set at the start of a pass is `LODScale` for the normal pass,
`LODScale * LODScaleReflection` for a reflection pass, `LODScale * LODScaleRefraction` for a
refraction pass (`drawRefraction` set, `drawReflection` clear) and
`LODScale * LODScaleShadow` for the shadow pass; so two configurations with the same
`LODScale`, whatever their shadow, reflection and refraction scales, give the normal pass
the same factor. -/
theorem lodFactor_per_pass {F : Type} [Mul F] (c : LODScales F) :
    Draw.lodFactor c false false = c.LODScale ∧
    (∀ drawRefraction, Draw.lodFactor c true drawRefraction =
      c.LODScale * c.LODScaleReflection) ∧
    Draw.lodFactor c false true = c.LODScale * c.LODScaleRefraction ∧
    DrawShadowPass.lodFactor c = c.LODScale * c.LODScaleShadow ∧
    (∀ c2 : LODScales F, c2.LODScale = c.LODScale →
      Draw.lodFactor c2 false false = Draw.lodFactor c false false) := by
  refine ⟨rfl, fun _ => rfl, rfl, rfl, fun c2 h => ?_⟩
  simp [Draw.lodFactor, h]

/-- C22, witness: `scalesA` and `scalesB` have `LODScale` 2 and differ in the three other
scales; the normal pass gets the same factor from both. -/
theorem lodFactor_per_pass_witness :
    Draw.lodFactor scalesB false false = Draw.lodFactor scalesA false false :=
  (lodFactor_per_pass scalesA).2.2.2.2 scalesB rfl

/-! ## Units without model data (C23) -/

/-- C23, the code at the failing input: `unitNoModel` has no model data. `UnitCreated`
registers it in the live set and in no bin, so `Draw` and `DrawCloakedUnits`, which walk the
bins, never meet it. `DrawShadowPass` walks the live set: `DoDrawUnitShadow` finds the unit
in line of sight, in view, near, not cloaked and no icon, and then reads `unit->model->type`
through a null pointer; the pass does not complete. -/
theorem shadow_pass_model_less_unit :
    unitNoModel.model = none ∧
    (∃ d, UnitCreated (CUnitDrawer.empty 2) unitNoModel = some d ∧
      unitNoModel.id ∈ d.unsortedUnits ∧
      d.opaqueModelRenderers = (CUnitDrawer.empty 2).opaqueModelRenderers ∧
      d.cloakedModelRenderers = (CUnitDrawer.empty 2).cloakedModelRenderers) ∧
    DoDrawUnitShadow world0 settings0 unitNoModel DrawLists.empty = none ∧
    DrawShadowPass world0 settings0 [unitAt5000, unitNoModel] DrawLists.empty = none := by
  refine ⟨rfl, ⟨_, rfl, by decide, rfl, rfl⟩, rfl, rfl⟩

/-! ## What ghost pruning leaves alone (C26) -/

/-- C26: `DrawGhostedBuildings(modelType)` removes only ghosts whose position is in line of
sight for the local ally team. Every ghost of that model type that is not in line of sight
stays in the archive, the survivors keep their relative order (the new list is the old one
with the ghosts in line of sight taken out), and the ghost lists of all other model types
are unchanged. -/
theorem prune_keeps_unseen (s : Sensors) (camera : CCamera) (gu : CGlobalUnsynced)
    (d : CUnitDrawer) (modelType : Nat) :
    (∀ gb ∈ d.ghostBuildings modelType, s.InLos gb.pos gu.myAllyTeam = false →
      gb ∈ (DrawGhostedBuildings s camera gu d modelType).drawer.ghostBuildings modelType) ∧
    (∀ gb ∈ d.ghostBuildings modelType,
      gb ∉ (DrawGhostedBuildings s camera gu d modelType).drawer.ghostBuildings modelType →
      s.InLos gb.pos gu.myAllyTeam = true) ∧
    List.Sublist
      ((DrawGhostedBuildings s camera gu d modelType).drawer.ghostBuildings modelType)
      (d.ghostBuildings modelType) ∧
    (DrawGhostedBuildings s camera gu d modelType).drawer.ghostBuildings modelType =
      (d.ghostBuildings modelType).filter (fun gb => !s.InLos gb.pos gu.myAllyTeam) ∧
    (∀ t, t ≠ modelType →
      (DrawGhostedBuildings s camera gu d modelType).drawer.ghostBuildings t =
        d.ghostBuildings t) := by
  have hg : (DrawGhostedBuildings s camera gu d modelType).drawer.ghostBuildings modelType =
      (d.ghostBuildings modelType).filter (fun gb => !s.InLos gb.pos gu.myAllyTeam) := by
    simp [DrawGhostedBuildings, ghostWalk_ghosts]
  refine ⟨?_, ?_, ?_, hg, ?_⟩
  · intro gb hgb hlos
    rw [hg, List.mem_filter]
    exact ⟨hgb, by simp [hlos]⟩
  · intro gb hgb hgone
    rw [hg, List.mem_filter] at hgone
    cases hlos : s.InLos gb.pos gu.myAllyTeam with
    | true => rfl
    | false => exact absurd ⟨hgb, by simp [hlos]⟩ hgone
  · rw [hg]
    exact List.filter_sublist _
  · intro t ht
    simp [DrawGhostedBuildings, Function.update_noteq ht]

/-- C26, witness: with line of sight on the east only, `ghostW` (west) stays in the archive
of model type 0 after the pass, and the list of model type 1 is as before. -/
theorem prune_keeps_unseen_witness :
    ghostW ∈ (DrawGhostedBuildings eastLos wideCamera g0.gu archiveP 0).drawer.ghostBuildings
      0 ∧
    (DrawGhostedBuildings eastLos wideCamera g0.gu archiveP 0).drawer.ghostBuildings 1 =
      archiveP.ghostBuildings 1 :=
  ⟨(prune_keeps_unseen eastLos wideCamera g0.gu archiveP 0).1 ghostW (by decide) (by decide),
    (prune_keeps_unseen eastLos wideCamera g0.gu archiveP 0).2.2.2.2 1 (by decide)⟩

/-! ## Shadow pass against the main pass (C28) -/

/-- When `DoDrawUnitShadow` returns with changed lists, the unit went past its four
tests. -/
theorem DoDrawUnitShadow_tests (w : World) (s : UnitDrawSettings) (unit : CUnit)
    (L : DrawLists) (r : CUnit × DrawLists)
    (hret : DoDrawUnitShadow w s unit L = some r) (hdrawn : r.2 ≠ L) :
    (unit.losStatus w.g.gu.myAllyTeam &&& LOS_INLOS ≠ 0 ∨
      w.g.gu.spectatingFullView = true) ∧
    w.camera.InView unit.drawMidPos (unit.radius + 700) = true ∧
    sqDistance unit.pos w.camera.pos < unit.sqRadius * s.unitDrawDistSqr ∧
    unit.isCloaked = false ∧
    DrawAsIcon s unit (sqDistance unit.pos w.camera.pos) = false := by
  unfold DoDrawUnitShadow at hret
  simp only at hret
  by_cases hgate : (!(((unit.losStatus w.g.gu.myAllyTeam &&& LOS_INLOS) != 0 ||
      w.g.gu.spectatingFullView) &&
      w.camera.InView unit.drawMidPos (unit.radius + 700))) = true
  · rw [if_pos hgate] at hret
    cases hret
    exact absurd rfl hdrawn
  rw [if_neg hgate] at hret
  by_cases hfar : sqDistance unit.pos w.camera.pos ≥ unit.sqRadius * s.unitDrawDistSqr
  · rw [if_pos hfar] at hret
    cases hret
    exact absurd rfl hdrawn
  rw [if_neg hfar] at hret
  cases hcl : unit.isCloaked with
  | true =>
    simp only [hcl, if_true] at hret
    cases hret
    exact absurd rfl hdrawn
  | false =>
    cases hicon : DrawAsIcon s unit (sqDistance unit.pos w.camera.pos) with
    | true =>
      simp only [hcl, hicon, Bool.false_eq_true, if_false, if_true] at hret
      cases hret
      exact absurd rfl hdrawn
    | false =>
      simp only [Bool.not_eq_true', Bool.not_eq_false, Bool.and_eq_true, Bool.or_eq_true,
        bne_iff_ne, ne_eq] at hgate
      exact ⟨hgate.1, hgate.2, not_le.mp hfar, rfl, rfl⟩

/-- C28: every unit that `DoDrawUnitShadow` draws or queues in the shadow pass is directly
observed (in-los or full-map view), not cloaked, not an icon (`DrawAsIcon` false) and
strictly nearer than the far threshold (`sqDist < sqRadius * unitDrawDistSqr`). Hence, at the
same camera distance and thresholds, the classification of `DoDrawUnit` gives that unit
full-model, and a call of `DoDrawUnit` on it never gives icon or far-texture. -/
theorem shadow_units_are_full_model (w : World) (s : UnitDrawSettings) (unit : CUnit)
    (L : DrawLists) (r : CUnit × DrawLists)
    (hret : DoDrawUnitShadow w s unit L = some r) (hdrawn : r.2 ≠ L) :
    (unit.losStatus w.g.gu.myAllyTeam &&& LOS_INLOS ≠ 0 ∨
      w.g.gu.spectatingFullView = true) ∧
    unit.isCloaked = false ∧
    DrawAsIcon s unit (sqDistance unit.pos w.camera.pos) = false ∧
    sqDistance unit.pos w.camera.pos < unit.sqRadius * s.unitDrawDistSqr ∧
    classOf (drawObserved w s unit DrawLists.empty).2 unit.id = some DrawClass.fullModel ∧
    (∀ (excludeUnit : Option Nat) (drawReflection drawRefraction : Bool) (c : DrawClass),
      classOf (DoDrawUnit w s unit excludeUnit drawReflection drawRefraction
        DrawLists.empty).2 unit.id = some c → c = DrawClass.fullModel) := by
  obtain ⟨hobs, -, hnear, hcl, hicon⟩ := DoDrawUnitShadow_tests w s unit L r hret hdrawn
  have hclass : classOf (drawObserved w s unit DrawLists.empty).2 unit.id =
      some DrawClass.fullModel := by
    rw [classOf_drawObserved, hicon]
    have hnf : ¬ sqDistance unit.pos w.camera.pos > unit.sqRadius * s.unitDrawDistSqr :=
      not_lt.mpr (le_of_lt hnear)
    simp [hnf]
  refine ⟨hobs, hcl, hicon, hnear, hclass, ?_⟩
  intro excludeUnit drawReflection drawRefraction c hc
  rcases DoDrawUnit_observed_cases w s unit excludeUnit drawReflection drawRefraction
    DrawLists.empty hobs with e | e
  · rw [e, classOf_empty] at hc
    cases hc
  · rw [e, hclass] at hc
    cases hc
    rfl

/-- C28, witness: `unitAt5000` gets its shadow drawn; it is in line of sight, not cloaked,
no icon, nearer than its far length, and `DoDrawUnit` draws it as a full model. -/
theorem shadow_units_are_full_model_witness :
    unitAt5000.isCloaked = false ∧
    DrawAsIcon settings0 unitAt5000 (sqDistance unitAt5000.pos world0.camera.pos) = false ∧
    classOf (drawObserved world0 settings0 unitAt5000 DrawLists.empty).2 unitAt5000.id =
      some DrawClass.fullModel :=
  ⟨(shadow_units_are_full_model world0 settings0 unitAt5000 DrawLists.empty
      (unitAt5000, { DrawLists.empty with drawnNow := [unitAt5000.id] }) rfl (by decide)).2.1,
    (shadow_units_are_full_model world0 settings0 unitAt5000 DrawLists.empty
      (unitAt5000, { DrawLists.empty with drawnNow := [unitAt5000.id] }) rfl
      (by decide)).2.2.1,
    (shadow_units_are_full_model world0 settings0 unitAt5000 DrawLists.empty
      (unitAt5000, { DrawLists.empty with drawnNow := [unitAt5000.id] }) rfl
      (by decide)).2.2.2.2.1⟩

/-! ## Queued S3O objects: lemmas -/

theorem mem_insertAsc (a x : Int) (l : List Int) : x ∈ insertAsc a l ↔ x = a ∨ x ∈ l := by
  induction l with
  | nil => simp [insertAsc]
  | cons b rest ih =>
    unfold insertAsc
    by_cases h1 : a < b
    · simp [h1]
    · by_cases h2 : a = b
      · subst h2
        simp
      · simp only [h1, h2, if_false, List.mem_cons, ih]
        tauto

theorem pairwise_insertAsc (a : Int) (l : List Int) (h : l.Pairwise (· < ·)) :
    (insertAsc a l).Pairwise (· < ·) := by
  induction l with
  | nil => simp [insertAsc]
  | cons b rest ih =>
    rw [List.pairwise_cons] at h
    unfold insertAsc
    by_cases h1 : a < b
    · simp only [h1, if_true]
      refine List.Pairwise.cons ?_ (List.Pairwise.cons h.1 h.2)
      intro x hx
      rcases List.mem_cons.mp hx with rfl | hx
      · exact h1
      · exact lt_trans h1 (h.1 x hx)
    · by_cases h2 : a = b
      · subst h2
        simp only [lt_self_iff_false, if_false, if_true]
        exact List.Pairwise.cons h.1 h.2
      · simp only [h1, h2, if_false]
        refine List.Pairwise.cons ?_ (ih h.2)
        intro x hx
        rcases (mem_insertAsc a x rest).mp hx with rfl | hx
        · omega
        · exact h.1 x hx

theorem toSizeT_of_nonneg (t : Int) (h0 : 0 ≤ t) (h1 : t < 2 ^ 31) : toSizeT t = t.toNat := by
  unfold toSizeT
  rw [Int.emod_eq_of_lt h0 (by omega)]

theorem getD_set (l : List (List (Option Nat))) (i j : Nat) (v : List (Option Nat)) :
    (l.set i v).getD j [] = if i = j ∧ i < l.length then v else l.getD j [] := by
  simp only [List.getD_eq_getElem?_getD, List.getElem?_set]
  by_cases hij : i = j
  · subst hij
    by_cases hlt : i < l.length
    · simp [hlt]
    · simp [hlt, List.getElem?_eq_none (Nat.le_of_not_lt hlt)]
  · simp [hij]

theorem resizeFor_getD (qs : List (List (Option Nat))) (t : Int) (i : Nat) :
    (resizeFor qs t).getD i [] = qs.getD i [] := by
  simp only [resizeFor, List.getD_eq_getElem?_getD]
  by_cases hi : i < qs.length
  · rw [List.getElem?_append_left hi]
  · rw [List.getElem?_append_right (Nat.le_of_not_lt hi),
      List.getElem?_eq_none (Nat.le_of_not_lt hi)]
    simp only [List.getElem?_replicate]
    split <;> split <;> rfl

theorem resizeFor_length (qs : List (List (Option Nat))) (t : Int) (h0 : 0 ≤ t) :
    t.toNat < (resizeFor qs t).length := by
  simp only [resizeFor, List.length_append, List.length_replicate]
  have : ¬ t < 0 := by omega
  simp only [this, if_false]
  omega

/-- Queueing under a non-negative texture type returns, and the queue then holds one pair
more. -/
theorem QueS3ODraw_holds (q : S3OQueue) (queued : List (Option Nat × Int))
    (object : Option Nat) (textureType : Int) (hq : q.Holds queued)
    (h0 : 0 ≤ textureType) (h1 : textureType < 2 ^ 31) :
    ∃ q1, QueS3ODraw q object textureType = some q1 ∧
      q1.Holds (queued ++ [(object, textureType)]) := by
  obtain ⟨hqueues, hasc, hmem⟩ := hq
  have hidx := toSizeT_of_nonneg textureType h0 h1
  have hlen := resizeFor_length q.quedS3Os textureType h0
  refine ⟨S3OQueue.mk
      ((resizeFor q.quedS3Os textureType).set textureType.toNat
        ((resizeFor q.quedS3Os textureType).getD textureType.toNat [] ++ [object]))
      (insertAsc textureType q.usedS3OTextures),
    by simp only [QueS3ODraw, hidx, hlen, if_true], ?_, ?_, ?_⟩
  · intro t
    simp only [getD_set, resizeFor_getD, hlen, and_true, List.filter_append, List.map_append,
      hqueues]
    by_cases ht : textureType.toNat = t
    · have hcast : textureType = (t : Int) := by omega
      subst hcast
      simp
    · have hcast : ¬ textureType = (t : Int) := by omega
      simp [ht, hcast]
  · exact pairwise_insertAsc _ _ hasc
  · intro t
    simp only [mem_insertAsc, hmem, List.map_append, List.mem_append, List.map_cons,
      List.map_nil, List.mem_singleton]
    tauto

theorem flatMap_congr_mem {α β : Type} (l : List α) (f g : α → List β)
    (h : ∀ a ∈ l, f a = g a) : l.flatMap f = l.flatMap g := by
  induction l with
  | nil => rfl
  | cons a rest ih =>
    simp only [List.flatMap_cons]
    rw [h a (List.mem_cons_self _ _), ih (fun b hb => h b (List.mem_cons_of_mem _ hb))]

/-- The loop of `DrawQuedS3O` over ascending non-negative texture types inside the vector:
it returns, draws each queue as it was before the loop, keeps the length, and leaves the
visited queues empty and the others as they were. -/
theorem drawQuedLoop_spec (ts : List Int) :
    ∀ qs : List (List (Option Nat)), ts.Pairwise (· < ·) →
      (∀ t ∈ ts, 0 ≤ t ∧ t < 2 ^ 31 ∧ t.toNat < qs.length) →
      ∃ qs1, drawQuedLoop ts qs =
          some (qs1, ts.flatMap (fun tex => drawQueue tex (qs.getD tex.toNat []))) ∧
        qs1.length = qs.length ∧
        ∀ i : Nat, qs1.getD i [] = if (i : Int) ∈ ts then [] else qs.getD i [] := by
  induction ts with
  | nil =>
    intro qs _ _
    exact ⟨qs, rfl, rfl, fun i => by simp⟩
  | cons tex rest ih =>
    intro qs hasc hin
    rw [List.pairwise_cons] at hasc
    obtain ⟨h0, h1, hlt⟩ := hin tex (List.mem_cons_self _ _)
    have hidx := toSizeT_of_nonneg tex h0 h1
    have hin2 : ∀ t ∈ rest, 0 ≤ t ∧ t < 2 ^ 31 ∧ t.toNat < (qs.set tex.toNat []).length := by
      intro t ht
      rw [List.length_set]
      exact hin t (List.mem_cons_of_mem _ ht)
    obtain ⟨qs1, hloop, hlen, hget⟩ := ih (qs.set tex.toNat []) hasc.2 hin2
    refine ⟨qs1, ?_, ?_, ?_⟩
    · have hrest : rest.flatMap (fun t => drawQueue t ((qs.set tex.toNat []).getD t.toNat [])) =
          rest.flatMap (fun t => drawQueue t (qs.getD t.toNat [])) := by
        apply flatMap_congr_mem
        intro t ht
        have hne : tex.toNat ≠ t.toNat := by
          have := hasc.1 t ht
          have := (hin t (List.mem_cons_of_mem _ ht)).1
          omega
        rw [getD_set]
        simp [hne]
      rw [drawQuedLoop, hidx, if_pos hlt, hloop, hrest]
      rfl
    · rw [hlen, List.length_set]
    · intro i
      rw [hget i, getD_set]
      by_cases hi : (i : Int) ∈ rest
      · simp [hi]
      · by_cases hti : tex.toNat = i
        · subst hti
          have hcast : ((tex.toNat : Nat) : Int) = tex := Int.toNat_of_nonneg h0
          simp [hcast, hlt]
        · have : ¬ (i : Int) = tex := by omega
          simp [hi, hti, this]

theorem filter_type_ne_nil (queued : List (Option Nat × Int)) (t : Int)
    (h : t ∈ queued.map Prod.snd) :
    (queued.filter (fun c => decide (c.2 = t))).map Prod.fst ≠ [] := by
  obtain ⟨c, hc, rfl⟩ := List.mem_map.mp h
  intro hnil
  have hmem : c ∈ queued.filter (fun c1 => decide (c1.2 = c.2)) :=
    List.mem_filter.mpr ⟨hc, by simp⟩
  rw [List.map_eq_nil_iff] at hnil
  rw [hnil] at hmem
  exact absurd hmem (List.not_mem_nil _)

theorem filter_type_eq_nil (queued : List (Option Nat × Int)) (t : Int)
    (h : t ∉ queued.map Prod.snd) :
    (queued.filter (fun c => decide (c.2 = t))).map Prod.fst = [] := by
  rw [List.map_eq_nil_iff, List.filter_eq_nil_iff]
  intro c hc hct
  simp only [decide_eq_true_eq] at hct
  exact h (List.mem_map.mpr ⟨c, hc, hct⟩)

/-- A queue that holds the pairs `queued` satisfies the invariant. -/
theorem invariant_of_holds (q : S3OQueue) (queued : List (Option Nat × Int))
    (hq : q.Holds queued) : q.Invariant := by
  intro i _ hne
  obtain ⟨hqueues, -, hmem⟩ := hq
  rw [hmem]
  by_contra hnot
  exact hne ((hqueues i).trans (filter_type_eq_nil queued i hnot))

/-- Drawing a queue that holds the pairs `queued` (non-negative texture types) returns,
leaves every queue and the set of used textures empty, and draws, texture type by texture
type in the order of the set, the objects queued under it that are not null. -/
theorem DrawQuedS3O_of_holds (q : S3OQueue) (queued : List (Option Nat × Int))
    (hq : q.Holds queued) (hnn : ∀ c ∈ queued, 0 ≤ c.2 ∧ c.2 < 2 ^ 31) :
    ∃ q1, DrawQuedS3O q =
        some (q1, q.usedS3OTextures.flatMap (fun tex =>
          drawQueue tex ((queued.filter (fun c => decide (c.2 = tex))).map Prod.fst))) ∧
      q1.usedS3OTextures = [] ∧ (∀ queue ∈ q1.quedS3Os, queue = []) := by
  obtain ⟨hqueues, hasc, hmem⟩ := hq
  have hin : ∀ t ∈ q.usedS3OTextures, 0 ≤ t ∧ t < 2 ^ 31 ∧ t.toNat < q.quedS3Os.length := by
    intro t ht
    have ht2 := (hmem t).mp ht
    obtain ⟨c, hc, hct⟩ := List.mem_map.mp ht2
    have hr := hnn c hc
    rw [hct] at hr
    refine ⟨hr.1, hr.2, ?_⟩
    by_contra hge
    have hnil : q.quedS3Os.getD t.toNat [] = [] := by
      simp [List.getElem?_eq_none (Nat.le_of_not_lt hge)]
    rw [hqueues, Int.toNat_of_nonneg hr.1] at hnil
    exact filter_type_ne_nil queued t ht2 hnil
  obtain ⟨qs1, hloop, hlen, hget⟩ := drawQuedLoop_spec q.usedS3OTextures q.quedS3Os hasc hin
  refine ⟨S3OQueue.mk qs1 [], ?_, rfl, ?_⟩
  · have hfm : q.usedS3OTextures.flatMap (fun tex => drawQueue tex
          (q.quedS3Os.getD tex.toNat [])) =
        q.usedS3OTextures.flatMap (fun tex => drawQueue tex
          ((queued.filter (fun c => decide (c.2 = tex))).map Prod.fst)) := by
      apply flatMap_congr_mem
      intro t ht
      rw [hqueues, Int.toNat_of_nonneg (hin t ht).1]
    rw [DrawQuedS3O, hloop, hfm]
  · intro queue hqueue
    obtain ⟨i, hi, rfl⟩ := List.getElem_of_mem hqueue
    have hgi : qs1.getD i [] = qs1[i] := by simp [hi]
    rw [← hgi, hget i]
    by_cases hmi : (i : Int) ∈ q.usedS3OTextures
    · simp [hmi]
    · simp only [hmi, if_false]
      rw [hqueues]
      exact filter_type_eq_nil queued i (fun h => hmi ((hmem _).mpr h))

/-- A queue with no used texture and only empty queues holds no pair. -/
theorem holds_nil_of_clean (q : S3OQueue) (hused : q.usedS3OTextures = [])
    (hqueues : ∀ queue ∈ q.quedS3Os, queue = []) : q.Holds [] := by
  refine ⟨fun t => ?_, by simp [hused], fun t => by simp [hused]⟩
  by_cases ht : t < q.quedS3Os.length
  · have hgi : q.quedS3Os.getD t [] = q.quedS3Os[t] := by simp [ht]
    rw [hgi]
    simpa using hqueues _ (List.getElem_mem ht)
  · simp [List.getElem?_eq_none (Nat.le_of_not_lt ht)]

theorem runS3O_append (a b : List S3OCall) :
    ∀ q : S3OQueue, runS3O q (a ++ b) = (runS3O q a).bind (fun q1 => runS3O q1 b) := by
  induction a with
  | nil => intro q; rfl
  | cons call rest ih =>
    intro q
    cases call with
    | que object textureType =>
      simp only [List.cons_append, runS3O]
      cases QueS3ODraw q object textureType with
      | none => rfl
      | some q1 => exact ih q1
    | draw =>
      simp only [List.cons_append, runS3O]
      cases DrawQuedS3O q with
      | none => rfl
      | some r => exact ih r.1

/-- Queueing a list of pairs with non-negative texture types returns, and the queue then
holds them after the pairs it held. -/
theorem runS3O_que_holds (more : List (Option Nat × Int)) :
    ∀ (q : S3OQueue) (queued : List (Option Nat × Int)), q.Holds queued →
      (∀ c ∈ more, 0 ≤ c.2 ∧ c.2 < 2 ^ 31) →
      ∃ q1, runS3O q (more.map (fun c => S3OCall.que c.1 c.2)) = some q1 ∧
        q1.Holds (queued ++ more) := by
  induction more with
  | nil =>
    intro q queued hq _
    exact ⟨q, rfl, by simpa using hq⟩
  | cons c rest ih =>
    intro q queued hq hnn
    obtain ⟨q1, h1, hq1⟩ := QueS3ODraw_holds q queued c.1 c.2 hq
      (hnn c (List.mem_cons_self _ _)).1 (hnn c (List.mem_cons_self _ _)).2
    obtain ⟨q2, h2, hq2⟩ := ih q1 (queued ++ [c]) hq1
      (fun c1 hc1 => hnn c1 (List.mem_cons_of_mem _ hc1))
    refine ⟨q2, ?_, by simpa using hq2⟩
    simp only [List.map_cons, runS3O, h1]
    exact h2

/-- Every sequence of calls with non-negative texture types returns, in a queue that holds
some list of pairs with non-negative texture types. -/
theorem runS3O_holds (calls : List S3OCall) :
    ∀ (q : S3OQueue) (queued : List (Option Nat × Int)), q.Holds queued →
      (∀ c ∈ queued, 0 ≤ c.2 ∧ c.2 < 2 ^ 31) → (∀ call ∈ calls, call.NonNegative) →
      ∃ q1 queued1, runS3O q calls = some q1 ∧ q1.Holds queued1 ∧
        ∀ c ∈ queued1, 0 ≤ c.2 ∧ c.2 < 2 ^ 31 := by
  induction calls with
  | nil =>
    intro q queued hq hnn _
    exact ⟨q, queued, rfl, hq, hnn⟩
  | cons call rest ih =>
    intro q queued hq hnn hcalls
    have hrest : ∀ c ∈ rest, c.NonNegative := fun c hc => hcalls c (List.mem_cons_of_mem _ hc)
    cases call with
    | que object textureType =>
      have hc : (S3OCall.que object textureType).NonNegative :=
        hcalls _ (List.mem_cons_self _ _)
      obtain ⟨q1, h1, hq1⟩ := QueS3ODraw_holds q queued object textureType hq hc.1 hc.2
      have hnn1 : ∀ c ∈ queued ++ [(object, textureType)], 0 ≤ c.2 ∧ c.2 < 2 ^ 31 := by
        intro c hcm
        rcases List.mem_append.mp hcm with hcm | hcm
        · exact hnn c hcm
        · rw [List.mem_singleton] at hcm
          subst hcm
          exact hc
      obtain ⟨q2, queued2, h2, hq2, hnn2⟩ := ih q1 _ hq1 hnn1 hrest
      refine ⟨q2, queued2, ?_, hq2, hnn2⟩
      simp only [runS3O, h1]
      exact h2
    | draw =>
      obtain ⟨q1, h1, hused, hqueues⟩ := DrawQuedS3O_of_holds q queued hq hnn
      obtain ⟨q2, queued2, h2, hq2, hnn2⟩ := ih q1 [] (holds_nil_of_clean q1 hused hqueues)
        (fun c hc => absurd hc (List.not_mem_nil _)) hrest
      refine ⟨q2, queued2, ?_, hq2, hnn2⟩
      simp only [runS3O, h1]
      exact h2

theorem holds_empty : S3OQueue.empty.Holds [] :=
  holds_nil_of_clean S3OQueue.empty rfl (fun _ h => absurd h (List.not_mem_nil _))

theorem count_drawQueue (t tex : Int) (o : Nat) (l : List (Option Nat)) :
    (drawQueue t l).count (tex, o) = if t = tex then l.count (some o) else 0 := by
  induction l with
  | nil => simp [drawQueue]
  | cons x rest ih =>
    unfold drawQueue at ih ⊢
    cases x with
    | none =>
      simp only [List.filterMap_cons, Option.map_none']
      rw [ih]
      simp [List.count_cons]
    | some y =>
      simp only [List.filterMap_cons, Option.map_some', List.count_cons]
      rw [ih]
      by_cases ht : t = tex
      · by_cases hy : y = o
        · simp [ht, hy]
        · have hy2 : ¬ o = y := fun h => hy h.symm
          simp [ht, hy, hy2]
      · simp [ht]

theorem count_draw_groups (ts : List Int) (objs : Int → List (Option Nat))
    (hasc : ts.Pairwise (· < ·)) (tex : Int) (o : Nat) :
    (ts.flatMap (fun t => drawQueue t (objs t))).count (tex, o) =
      if tex ∈ ts then (objs tex).count (some o) else 0 := by
  induction ts with
  | nil => simp
  | cons t rest ih =>
    rw [List.pairwise_cons] at hasc
    simp only [List.flatMap_cons, List.count_append, count_drawQueue, ih hasc.2,
      List.mem_cons]
    by_cases ht : t = tex
    · subst ht
      have hnot : t ∉ rest := fun h => lt_irrefl t (hasc.1 t h)
      simp [hnot]
    · have ht2 : ¬ tex = t := fun h => ht h.symm
      simp [ht, ht2]

theorem count_filter_type (queued : List (Option Nat × Int)) (tex : Int) (o : Nat) :
    ((queued.filter (fun c => decide (c.2 = tex))).map Prod.fst).count (some o) =
      queued.count (some o, tex) := by
  induction queued with
  | nil => rfl
  | cons c rest ih =>
    obtain ⟨x, t⟩ := c
    by_cases ht : t = tex
    · subst ht
      simp only [List.filter_cons, decide_True, if_true, List.map_cons, List.count_cons, ih]
      by_cases hx : x = some o
      · simp [hx]
      · simp [hx]
    · simp only [List.filter_cons, ht, decide_False, Bool.false_eq_true, if_false,
        List.count_cons, ih]
      simp [ht]

/-! ## Queued S3O objects: the invariant and the draws (C29, C30) -/

/-- C29: in the non-GML build every sequence of `QueS3ODraw` calls with non-negative texture
types and `DrawQuedS3O` calls returns and keeps the invariant that every index whose queue is
not empty is in `usedS3OTextures`. When the pairs `queued` are queued after a `DrawQuedS3O`,
the next `DrawQuedS3O` returns, leaves every queue empty and `usedS3OTextures` empty, and its
draws are the non-null objects of `queued`, grouped by texture type in ascending order and in
queueing order within a texture type, each drawn as many times as it was queued. -/
theorem queued_S3O_drawn_once (calls : List S3OCall) (queued : List (Option Nat × Int))
    (hcalls : ∀ call ∈ calls, call.NonNegative)
    (hqueued : ∀ c ∈ queued, 0 ≤ c.2 ∧ c.2 < 2 ^ 31) :
    (∃ q, runS3O S3OQueue.empty calls = some q ∧ q.Invariant) ∧
    ∃ q q1 draws,
      runS3O S3OQueue.empty
          (calls ++ S3OCall.draw :: queued.map (fun c => S3OCall.que c.1 c.2)) = some q ∧
        q.Invariant ∧
        DrawQuedS3O q = some (q1, draws) ∧
        q1.Invariant ∧
        (∀ queue ∈ q1.quedS3Os, queue = []) ∧
        q1.usedS3OTextures = [] ∧
        q.usedS3OTextures.Pairwise (· < ·) ∧
        (∀ t : Int, t ∈ q.usedS3OTextures ↔ t ∈ queued.map Prod.snd) ∧
        draws = q.usedS3OTextures.flatMap (fun tex =>
          drawQueue tex ((queued.filter (fun c => decide (c.2 = tex))).map Prod.fst)) ∧
        ∀ (tex : Int) (o : Nat), draws.count (tex, o) = queued.count (some o, tex) := by
  obtain ⟨q0, queued0, hrun0, hq0, hnn0⟩ := runS3O_holds calls S3OQueue.empty [] holds_empty
    (fun c hc => absurd hc (List.not_mem_nil _)) hcalls
  refine ⟨⟨q0, hrun0, invariant_of_holds q0 queued0 hq0⟩, ?_⟩
  obtain ⟨qc, hdraw0, hused0, hqueues0⟩ := DrawQuedS3O_of_holds q0 queued0 hq0 hnn0
  obtain ⟨q, hrun, hq⟩ := runS3O_que_holds queued qc [] (holds_nil_of_clean qc hused0 hqueues0)
    hqueued
  rw [List.nil_append] at hq
  obtain ⟨q1, hdraw, hused, hqueues⟩ := DrawQuedS3O_of_holds q queued hq hqueued
  refine ⟨q, q1, _, ?_, invariant_of_holds q queued hq, hdraw,
    invariant_of_holds q1 [] (holds_nil_of_clean q1 hused hqueues), hqueues, hused, hq.2.1,
    hq.2.2, rfl, ?_⟩
  · rw [runS3O_append, hrun0]
    simp only [Option.bind, runS3O, hdraw0]
    exact hrun
  · intro tex o
    rw [count_draw_groups q.usedS3OTextures
      (fun tex => (queued.filter (fun c => decide (c.2 = tex))).map Prod.fst) hq.2.1 tex o]
    simp only [count_filter_type]
    split
    · rfl
    · rename_i hnot
      symm
      rw [List.count_eq_zero]
      intro hmem
      exact hnot ((hq.2.2 tex).mpr (List.mem_map.mpr ⟨(some o, tex), hmem, rfl⟩))

/-- Witness for C29: after one earlier queue-and-draw round the five pairs of `queuedC` are
queued and drawn. -/
theorem queued_S3O_drawn_once_witness :
    (∀ call ∈ [S3OCall.que (some 7) 3, S3OCall.draw], call.NonNegative) ∧
    (∀ c ∈ queuedC, 0 ≤ c.2 ∧ c.2 < 2 ^ 31) ∧
    ((∃ q, runS3O S3OQueue.empty [S3OCall.que (some 7) 3, S3OCall.draw] = some q ∧
        q.Invariant) ∧
      ∃ q q1 draws,
        runS3O S3OQueue.empty
            ([S3OCall.que (some 7) 3, S3OCall.draw] ++
              S3OCall.draw :: queuedC.map (fun c => S3OCall.que c.1 c.2)) = some q ∧
          q.Invariant ∧
          DrawQuedS3O q = some (q1, draws) ∧
          q1.Invariant ∧
          (∀ queue ∈ q1.quedS3Os, queue = []) ∧
          q1.usedS3OTextures = [] ∧
          q.usedS3OTextures.Pairwise (· < ·) ∧
          (∀ t : Int, t ∈ q.usedS3OTextures ↔ t ∈ queuedC.map Prod.snd) ∧
          draws = q.usedS3OTextures.flatMap (fun tex =>
            drawQueue tex ((queuedC.filter (fun c => decide (c.2 = tex))).map Prod.fst)) ∧
          ∀ (tex : Int) (o : Nat), draws.count (tex, o) = queuedC.count (some o, tex)) :=
  have hcalls : ∀ call ∈ [S3OCall.que (some 7) 3, S3OCall.draw], call.NonNegative := by
    intro call hcall
    simp only [List.mem_cons, List.mem_singleton, List.not_mem_nil, or_false] at hcall
    rcases hcall with h | h
    · subst h
      exact ⟨by decide, by decide⟩
    · subst h
      exact True.intro
  have hqueued : ∀ c ∈ queuedC, 0 ≤ c.2 ∧ c.2 < 2 ^ 31 := by decide
  ⟨hcalls, hqueued, queued_S3O_drawn_once _ queuedC hcalls hqueued⟩

/-- C30 (evaluation at the failing input): on the empty queue `QueS3ODraw(object, -1)` resizes
the vector for the clamped type 0, to length 1, and then appends at the index the texture
type itself converts to, 2^64 - 1, which is outside the vector. -/
theorem QueS3ODraw_negative_type :
    (resizeFor S3OQueue.empty.quedS3Os (-1)).length = 1 ∧
    toSizeT (-1) = 18446744073709551615 ∧
    ¬ toSizeT (-1) < (resizeFor S3OQueue.empty.quedS3Os (-1)).length ∧
    QueS3ODraw S3OQueue.empty (some 5) (-1) = none := by
  refine ⟨by decide, by decide, by decide, by decide⟩

/-! ## The opaque pass: what a classifier run adds to the lists -/

theorem DrawLists.append_empty (L : DrawLists) : L.append DrawLists.empty = L := by
  cases L
  simp [DrawLists.append, DrawLists.empty]

theorem DrawLists.append_assoc (A B C : DrawLists) :
    (A.append B).append C = A.append (B.append C) := by
  simp [DrawLists.append, List.append_assoc]

/-- The hand-off of `DrawUnitLOD` does not depend on the lists it is added to. -/
theorem DrawUnitLOD_append (w : World) (unit : CUnit) (L : DrawLists) :
    DrawUnitLOD w unit L =
      ((DrawUnitLOD w unit DrawLists.empty).1, (DrawUnitLOD w unit DrawLists.empty).2.1,
        L.append (DrawUnitLOD w unit DrawLists.empty).2.2) := by
  unfold DrawUnitLOD
  by_cases hlod : unit.lodCount > 0
  · simp only [hlod, if_true]
    cases hmat : (unit.luaMats (lodMatType w unit)).GetMaterial
        (unit.CalcLOD (unit.luaMats (lodMatType w unit)).GetLastLOD) with
    | none =>
      simp only []
      rw [DrawLists.append_empty]
    | some lodMat =>
      cases hact : lodMat.IsActive with
      | true =>
        cases L
        simp [hact, DrawLists.append, DrawLists.empty]
      | false =>
        simp only [hact, Bool.false_eq_true, if_false]
        rw [DrawLists.append_empty]
  · simp only [hlod, if_false]
    rw [DrawLists.append_empty]

/-- What `drawObserved` adds to the lists does not depend on the lists. -/
theorem drawObserved_append (w : World) (s : UnitDrawSettings) (unit : CUnit) (L : DrawLists) :
    drawObserved w s unit L =
      ((drawObserved w s unit DrawLists.empty).1,
        L.append (drawObserved w s unit DrawLists.empty).2) := by
  simp only [drawObserved]
  cases hicon : DrawAsIcon s unit (sqDistance unit.pos w.camera.pos) with
  | true =>
    cases L
    simp [DrawLists.append, DrawLists.empty]
  | false =>
    simp only [Bool.false_eq_true, if_false]
    by_cases hfar : sqDistance unit.pos w.camera.pos > unit.sqRadius * s.unitDrawDistSqr
    · simp only [hfar, if_true]
      cases hstat : (s.showHealthBars &&
          decide (sqDistance unit.pos w.camera.pos < s.unitDrawDistSqr * 500))
      · cases L
        simp [DrawLists.append, DrawLists.empty]
      · cases L
        simp [DrawLists.append, DrawLists.empty]
    · simp only [hfar, if_false]
      rw [DrawUnitLOD_append w _ L]
      generalize DrawUnitLOD w { unit with isIcon := false } DrawLists.empty = r
      obtain ⟨flag, unit2, D⟩ := r
      cases flag <;>
        cases (s.showHealthBars &&
          decide (sqDistance unit.pos w.camera.pos < s.unitDrawDistSqr * 500)) <;>
        cases L <;> cases D <;> simp [DrawLists.append, DrawLists.empty]

/-- What `drawPrevLos` adds to the lists does not depend on the lists. -/
theorem drawPrevLos_append (w : World) (s : UnitDrawSettings) (unit : CUnit) (losStatus : Nat)
    (L : DrawLists) :
    drawPrevLos w s unit losStatus L =
      ((drawPrevLos w s unit losStatus DrawLists.empty).1,
        L.append (drawPrevLos w s unit losStatus DrawLists.empty).2) := by
  simp only [drawPrevLos]
  by_cases hr : (losStatus &&& LOS_INRADAR) != 0
  · by_cases hc : (losStatus &&& LOS_CONTRADAR) == 0
    · cases L
      simp [hr, hc, DrawLists.append, DrawLists.empty]
    · cases hg : (ghostingEnabled w.g && !unit.mobility)
      · cases hi : unit.isIcon <;> cases L <;>
          simp [hr, hc, hi, DrawLists.append, DrawLists.empty]
      · cases hi : DrawAsIcon s unit (sqDistance unit.pos w.camera.pos) <;> cases L <;>
          simp [hr, hc, hi, DrawLists.append, DrawLists.empty]
  · cases L
    simp [hr, DrawLists.append, DrawLists.empty]

/-- What `DoDrawUnit` adds to the lists, and what it writes to the unit, does not depend on
the lists: the lists after the call are the lists before it followed by what the call adds
to empty lists. -/
theorem DoDrawUnit_append (w : World) (s : UnitDrawSettings) (unit : CUnit)
    (excludeUnit : Option Nat) (drawReflection drawRefraction : Bool) (L : DrawLists) :
    DoDrawUnit w s unit excludeUnit drawReflection drawRefraction L =
      ((DoDrawUnit w s unit excludeUnit drawReflection drawRefraction DrawLists.empty).1,
        L.append
          (DoDrawUnit w s unit excludeUnit drawReflection drawRefraction DrawLists.empty).2) := by
  unfold DoDrawUnit
  split
  · rw [DrawLists.append_empty]
  split
  · rw [DrawLists.append_empty]
  split
  · rw [DrawLists.append_empty]
  simp only []
  split
  · split
    · split
      · rw [DrawLists.append_empty]
      · exact drawObserved_append w s unit L
    · split
      · split
        · rw [DrawLists.append_empty]
        · exact drawObserved_append w s unit L
      · exact drawObserved_append w s unit L
  · split
    · exact drawPrevLos_append w s unit _ L
    · split
      · cases L
        simp [DrawLists.append, DrawLists.empty]
      · rw [DrawLists.append_empty]

/-- The loop `DRAW_UNIT_SET` adds to the lists what it adds to empty lists. -/
theorem drawUnitSet_append (w : World) (s : UnitDrawSettings) (excludeUnit : Option Nat)
    (drawReflection drawRefraction : Bool) (units : List CUnit) :
    ∀ L : DrawLists,
      drawUnitSet w s excludeUnit drawReflection drawRefraction units L =
        ((drawUnitSet w s excludeUnit drawReflection drawRefraction units DrawLists.empty).1,
          L.append
            (drawUnitSet w s excludeUnit drawReflection drawRefraction units
              DrawLists.empty).2) := by
  induction units with
  | nil =>
    intro L
    simp only [drawUnitSet]
    rw [DrawLists.append_empty]
  | cons unit rest ih =>
    intro L
    simp only [drawUnitSet]
    rw [DoDrawUnit_append w s unit excludeUnit drawReflection drawRefraction L]
    simp only []
    rw [ih (L.append _),
      ih (DoDrawUnit w s unit excludeUnit drawReflection drawRefraction DrawLists.empty).2,
      DrawLists.append_assoc]

/-- The immediate draws between lists and the same lists with more added are those of what
was added. -/
theorem newDraws_append (L D : DrawLists) :
    newDraws L (L.append D) = D.drawnNow.map DrawEvent.unitNow := by
  simp [newDraws, DrawLists.append]

/-- The function `Draw` in closed form: it returns exactly when `DrawQuedS3O` does, the lists
are the cleared lists followed by what the two bins add, and the draws are those of the two
bins (each followed by its extra objects), the flush, the far textures and the icons. -/
theorem Draw_eq (w : World) (s : UnitDrawSettings) (t : TempUnits)
    (drawReflection drawRefraction : Bool) (units3DO unitsS3O : List CUnit) (q : S3OQueue)
    (L : DrawLists) :
    Draw w s t drawReflection drawRefraction units3DO unitsS3O q L =
      (DrawQuedS3O q).map (fun d =>
        DrawOutcome.mk
          (drawUnitSet w s (Draw.excludeUnit w.g.gu drawReflection) drawReflection
            drawRefraction units3DO DrawLists.empty).1
          (drawUnitSet w s (Draw.excludeUnit w.g.gu drawReflection) drawReflection
            drawRefraction unitsS3O DrawLists.empty).1
          d.1
          (((DrawLists.mk [] [] [] [] L.drawnNow L.lodBins).append
            (drawUnitSet w s (Draw.excludeUnit w.g.gu drawReflection) drawReflection
              drawRefraction units3DO DrawLists.empty).2).append
            (drawUnitSet w s (Draw.excludeUnit w.g.gu drawReflection) drawReflection
              drawRefraction unitsS3O DrawLists.empty).2)
          ((drawUnitSet w s (Draw.excludeUnit w.g.gu drawReflection) drawReflection
              drawRefraction units3DO DrawLists.empty).2.drawnNow.map DrawEvent.unitNow ++
            DrawOpaqueAIUnits w.camera t ++
            ((drawUnitSet w s (Draw.excludeUnit w.g.gu drawReflection) drawReflection
                drawRefraction unitsS3O DrawLists.empty).2.drawnNow.map DrawEvent.unitNow ++
              d.2.map (fun p => DrawEvent.s3oObject p.1 p.2)) ++
            DrawOpaqueShaderUnits w ++
            DrawFarTextures
              (((DrawLists.mk [] [] [] [] L.drawnNow L.lodBins).append
                (drawUnitSet w s (Draw.excludeUnit w.g.gu drawReflection) drawReflection
                  drawRefraction units3DO DrawLists.empty).2).append
                (drawUnitSet w s (Draw.excludeUnit w.g.gu drawReflection) drawReflection
                  drawRefraction unitsS3O DrawLists.empty).2) ++
            DrawUnitIcons drawReflection
              (((DrawLists.mk [] [] [] [] L.drawnNow L.lodBins).append
                (drawUnitSet w s (Draw.excludeUnit w.g.gu drawReflection) drawReflection
                  drawRefraction units3DO DrawLists.empty).2).append
                (drawUnitSet w s (Draw.excludeUnit w.g.gu drawReflection) drawReflection
                  drawRefraction unitsS3O DrawLists.empty).2))) := by
  simp only [Draw, DrawOpaqueUnits]
  rw [drawUnitSet_append w s _ drawReflection drawRefraction units3DO
    (DrawLists.mk [] [] [] [] L.drawnNow L.lodBins)]
  simp only []
  rw [drawUnitSet_append w s _ drawReflection drawRefraction unitsS3O
    ((DrawLists.mk [] [] [] [] L.drawnNow L.lodBins).append _)]
  simp only [newDraws_append]
  cases DrawQuedS3O q with
  | none => rfl
  | some d => rfl

/-- The loop `DRAW_UNIT_SET` over two bins, one after the other, is the loop over the units
of both. -/
theorem drawUnitSet_units_append (w : World) (s : UnitDrawSettings) (excludeUnit : Option Nat)
    (drawReflection drawRefraction : Bool) (units more : List CUnit) :
    ∀ L : DrawLists,
      drawUnitSet w s excludeUnit drawReflection drawRefraction (units ++ more) L =
        ((drawUnitSet w s excludeUnit drawReflection drawRefraction units L).1 ++
          (drawUnitSet w s excludeUnit drawReflection drawRefraction more
            (drawUnitSet w s excludeUnit drawReflection drawRefraction units L).2).1,
          (drawUnitSet w s excludeUnit drawReflection drawRefraction more
            (drawUnitSet w s excludeUnit drawReflection drawRefraction units L).2).2) := by
  induction units with
  | nil => intro L; rfl
  | cons unit rest ih =>
    intro L
    rw [List.cons_append]
    simp only [drawUnitSet]
    rw [ih]
    rfl

/-- The function `DrawFarTextures` emits one batch holding `drawFar`, and nothing when
`drawFar` is empty. -/
theorem DrawFarTextures_eq (L : DrawLists) :
    DrawFarTextures L =
      if L.drawFar = [] then [] else [DrawEvent.farTextures L.drawFar] := by
  unfold DrawFarTextures
  cases L.drawFar <;> simp

theorem DrawFarTextures_stage (L : DrawLists) : ∀ e ∈ DrawFarTextures L, e.stage = 2 := by
  intro e he
  unfold DrawFarTextures at he
  split at he
  · exact absurd he (List.not_mem_nil _)
  · rw [List.mem_singleton] at he
    subst he
    rfl

/-- A list of draws in stage order, all of stage at most `k`, stays in stage order when
draws of stage `k` follow. -/
theorem stage_sorted_append (A B : List DrawEvent) (k : Nat)
    (hA : (A.map DrawEvent.stage).Pairwise (· ≤ ·)) (hAk : ∀ e ∈ A, e.stage ≤ k)
    (hB : ∀ e ∈ B, e.stage = k) :
    ((A ++ B).map DrawEvent.stage).Pairwise (· ≤ ·) ∧ ∀ e ∈ A ++ B, e.stage ≤ k := by
  constructor
  · rw [List.map_append, List.pairwise_append]
    refine ⟨hA, ?_, ?_⟩
    · rw [List.pairwise_map]
      apply List.pairwise_of_forall_mem_list
      intro a ha b hb
      rw [hB a ha, hB b hb]
    · intro x hx y hy
      obtain ⟨a, ha, rfl⟩ := List.mem_map.mp hx
      obtain ⟨b, hb, rfl⟩ := List.mem_map.mp hy
      rw [hB b hb]
      exact hAk a ha
  · intro e he
    rcases List.mem_append.mp he with h | h
    · exact hAk e h
    · exact le_of_eq (hB e h)

/-- The four transient lists after `Draw` are those the classifier builds from empty lists
over the units of the two bins. -/
theorem Draw_lists (w : World) (s : UnitDrawSettings) (t : TempUnits)
    (drawReflection drawRefraction : Bool) (units3DO unitsS3O : List CUnit) (q : S3OQueue)
    (L : DrawLists) (r : DrawOutcome)
    (hr : Draw w s t drawReflection drawRefraction units3DO unitsS3O q L = some r) :
    r.lists.drawFar = (Draw.classify w s drawReflection drawRefraction (units3DO ++ unitsS3O)
      DrawLists.empty).2.drawFar ∧
    r.lists.drawStat = (Draw.classify w s drawReflection drawRefraction (units3DO ++ unitsS3O)
      DrawLists.empty).2.drawStat ∧
    r.lists.drawIcon = (Draw.classify w s drawReflection drawRefraction (units3DO ++ unitsS3O)
      DrawLists.empty).2.drawIcon ∧
    r.lists.drawRadarIcon = (Draw.classify w s drawReflection drawRefraction
      (units3DO ++ unitsS3O) DrawLists.empty).2.drawRadarIcon := by
  rw [Draw_eq] at hr
  cases hd : DrawQuedS3O q with
  | none =>
    rw [hd] at hr
    exact absurd hr (by simp)
  | some d =>
    rw [hd] at hr
    simp only [Option.map_some', Option.some.injEq] at hr
    subst hr
    have hc : (Draw.classify w s drawReflection drawRefraction (units3DO ++ unitsS3O)
        DrawLists.empty).2 =
        (drawUnitSet w s (Draw.excludeUnit w.g.gu drawReflection) drawReflection
          drawRefraction units3DO DrawLists.empty).2.append
        (drawUnitSet w s (Draw.excludeUnit w.g.gu drawReflection) drawReflection
          drawRefraction unitsS3O DrawLists.empty).2 := by
      have h0 : Draw.classify w s drawReflection drawRefraction (units3DO ++ unitsS3O)
          DrawLists.empty =
          drawUnitSet w s (Draw.excludeUnit w.g.gu drawReflection) drawReflection
            drawRefraction (units3DO ++ unitsS3O) DrawLists.empty := rfl
      rw [h0, drawUnitSet_units_append]
      simp only []
      rw [drawUnitSet_append w s _ drawReflection drawRefraction unitsS3O
        (drawUnitSet w s (Draw.excludeUnit w.g.gu drawReflection) drawReflection
          drawRefraction units3DO DrawLists.empty).2]
    rw [hc]
    simp [DrawLists.append]

/-- Draws of the stages 0 to 5, one stage after the other, are in stage order. -/
theorem stage_order (now flush far icons blips stats : List DrawEvent)
    (h0 : ∀ e ∈ now, e.stage = 0) (h1 : ∀ e ∈ flush, e.stage = 1)
    (h2 : ∀ e ∈ far, e.stage = 2) (h3 : ∀ e ∈ icons, e.stage = 3)
    (h4 : ∀ e ∈ blips, e.stage = 4) (h5 : ∀ e ∈ stats, e.stage = 5) :
    ((now ++ flush ++ far ++ (icons ++ blips ++ stats)).map DrawEvent.stage).Pairwise
      (· ≤ ·) := by
  have s0 := stage_sorted_append [] now 0 List.Pairwise.nil
    (fun e he => absurd he (List.not_mem_nil _)) h0
  rw [List.nil_append] at s0
  have s1 := stage_sorted_append now flush 1 s0.1
    (fun e he => le_trans (s0.2 e he) (by decide)) h1
  have s2 := stage_sorted_append (now ++ flush) far 2 s1.1
    (fun e he => le_trans (s1.2 e he) (by decide)) h2
  have s3 := stage_sorted_append (now ++ flush ++ far) icons 3 s2.1
    (fun e he => le_trans (s2.2 e he) (by decide)) h3
  have s4 := stage_sorted_append (now ++ flush ++ far ++ icons) blips 4 s3.1
    (fun e he => le_trans (s3.2 e he) (by decide)) h4
  have s5 := stage_sorted_append (now ++ flush ++ far ++ icons ++ blips) stats 5 s4.1
    (fun e he => le_trans (s4.2 e he) (by decide)) h5
  simpa only [List.append_assoc] using s5.1

/-! ## The opaque pass: transient lists and draw order (C24, C27) -/

/-- C24: the transient lists are rebuilt from empty on every `Draw` call. Two runs of `Draw`
from states that differ only in the prior contents of `drawFar`, `drawStat`, `drawIcon` and
`drawRadarIcon` have the same outcome, lists included; the run returns exactly when
`DrawQuedS3O` does; and the four lists it leaves are those the classifier builds from empty
lists over the units of the opaque bins. -/
theorem Draw_rebuilds_transient_lists (w : World) (s : UnitDrawSettings) (t : TempUnits)
    (drawReflection drawRefraction : Bool) (units3DO unitsS3O : List CUnit) (q : S3OQueue)
    (L1 L2 : DrawLists) (hnow : L1.drawnNow = L2.drawnNow) (hbins : L1.lodBins = L2.lodBins) :
    Draw w s t drawReflection drawRefraction units3DO unitsS3O q L1 =
      Draw w s t drawReflection drawRefraction units3DO unitsS3O q L2 ∧
    (Draw w s t drawReflection drawRefraction units3DO unitsS3O q L1).isSome =
      (DrawQuedS3O q).isSome ∧
    ∀ r, Draw w s t drawReflection drawRefraction units3DO unitsS3O q L1 = some r →
      r.lists.drawFar = (Draw.classify w s drawReflection drawRefraction
        (units3DO ++ unitsS3O) DrawLists.empty).2.drawFar ∧
      r.lists.drawStat = (Draw.classify w s drawReflection drawRefraction
        (units3DO ++ unitsS3O) DrawLists.empty).2.drawStat ∧
      r.lists.drawIcon = (Draw.classify w s drawReflection drawRefraction
        (units3DO ++ unitsS3O) DrawLists.empty).2.drawIcon ∧
      r.lists.drawRadarIcon = (Draw.classify w s drawReflection drawRefraction
        (units3DO ++ unitsS3O) DrawLists.empty).2.drawRadarIcon := by
  refine ⟨?_, ?_, ?_⟩
  · rw [Draw_eq, Draw_eq, hnow, hbins]
  · rw [Draw_eq]
    cases DrawQuedS3O q <;> rfl
  · intro r hr
    exact Draw_lists w s t drawReflection drawRefraction units3DO unitsS3O q L1 r hr

/-- Witness for C24: a pass over two units, once from empty lists and once from the stale
lists `staleLists`. -/
theorem Draw_rebuilds_transient_lists_witness :
    DrawLists.empty.drawnNow = staleLists.drawnNow ∧
    DrawLists.empty.lodBins = staleLists.lodBins ∧
    (Draw world0 settings0 tempUnits0 false false [unitAt5000] [unitAt8000, otherOnRadar]
        queueC DrawLists.empty =
      Draw world0 settings0 tempUnits0 false false [unitAt5000] [unitAt8000, otherOnRadar]
        queueC staleLists ∧
    (Draw world0 settings0 tempUnits0 false false [unitAt5000] [unitAt8000, otherOnRadar]
        queueC DrawLists.empty).isSome = (DrawQuedS3O queueC).isSome ∧
    ∀ r, Draw world0 settings0 tempUnits0 false false [unitAt5000] [unitAt8000, otherOnRadar]
        queueC DrawLists.empty = some r →
      r.lists.drawFar = (Draw.classify world0 settings0 false false
        ([unitAt5000] ++ [unitAt8000, otherOnRadar]) DrawLists.empty).2.drawFar ∧
      r.lists.drawStat = (Draw.classify world0 settings0 false false
        ([unitAt5000] ++ [unitAt8000, otherOnRadar]) DrawLists.empty).2.drawStat ∧
      r.lists.drawIcon = (Draw.classify world0 settings0 false false
        ([unitAt5000] ++ [unitAt8000, otherOnRadar]) DrawLists.empty).2.drawIcon ∧
      r.lists.drawRadarIcon = (Draw.classify world0 settings0 false false
        ([unitAt5000] ++ [unitAt8000, otherOnRadar]) DrawLists.empty).2.drawRadarIcon) :=
  ⟨rfl, rfl, Draw_rebuilds_transient_lists world0 settings0 tempUnits0 false false
    [unitAt5000] [unitAt8000, otherOnRadar] queueC DrawLists.empty staleLists rfl rfl⟩

/-- C27: a non-reflection `Draw` call returns whenever `DrawQuedS3O` does, and the draws it
emits are, in this order: the immediate draws of `DrawOpaqueUnits` (`now`: the `DrawUnitNow`
calls of the 3DO bin, the temporary units in view, the `DrawUnitNow` calls of the S3O bin,
the queued S3O objects; among them every immediate full-model draw of the opaque bins), then
the one flush of the material binner (`DrawBins` of the opaque material type, made by
`DrawOpaqueShaderUnits`), then the far-texture batch holding `drawFar` (no batch when
`drawFar` is empty), then every icon entry, then every radar-blip entry, then the stat
overlays; so the stages along the sequence never decrease. -/
theorem Draw_emits_in_stage_order (w : World) (s : UnitDrawSettings) (t : TempUnits)
    (drawRefraction : Bool) (units3DO unitsS3O : List CUnit) (q : S3OQueue) (L : DrawLists)
    (d : S3OQueue × List (Int × Nat)) (hq : DrawQuedS3O q = some d) :
    ∃ r now,
      Draw w s t false drawRefraction units3DO unitsS3O q L = some r ∧
      now =
        (drawUnitSet w s w.g.gu.directControl false drawRefraction units3DO
            DrawLists.empty).2.drawnNow.map DrawEvent.unitNow ++
          (t.tempDrawUnits.entries.filter (fun e => w.camera.InView e.2.pos 100)).map
            (fun e => DrawEvent.aiUnit e.2) ++
          (drawUnitSet w s w.g.gu.directControl false drawRefraction unitsS3O
            DrawLists.empty).2.drawnNow.map DrawEvent.unitNow ++
          d.2.map (fun p => DrawEvent.s3oObject p.1 p.2) ∧
      (∀ e ∈ now, e.stage = 0) ∧
      (∀ unit, unit ∈ r.lists.drawnNow.drop L.drawnNow.length ↔ DrawEvent.unitNow unit ∈ now) ∧
      r.events = now ++
        [DrawEvent.shaderBins
          (if w.water.drawReflection then LuaMatType.LUAMAT_OPAQUE_REFLECT
            else LuaMatType.LUAMAT_OPAQUE)] ++
        (if r.lists.drawFar = [] then [] else [DrawEvent.farTextures r.lists.drawFar]) ++
        r.lists.drawIcon.map DrawEvent.icon ++ r.lists.drawRadarIcon.map DrawEvent.radarBlip ++
        r.lists.drawStat.map DrawEvent.stats ∧
      (r.events.map DrawEvent.stage).Pairwise (· ≤ ·) := by
  have hnow : ∀ e ∈
      (drawUnitSet w s (Draw.excludeUnit w.g.gu false) false drawRefraction units3DO
          DrawLists.empty).2.drawnNow.map DrawEvent.unitNow ++
        DrawOpaqueAIUnits w.camera t ++
        ((drawUnitSet w s (Draw.excludeUnit w.g.gu false) false drawRefraction unitsS3O
            DrawLists.empty).2.drawnNow.map DrawEvent.unitNow ++
          d.2.map (fun p => DrawEvent.s3oObject p.1 p.2)), e.stage = 0 := by
    intro e he
    simp only [DrawOpaqueAIUnits, List.mem_append, List.mem_map] at he
    rcases he with (⟨_, _, rfl⟩ | ⟨_, _, rfl⟩) | (⟨_, _, rfl⟩ | ⟨_, _, rfl⟩) <;> rfl
  rw [Draw_eq, hq]
  refine ⟨_, _, rfl, ?_, hnow, ?_, ?_, ?_⟩
  · simp only [DrawOpaqueAIUnits, Draw.excludeUnit, Bool.false_eq_true, if_false,
      List.append_assoc]
  · intro unit
    simp [DrawLists.append, DrawOpaqueAIUnits]
  · simp only [DrawUnitIcons, Bool.not_false, if_true, List.append_assoc,
      DrawOpaqueShaderUnits, DrawFarTextures_eq]
  · exact stage_order _ _ _ _ _ _ hnow
      (fun e he => by
        rw [DrawOpaqueShaderUnits, List.mem_singleton] at he
        subst he
        rfl)
      (DrawFarTextures_stage _)
      (fun e he => by
        obtain ⟨_, _, rfl⟩ := List.mem_map.mp he
        rfl)
      (fun e he => by
        obtain ⟨_, _, rfl⟩ := List.mem_map.mp he
        rfl)
      (fun e he => by
        obtain ⟨_, _, rfl⟩ := List.mem_map.mp he
        rfl)

/-- Witness for C27: a pass over four units with the queue `queueC`; `unitAt5000` is drawn
at once, `unitAt20000` goes to the far-texture batch, `unitAt8000` is an icon and
`otherOnRadar` a radar blip. -/
theorem Draw_emits_in_stage_order_witness :
    DrawQuedS3O queueC =
      some (S3OQueue.mk [[], [], []] [], [(0, 12), (0, 11), (2, 11), (2, 13)]) ∧
    ∃ r now,
      Draw world0 settings0 tempUnits0 false false [unitAt5000, unitAt20000]
        [unitAt8000, otherOnRadar] queueC staleLists = some r ∧
      now =
        (drawUnitSet world0 settings0 world0.g.gu.directControl false false
            [unitAt5000, unitAt20000] DrawLists.empty).2.drawnNow.map DrawEvent.unitNow ++
          (tempUnits0.tempDrawUnits.entries.filter
            (fun e => world0.camera.InView e.2.pos 100)).map (fun e => DrawEvent.aiUnit e.2) ++
          (drawUnitSet world0 settings0 world0.g.gu.directControl false false
            [unitAt8000, otherOnRadar] DrawLists.empty).2.drawnNow.map DrawEvent.unitNow ++
          (S3OQueue.mk [[], [], []] [], [(0, 12), (0, 11), (2, 11), (2, 13)]).2.map
            (fun p => DrawEvent.s3oObject p.1 p.2) ∧
      (∀ e ∈ now, e.stage = 0) ∧
      (∀ unit, unit ∈ r.lists.drawnNow.drop staleLists.drawnNow.length ↔
        DrawEvent.unitNow unit ∈ now) ∧
      r.events = now ++
        [DrawEvent.shaderBins
          (if world0.water.drawReflection then LuaMatType.LUAMAT_OPAQUE_REFLECT
            else LuaMatType.LUAMAT_OPAQUE)] ++
        (if r.lists.drawFar = [] then [] else [DrawEvent.farTextures r.lists.drawFar]) ++
        r.lists.drawIcon.map DrawEvent.icon ++ r.lists.drawRadarIcon.map DrawEvent.radarBlip ++
        r.lists.drawStat.map DrawEvent.stats ∧
      (r.events.map DrawEvent.stage).Pairwise (· ≤ ·) :=
  ⟨by decide, Draw_emits_in_stage_order world0 settings0 tempUnits0 false
    [unitAt5000, unitAt20000] [unitAt8000, otherOnRadar] queueC staleLists
    (S3OQueue.mk [[], [], []] [], [(0, 12), (0, 11), (2, 11), (2, 13)]) (by decide)⟩

/-- The example pass evaluated: the lists it leaves, the stages of its draws (one immediate
unit draw, four temporary units, four queued objects, the flush, the far-texture batch, one
icon, one radar blip, two stat overlays), and the draws from the flush on. -/
theorem Draw_example :
    (Draw world0 settings0 tempUnits0 false false [unitAt5000, unitAt20000]
        [unitAt8000, otherOnRadar] queueC staleLists).map
        (fun r => (r.lists, r.events.map DrawEvent.stage, r.events.drop 9)) =
      some (DrawLists.mk [1] [1, 1] [1] [2] [1] [],
        [0, 0, 0, 0, 0, 0, 0, 0, 0, 1, 2, 3, 4, 5, 5],
        [DrawEvent.shaderBins LuaMatType.LUAMAT_OPAQUE, DrawEvent.farTextures [1],
          DrawEvent.icon 1, DrawEvent.radarBlip 2, DrawEvent.stats 1, DrawEvent.stats 1]) := by
  decide

end Spring
